import Mathlib

/-!
# PVZ service: reception lifecycle, product ledger and aggregate reader

A shallow embedding of the service layer (`internal/service`), the Postgres
repositories (`internal/repository`) and the entities (`internal/entity`) of
the pickup-point service, followed by theorems about them.

Conventions of the embedding

* `uuid.UUID` is a natural number, `uuid.Nil` is `0`; `time.Time` is an integer
  instant, so `Before` is `<` and `After` is `>`.
* A Go `error` is a `GoError`; `nil` is `none`.
* Go `int` is a 64-bit signed integer: arithmetic results are wrapped with
  `wrapInt64`; an out-of-range slice expression is a run-time panic (`none`).
* The database is three tables of rows kept in insertion order.  Everything the
  program does not determine (fresh identifiers, clock readings, driver
  failures, the row an `ORDER BY ... LIMIT 1` picks among equal keys) is read
  from an explicit environment.
* Every port call and every transaction boundary is appended to a call log
  (`World.trace`); the log is never rolled back.
-/

namespace Pvz

/-! ## Entities (`internal/entity`) -/

abbrev UUID := Nat

/-- The zero value `uuid.Nil`. -/
def uuidNil : UUID := 0

abbrev Time := Int

/-- Go `t.Before(u)`. -/
def Time.Before (t u : Time) : Bool := decide (t < u)

/-- Go `t.After(u)`. -/
def Time.After (t u : Time) : Bool := decide (t > u)

abbrev PVZCity := String

def CityMoscow : PVZCity := "Москва"
def CitySPB : PVZCity := "Санкт-Петербург"
def CityKazan : PVZCity := "Казань"

structure PVZ where
  ID : UUID
  RegistrationDate : Time
  City : PVZCity
  deriving DecidableEq, Repr

def IsValidCity (city : String) : Bool :=
  if city = CityMoscow ∨ city = CitySPB ∨ city = CityKazan then true else false

abbrev ReceptionStatus := String

def StatusInProgress : ReceptionStatus := "in_progress"
def StatusClosed : ReceptionStatus := "close"

structure Reception where
  ID : UUID
  DateTime : Time
  PVZID : UUID
  Status : ReceptionStatus
  CreatedAt : Time
  ClosedAt : Option Time
  deriving DecidableEq, Repr

abbrev ProductType := String

def ProductElectronics : ProductType := "электроника"
def ProductClothing : ProductType := "одежда"
def ProductShoes : ProductType := "обувь"

structure Product where
  ID : UUID
  DateTime : Time
  Type_ : ProductType
  ReceptionID : UUID
  deriving DecidableEq, Repr

def IsValidProductType (t : ProductType) : Bool :=
  if t = ProductElectronics ∨ t = ProductClothing ∨ t = ProductShoes then true else false

abbrev UserRole := String

def RoleClient : UserRole := "client"
def RoleEmployee : UserRole := "employee"
def RoleModerator : UserRole := "moderator"

def IsValidUserRole (role : UserRole) : Bool :=
  if role = RoleClient ∨ role = RoleEmployee ∨ role = RoleModerator then true else false

structure ReceptionWithProducts where
  Reception : Reception
  Products : List Product
  deriving DecidableEq, Repr

structure FullPVZInfo where
  PVZ : PVZ
  Receptions : List ReceptionWithProducts
  deriving DecidableEq, Repr

/-- Go error values: the sentinels of `entity/errs.go`, `sql.ErrNoRows`, and any
other lower-level failure of the storage driver. -/
inductive GoError where
  | ErrInvalidCredentials
  | ErrEmailTaken
  | ErrInvalidCity
  | ErrPVZNotFound
  | ErrReceptionAlreadyExists
  | ErrNoActiveReception
  | ErrInvalidProductType
  | ErrInvalidUserRole
  | ErrNoOpenReception
  | ErrNoProductsToDelete
  | ErrReceptionAlreadyClosed
  | sqlErrNoRows
  | driver (msg : String)
  deriving DecidableEq, Repr

/-- The domain errors: the sentinels declared in `entity/errs.go`. -/
def GoError.isDomain : GoError → Bool
  | .sqlErrNoRows => false
  | .driver _ => false
  | _ => true

/-- A storage failure: a lower-level I/O error that is not a not-found outcome. -/
def GoError.isStorageFailure : GoError → Bool
  | .driver _ => true
  | _ => false

/-! ## Machine integers and slices -/

/-- Two's-complement wrap of an integer into the range of a 64-bit signed `int`. -/
def wrapInt64 (x : Int) : Int := (x + 2 ^ 63) % 2 ^ 64 - 2 ^ 63

/-- The Go slice expression `s[lo:hi]` on a slice whose capacity is its length:
`none` is the run-time panic for bounds outside `0 <= lo <= hi <= len(s)`. -/
def goSlice {α : Type} (s : List α) (lo hi : Int) : Option (List α) :=
  if 0 ≤ lo ∧ lo ≤ hi ∧ hi ≤ (s.length : Int) then
    some ((s.drop lo.toNat).take (hi.toNat - lo.toNat))
  else none

/-! ## Pure helpers of the service layer -/

/-- Window of `pvz` for a one-based `page` of size `limit` (`service/pvz.go`). -/
def paginatePVZ (pvz : List PVZ) (page limit : Int) : Option (List PVZ) :=
  let start := wrapInt64 (wrapInt64 (page - 1) * limit)
  if start ≥ (pvz.length : Int) then some []
  else
    let end0 := wrapInt64 (start + limit)
    let end1 := if end0 ≥ (pvz.length : Int) then (pvz.length : Int) else end0
    goSlice pvz start end1

def extractPVZIDs (pvz : List PVZ) : List UUID :=
  pvz.foldl (fun ids p => ids ++ [p.ID]) []

/-- Loop of `filterReceptionsByDate` (`service/reception.go`): keep a reception
when it is not before `start` (if present) and not after `end` (if present). -/
def filterReceptionsByDate (receptions : List Reception) (start end_ : Option Time) :
    List Reception :=
  receptions.foldl
    (fun filtered reception =>
      if (match start with
          | none => true
          | some s => !(Time.Before reception.DateTime s)) &&
         (match end_ with
          | none => true
          | some e => !(Time.After reception.DateTime e))
      then filtered ++ [reception] else filtered)
    []

/-- The window test of the date filter as the specification words it: not
earlier than `start` when `start` is present, not later than `end` when `end`
is present. -/
def withinDates (start end_ : Option Time) (r : Reception) : Bool :=
  (match start with
   | none => true
   | some s => decide (s ≤ r.DateTime)) &&
  (match end_ with
   | none => true
   | some e => decide (r.DateTime ≤ e))

/-- A Go `map[uuid.UUID][]T`: a missing key reads as the nil slice. -/
abbrev GoMap (α : Type) := UUID → List α

def groupReceptionsByPVZ (receptions : List Reception) : GoMap Reception :=
  receptions.foldl
    (fun result reception =>
      Function.update result reception.PVZID (result reception.PVZID ++ [reception]))
    (fun _ => [])

def extractReceptionIDs (receptions : List Reception) : List UUID :=
  receptions.foldl (fun ids reception => ids ++ [reception.ID]) []

def groupProductsByReceptionID (products : List Product) : GoMap Product :=
  products.foldl
    (fun result product =>
      Function.update result product.ReceptionID (result product.ReceptionID ++ [product]))
    (fun _ => [])

def buildFullPVZInfo (pvz : List PVZ) (receptionMap : GoMap Reception)
    (productMap : GoMap Product) : List FullPVZInfo :=
  pvz.foldl
    (fun result p =>
      let receptions : List ReceptionWithProducts :=
        (receptionMap p.ID).foldl
          (fun receptions r => receptions ++ [{ Reception := r, Products := productMap r.ID }])
          []
      result ++ [{ PVZ := p, Receptions := receptions }])
    []

/-! ## Repository ports (`internal/repository/repository.go`) -/

/-- The repository ports the services depend on, over a storage state `σ`.
A Go result `(T, error)` is a pair; a method that writes through its pointer
argument returns the written value; a mutating method returns the new state. -/
structure Repository (σ : Type) where
  CreatePVZ : PVZ → σ → PVZ × Option GoError × σ
  IsPVZExists : UUID → σ → Bool × Option GoError
  GetAllPVZ : σ → List PVZ × Option GoError
  CreateReception : Reception → σ → Reception × Option GoError × σ
  IsReceptionOpenExists : UUID → σ → Bool × Option GoError
  GetOpenReception : UUID → σ → Except GoError Reception
  CloseReceptionByID : UUID → Time → σ → Option GoError × σ
  GetReceptionsByPVZIDs : List UUID → σ → List Reception × Option GoError
  CreateProduct : Product → σ → Product × Option GoError × σ
  DeleteLastProduct : UUID → σ → Option UUID × Option GoError × σ
  GetProductsByReceptionIDs : List UUID → σ → List Product × Option GoError

/-- One entry of the call log: a transaction boundary or a port call with its
arguments. -/
inductive Event where
  | txBegin
  | txCommit
  | txRollback
  | CreatePVZ (pvz : PVZ)
  | IsPVZExists (pvzID : UUID)
  | GetAllPVZ
  | CreateReception (reception : Reception)
  | IsReceptionOpenExists (pvzID : UUID)
  | GetOpenReception (pvzID : UUID)
  | CloseReceptionByID (receptionID : UUID) (closedAt : Time)
  | GetReceptionsByPVZIDs (pvzIDs : List UUID)
  | CreateProduct (product : Product)
  | DeleteLastProduct (receptionID : UUID)
  | GetProductsByReceptionIDs (receptionIDs : List UUID)
  deriving DecidableEq, Repr

/-- Whether a log entry is a port call that writes. -/
def Event.isMutation : Event → Bool
  | .CreatePVZ _ => true
  | .CreateReception _ => true
  | .CloseReceptionByID _ _ => true
  | .CreateProduct _ => true
  | .DeleteLastProduct _ => true
  | _ => false

/-- The storage state together with the call log. -/
structure World (σ : Type) where
  db : σ
  trace : List Event

def World.record {σ : Type} (e : Event) (w : World σ) : World σ :=
  { w with trace := w.trace ++ [e] }

/-- What one service call reads from outside the program: whether the
transaction can begin and commit, and the readings of `time.Now()`. -/
structure CallEnv where
  beginErr : Option String
  commitErr : Option String
  now : Time
  now2 : Time

/-! ## Transaction coordinator (`trManager.Do`) -/

/-- Modelled from the spec: the transaction manager behind `trManager.Do` is an
imported library, so the end of an atomic unit follows the coordinator contract
of the specification (section 4.1).  A work function that returned an error is
rolled back and its error returned as it is; otherwise the unit commits, and a
failed commit leaves nothing applied.  Variables captured by the work function
(`res`) keep the value the work function gave them. -/
def finishTx {σ α : Type} (env : CallEnv) (w0 : World σ)
    (out : (α × Option GoError) × World σ) : (α × Option GoError) × World σ :=
  match out with
  | ((res, some e), w1) => ((res, some e), { db := w0.db, trace := w1.trace ++ [.txRollback] })
  | ((res, none), w1) =>
    match env.commitErr with
    | some m => ((res, some (.driver m)), { db := w0.db, trace := w1.trace ++ [.txRollback] })
    | none => ((res, none), w1.record .txCommit)

/-- Modelled from the spec: the call `trManager.Do(ctx, fn)` of the imported
transaction manager, after the coordinator contract of the specification
(section 4.1).  A unit that cannot begin runs nothing; `init` is the value of
the captured result variable before `fn` runs. -/
def trManagerDo {σ α : Type} (env : CallEnv)
    (fn : World σ → (α × Option GoError) × World σ) (init : α) (w : World σ) :
    (α × Option GoError) × World σ :=
  match env.beginErr with
  | some m => ((init, some (.driver m)), w)
  | none => finishTx env w (fn (w.record .txBegin))

/-- Modelled from the spec: the call `trManager.Do(ctx, fn)` for a work function
that may panic (`none`); the unit is abandoned and the panic unwinds through
the coordinator and out of the use case. -/
def trManagerDoPanicking {σ α : Type} (env : CallEnv)
    (fn : World σ → Option ((α × Option GoError) × World σ)) (init : α) (w : World σ) :
    Option ((α × Option GoError) × World σ) :=
  match env.beginErr with
  | some m => some ((init, some (.driver m)), w)
  | none => (fn (w.record .txBegin)).map (finishTx env w)

/-! ## Services (`internal/service`)

The function literal a use case passes to `trManager.Do` is the definition with
the suffix `Work`; the variable it captures (`result`) is the first component
of what it returns. -/

def ReceptionService.CreateReceptionWork {σ : Type} (repo : Repository σ) (env : CallEnv)
    (pvzID : UUID) (w : World σ) : (Option Reception × Option GoError) × World σ :=
  let w := w.record (.IsPVZExists pvzID)
  match repo.IsPVZExists pvzID w.db with
  | (_, some err) => ((none, some err), w)
  | (pvzExists, none) =>
    if !pvzExists then ((none, some .ErrPVZNotFound), w)
    else
      let w := w.record (.IsReceptionOpenExists pvzID)
      match repo.IsReceptionOpenExists pvzID w.db with
      | (_, some err) => ((none, some err), w)
      | (openExists, none) =>
        if openExists then ((none, some .ErrReceptionAlreadyExists), w)
        else
          let reception : Reception :=
            { ID := uuidNil, DateTime := env.now, PVZID := pvzID,
              Status := StatusInProgress, CreatedAt := env.now2, ClosedAt := none }
          let w := w.record (.CreateReception reception)
          match repo.CreateReception reception w.db with
          | (_, some err, db) => ((none, some err), { w with db := db })
          | (reception, none, db) => ((some reception, none), { w with db := db })

def ReceptionService.CreateReception {σ : Type} (repo : Repository σ) (env : CallEnv)
    (pvzID : UUID) (w : World σ) : (Option Reception × Option GoError) × World σ :=
  match trManagerDo env (ReceptionService.CreateReceptionWork repo env pvzID) none w with
  | ((_, some err), w) => ((none, some err), w)
  | ((result, none), w) => ((result, none), w)

def ReceptionService.CloseLastReceptionWork {σ : Type} (repo : Repository σ) (env : CallEnv)
    (pvzID : UUID) (w : World σ) : (Option Reception × Option GoError) × World σ :=
  let w := w.record (.GetOpenReception pvzID)
  match repo.GetOpenReception pvzID w.db with
  | .error _ => ((none, some .ErrNoOpenReception), w)
  | .ok reception =>
    let timeClose := env.now
    let w := w.record (.CloseReceptionByID reception.ID timeClose)
    match repo.CloseReceptionByID reception.ID timeClose w.db with
    | (some err, db) =>
      if err = .ErrReceptionAlreadyClosed then
        ((none, some .ErrReceptionAlreadyClosed), { w with db := db })
      else ((none, some err), { w with db := db })
    | (none, db) =>
      ((some { reception with Status := StatusClosed, ClosedAt := some timeClose }, none),
        { w with db := db })

/-- The use case returns `result, err` as the coordinator left them. -/
def ReceptionService.CloseLastReception {σ : Type} (repo : Repository σ) (env : CallEnv)
    (pvzID : UUID) (w : World σ) : (Option Reception × Option GoError) × World σ :=
  trManagerDo env (ReceptionService.CloseLastReceptionWork repo env pvzID) none w

def ProductService.AddProductWork {σ : Type} (repo : Repository σ) (env : CallEnv)
    (pvzID : UUID) (productType : ProductType) (w : World σ) :
    (Option Product × Option GoError) × World σ :=
  let w := w.record (.GetOpenReception pvzID)
  match repo.GetOpenReception pvzID w.db with
  | .error _ => ((none, some .ErrNoActiveReception), w)
  | .ok reception =>
    let product : Product :=
      { ID := uuidNil, DateTime := env.now, Type_ := productType,
        ReceptionID := reception.ID }
    let w := w.record (.CreateProduct product)
    match repo.CreateProduct product w.db with
    | (_, some err, db) => ((none, some err), { w with db := db })
    | (product, none, db) => ((some product, none), { w with db := db })

def ProductService.AddProduct {σ : Type} (repo : Repository σ) (env : CallEnv)
    (pvzID : UUID) (productType : ProductType) (w : World σ) :
    (Option Product × Option GoError) × World σ :=
  if !IsValidProductType productType then ((none, some .ErrInvalidProductType), w)
  else
    match trManagerDo env (ProductService.AddProductWork repo env pvzID productType) none w with
    | ((_, some err), w) => ((none, some err), w)
    | ((result, none), w) => ((result, none), w)

def ProductService.DeleteLastProductWork {σ : Type} (repo : Repository σ)
    (pvzID : UUID) (w : World σ) : (Unit × Option GoError) × World σ :=
  let w := w.record (.GetOpenReception pvzID)
  match repo.GetOpenReception pvzID w.db with
  | .error _ => (((), some .ErrNoOpenReception), w)
  | .ok reception =>
    let w := w.record (.DeleteLastProduct reception.ID)
    match repo.DeleteLastProduct reception.ID w.db with
    | (_, some err, db) => (((), some err), { w with db := db })
    | (none, none, db) => (((), some .ErrNoProductsToDelete), { w with db := db })
    | (some _, none, db) => (((), none), { w with db := db })

def ProductService.DeleteLastProduct {σ : Type} (repo : Repository σ) (env : CallEnv)
    (pvzID : UUID) (w : World σ) : Option GoError × World σ :=
  let out := trManagerDo env (ProductService.DeleteLastProductWork repo pvzID) () w
  (out.1.2, out.2)

/-- The use case `CreatePVZ` calls the port directly, outside `trManager.Do`. -/
def PVZService.CreatePVZ {σ : Type} (repo : Repository σ) (env : CallEnv)
    (city : String) (w : World σ) : (Option PVZ × Option GoError) × World σ :=
  if !IsValidCity city then ((none, some .ErrInvalidCity), w)
  else
    let pvz : PVZ := { ID := uuidNil, RegistrationDate := env.now, City := city }
    let w := w.record (.CreatePVZ pvz)
    match repo.CreatePVZ pvz w.db with
    | (_, some err, db) => ((none, some err), { w with db := db })
    | (pvz, none, db) => ((some pvz, none), { w with db := db })

/-- Work function of `GetFullPVZInfo`; `none` is a run-time panic raised by the
slice expression of `paginatePVZ`. -/
def PVZService.GetFullPVZInfoWork {σ : Type} (repo : Repository σ)
    (startDate endDate : Option Time) (page limit : Int) (w : World σ) :
    Option ((List FullPVZInfo × Option GoError) × World σ) :=
  let w := w.record .GetAllPVZ
  match repo.GetAllPVZ w.db with
  | (_, some err) => some (([], some err), w)
  | (allPVZ, none) =>
    match paginatePVZ allPVZ page limit with
    | none => none
    | some paginated =>
      let pvzIDs := extractPVZIDs paginated
      let w := w.record (.GetReceptionsByPVZIDs pvzIDs)
      match repo.GetReceptionsByPVZIDs pvzIDs w.db with
      | (_, some err) => some (([], some err), w)
      | (allReceptions, none) =>
        let filtered := filterReceptionsByDate allReceptions startDate endDate
        let receptionMap := groupReceptionsByPVZ filtered
        let receptionIDs := extractReceptionIDs filtered
        let w := w.record (.GetProductsByReceptionIDs receptionIDs)
        match repo.GetProductsByReceptionIDs receptionIDs w.db with
        | (_, some err) => some (([], some err), w)
        | (allProducts, none) =>
          let productMap := groupProductsByReceptionID allProducts
          some ((buildFullPVZInfo paginated receptionMap productMap, none), w)

/-- The use case `GetFullPVZInfo`; `none` is a run-time panic. -/
def PVZService.GetFullPVZInfo {σ : Type} (repo : Repository σ) (env : CallEnv)
    (startDate endDate : Option Time) (page limit : Int) (w : World σ) :
    Option ((List FullPVZInfo × Option GoError) × World σ) :=
  match trManagerDoPanicking env
      (PVZService.GetFullPVZInfoWork repo startDate endDate page limit) [] w with
  | none => none
  | some ((_, some err), w) => some (([], some err), w)
  | some ((result, none), w) => some ((result, none), w)

/-! ## Postgres repositories (`internal/repository`) -/

/-- The three tables, rows in insertion order. -/
structure DB where
  pvz : List PVZ
  receptions : List Reception
  products : List Product
  deriving DecidableEq, Repr

/-- The repository methods, as keys of the fault table. -/
inductive Port where
  | CreatePVZ
  | IsPVZExists
  | GetAllPVZ
  | CreateReception
  | IsReceptionOpenExists
  | GetOpenReception
  | CloseReceptionByID
  | GetReceptionsByPVZIDs
  | CreateProduct
  | DeleteLastProduct
  | GetProductsByReceptionIDs
  deriving DecidableEq, Repr

/-- What the Postgres repositories read from outside the program during one
service call: the value of `uuid.New()`, the driver failure (if any) of each
statement, and the position picked among rows with equal sort key by an
`ORDER BY ... LIMIT 1`. -/
structure PgEnv where
  newID : UUID
  tie : Nat
  fault : Port → Option String

/-- Largest key among the rows, if there is a row. -/
def maxKey {α : Type} (key : α → Time) : List α → Option Time
  | [] => none
  | x :: xs =>
    match maxKey key xs with
    | none => some (key x)
    | some m => some (max (key x) m)

/-- The row returned by `ORDER BY key DESC LIMIT 1`: one of the rows with the
largest key; which one, when several share it, is left to `tie`. -/
def pickLatest {α : Type} (key : α → Time) (tie : Nat) (rows : List α) : Option α :=
  match maxKey key rows with
  | none => none
  | some m =>
    let top := rows.filter (fun r => decide (key r = m))
    top[tie % top.length]?

/-- The conversion `RegistrationDate.UTC()` keeps the instant. -/
def PVZPostgres.CreatePVZ (env : PgEnv) (pvz : PVZ) (db : DB) : PVZ × Option GoError × DB :=
  let pvz := { pvz with ID := env.newID }
  match env.fault .CreatePVZ with
  | some m => (pvz, some (.driver m), db)
  | none => (pvz, none, { db with pvz := db.pvz ++ [pvz] })

def PVZPostgres.IsPVZExists (env : PgEnv) (pvzID : UUID) (db : DB) : Bool × Option GoError :=
  match env.fault .IsPVZExists with
  | some m => (false, some (.driver m))
  | none => (db.pvz.any (fun p => decide (p.ID = pvzID)), none)

/-- The query orders by `registration_date DESC`; rows with equal dates are kept
in table order. -/
def PVZPostgres.GetAllPVZ (env : PgEnv) (db : DB) : List PVZ × Option GoError :=
  match env.fault .GetAllPVZ with
  | some m => ([], some (.driver m))
  | none =>
    (db.pvz.insertionSort (fun a b => b.RegistrationDate ≤ a.RegistrationDate), none)

def ReceptionPostgres.CreateReception (env : PgEnv) (reception : Reception) (db : DB) :
    Reception × Option GoError × DB :=
  let reception := { reception with ID := env.newID }
  match env.fault .CreateReception with
  | some m => (reception, some (.driver m), db)
  | none =>
    -- the INSERT names no closed_at column
    (reception, none,
      { db with receptions := db.receptions ++ [{ reception with ClosedAt := none }] })

/-- Rows matched by `WHERE pvz_id = $1 AND status = 'in_progress'`. -/
def openReceptions (db : DB) (pvzID : UUID) : List Reception :=
  db.receptions.filter (fun r => decide (r.PVZID = pvzID) && decide (r.Status = StatusInProgress))

def ReceptionPostgres.IsReceptionOpenExists (env : PgEnv) (pvzID : UUID) (db : DB) :
    Bool × Option GoError :=
  match env.fault .IsReceptionOpenExists with
  | some m => (false, some (.driver m))
  | none =>
    let count := (openReceptions db pvzID).length
    (decide (count > 0), none)

def ReceptionPostgres.GetOpenReception (env : PgEnv) (pvzID : UUID) (db : DB) :
    Except GoError Reception :=
  match env.fault .GetOpenReception with
  | some m => .error (.driver m)
  | none =>
    match pickLatest (fun r => r.CreatedAt) env.tie (openReceptions db pvzID) with
    | none => .error .sqlErrNoRows
    | some reception => .ok reception

/-- Rows matched by `WHERE id = $1 AND status = 'in_progress'`. -/
def closeMatches (receptionID : UUID) (r : Reception) : Bool :=
  decide (r.ID = receptionID) && decide (r.Status = StatusInProgress)

def ReceptionPostgres.CloseReceptionByID (env : PgEnv) (receptionID : UUID) (closedAt : Time)
    (db : DB) : Option GoError × DB :=
  match env.fault .CloseReceptionByID with
  | some m => (some (.driver m), db)
  | none =>
    let rowsAffected := (db.receptions.filter (closeMatches receptionID)).length
    let db := { db with receptions := db.receptions.map (fun r =>
      if closeMatches receptionID r then
        { r with Status := StatusClosed, ClosedAt := some closedAt }
      else r) }
    if rowsAffected = 0 then (some .ErrReceptionAlreadyClosed, db) else (none, db)

def ReceptionPostgres.GetReceptionsByPVZIDs (env : PgEnv) (pvzIDs : List UUID) (db : DB) :
    List Reception × Option GoError :=
  if pvzIDs.length = 0 then ([], none)
  else
    match env.fault .GetReceptionsByPVZIDs with
    | some m => ([], some (.driver m))
    | none => (db.receptions.filter (fun r => decide (r.PVZID ∈ pvzIDs)), none)

def ProductPostgres.CreateProduct (env : PgEnv) (product : Product) (db : DB) :
    Product × Option GoError × DB :=
  let product := { product with ID := env.newID }
  match env.fault .CreateProduct with
  | some m => (product, some (.driver m), db)
  | none => (product, none, { db with products := db.products ++ [product] })

def ProductPostgres.DeleteLastProduct (env : PgEnv) (receptionID : UUID) (db : DB) :
    Option UUID × Option GoError × DB :=
  match env.fault .DeleteLastProduct with
  | some m => (none, some (.driver m), db)
  | none =>
    match pickLatest (fun p => p.DateTime) env.tie
        (db.products.filter (fun p => decide (p.ReceptionID = receptionID))) with
    | none => (none, none, db)
    | some last =>
      (some last.ID, none,
        { db with products := db.products.filter (fun p => !decide (p.ID = last.ID)) })

def ProductPostgres.GetProductsByReceptionIDs (env : PgEnv) (receptionIDs : List UUID)
    (db : DB) : List Product × Option GoError :=
  if receptionIDs.length = 0 then ([], none)
  else
    match env.fault .GetProductsByReceptionIDs with
    | some m => ([], some (.driver m))
    | none => (db.products.filter (fun p => decide (p.ReceptionID ∈ receptionIDs)), none)

/-- The value built by `NewRepository`: the Postgres implementation of every port. -/
def NewRepository (env : PgEnv) : Repository DB where
  CreatePVZ := PVZPostgres.CreatePVZ env
  IsPVZExists := PVZPostgres.IsPVZExists env
  GetAllPVZ := PVZPostgres.GetAllPVZ env
  CreateReception := ReceptionPostgres.CreateReception env
  IsReceptionOpenExists := ReceptionPostgres.IsReceptionOpenExists env
  GetOpenReception := ReceptionPostgres.GetOpenReception env
  CloseReceptionByID := ReceptionPostgres.CloseReceptionByID env
  GetReceptionsByPVZIDs := ReceptionPostgres.GetReceptionsByPVZIDs env
  CreateProduct := ProductPostgres.CreateProduct env
  DeleteLastProduct := ProductPostgres.DeleteLastProduct env
  GetProductsByReceptionIDs := ProductPostgres.GetProductsByReceptionIDs env

/-! ## Sequences of service calls on the Postgres store -/

/-- A mutating service call with its arguments. -/
inductive Op where
  | CreatePVZ (city : String)
  | CreateReception (pvzID : UUID)
  | CloseLastReception (pvzID : UUID)
  | AddProduct (pvzID : UUID) (productType : ProductType)
  | DeleteLastProduct (pvzID : UUID)
  deriving DecidableEq, Repr

/-- Everything one service call on the Postgres store reads from outside. -/
structure StepEnv where
  call : CallEnv
  pg : PgEnv

/-- One service call executed on the Postgres store; the returned values are
dropped, the store and the call log are kept. -/
def step (e : StepEnv) (op : Op) (w : World DB) : World DB :=
  match op with
  | .CreatePVZ city => (PVZService.CreatePVZ (NewRepository e.pg) e.call city w).2
  | .CreateReception pvzID =>
    (ReceptionService.CreateReception (NewRepository e.pg) e.call pvzID w).2
  | .CloseLastReception pvzID =>
    (ReceptionService.CloseLastReception (NewRepository e.pg) e.call pvzID w).2
  | .AddProduct pvzID productType =>
    (ProductService.AddProduct (NewRepository e.pg) e.call pvzID productType w).2
  | .DeleteLastProduct pvzID =>
    (ProductService.DeleteLastProduct (NewRepository e.pg) e.call pvzID w).2

/-- Service calls executed one after the other. -/
def run (ops : List (StepEnv × Op)) (w : World DB) : World DB :=
  ops.foldl (fun w x => step x.1 x.2 w) w

/-- Number of receptions of a PVZ with status `in_progress`. -/
def openCount (db : DB) (pvzID : UUID) : Nat :=
  (openReceptions db pvzID).length

/-- Every PVZ has 0 or 1 receptions with status `in_progress`. -/
def AtMostOneOpen (db : DB) : Prop :=
  ∀ pvzID : UUID, openCount db pvzID ≤ 1

/-- A call environment in which the transaction begins and commits. -/
def CallEnv.healthy (env : CallEnv) : Prop :=
  env.beginErr = none ∧ env.commitErr = none

/-! ## Concrete data used by the examples -/

/-- The first `n` PVZ of a sample table: identifiers `1..n`, newest first. -/
def samplePVZ (n : Nat) : List PVZ :=
  (List.range n).map (fun i => { ID := i + 1, RegistrationDate := 1000 - i, City := CityKazan })

/-- A call environment without failures: the transaction begins and commits. -/
def sampleCall (now : Time) : CallEnv :=
  { beginErr := none, commitErr := none, now := now, now2 := now }

/-- A Postgres environment without driver failures that hands out `newID`. -/
def samplePg (newID : UUID) : PgEnv :=
  { newID := newID, tie := 0, fault := fun _ => none }

/-- A store with three PVZ; PVZ 1 has a closed and an open reception, PVZ 2 a
closed one, PVZ 3 none. -/
def sampleDB : DB :=
  { pvz := [{ ID := 1, RegistrationDate := 30, City := CityMoscow },
            { ID := 2, RegistrationDate := 20, City := CitySPB },
            { ID := 3, RegistrationDate := 10, City := CityKazan }],
    receptions := [{ ID := 11, DateTime := 5, PVZID := 1, Status := StatusClosed,
                     CreatedAt := 5, ClosedAt := some 6 },
                   { ID := 21, DateTime := 7, PVZID := 2, Status := StatusClosed,
                     CreatedAt := 7, ClosedAt := some 9 },
                   { ID := 12, DateTime := 15, PVZID := 1, Status := StatusInProgress,
                     CreatedAt := 15, ClosedAt := none }],
    products := [{ ID := 101, DateTime := 5, Type_ := ProductShoes, ReceptionID := 11 },
                 { ID := 102, DateTime := 8, Type_ := ProductClothing, ReceptionID := 21 },
                 { ID := 103, DateTime := 16, Type_ := ProductElectronics, ReceptionID := 12 },
                 { ID := 104, DateTime := 17, Type_ := ProductShoes, ReceptionID := 12 }] }

def sampleWorld : World DB := { db := sampleDB, trace := [] }

/-- A step environment without failures. -/
def sampleStep (newID : UUID) (now : Time) : StepEnv :=
  { call := sampleCall now, pg := samplePg newID }

/-- A step environment in which the commit of the transaction fails. -/
def sampleStepCommitFails (newID : UUID) (now : Time) : StepEnv :=
  { call := { beginErr := none, commitErr := some "commit failed", now := now, now2 := now },
    pg := samplePg newID }

/-- A run over `sampleWorld` that mixes calls that succeed and calls that fail. -/
def sampleOps : List (StepEnv × Op) :=
  [(sampleStep 4 40, .CreatePVZ "Omsk"),
   (sampleStep 4 41, .CreatePVZ CityKazan),
   (sampleStep 13 42, .CreateReception 1),
   (sampleStep 105 43, .AddProduct 1 ProductShoes),
   (sampleStep 0 44, .CloseLastReception 1),
   (sampleStep 0 45, .CloseLastReception 1),
   (sampleStepCommitFails 13 46, .CreateReception 1),
   (sampleStep 13 47, .CreateReception 1),
   (sampleStep 31 48, .CreateReception 3),
   (sampleStep 106 49, .AddProduct 3 ProductClothing),
   (sampleStep 0 50, .DeleteLastProduct 3),
   (sampleStep 0 51, .DeleteLastProduct 3),
   (sampleStep 41 52, .CreateReception 4),
   (sampleStep 42 53, .CreateReception 4),
   (sampleStep 51 54, .CreateReception 5)]

/-- The Postgres ports with a `GetOpenReception` that answers with a row read
earlier (`stale`): the view of a caller whose reception was closed by someone
else between its read and its update. -/
def staleRepository (env : PgEnv) (stale : Reception) : Repository DB :=
  { NewRepository env with GetOpenReception := fun _ _ => .ok stale }

/-- Reception 11 of `sampleDB` as it was while still open. -/
def sampleStaleReception : Reception :=
  { ID := 11, DateTime := 5, PVZID := 1, Status := StatusInProgress, CreatedAt := 5,
    ClosedAt := none }

/-- A store that breaks the invariant: PVZ 1 has two receptions with status
`in_progress` (the outcome of two racing `CreateReception` calls). -/
def sampleTwoOpenWorld : World DB :=
  { db := { pvz := [{ ID := 1, RegistrationDate := 30, City := CityMoscow }],
            receptions := [{ ID := 12, DateTime := 15, PVZID := 1, Status := StatusInProgress,
                             CreatedAt := 15, ClosedAt := none },
                           { ID := 14, DateTime := 16, PVZID := 1, Status := StatusInProgress,
                             CreatedAt := 16, ClosedAt := none }],
            products := [] },
    trace := [] }

/-- A Postgres environment in which the statement of `port` fails with the
driver error `msg` and every other statement works. -/
def sampleFaultPg (port : Port) (msg : String) : PgEnv :=
  { newID := 0, tie := 0, fault := fun p => if p = port then some msg else none }

/-! ## Runs of the product ledger -/

/-- An environment in which the transaction begins and commits and no statement
fails. -/
def StepEnv.noFailure (e : StepEnv) : Prop :=
  e.call.beginErr = none ∧ e.call.commitErr = none ∧ ∀ p : Port, e.pg.fault p = none

/-- The `AddProduct` calls of a run for one PVZ: each with its environment and
the requested category. -/
def addOps (pvzID : UUID) (adds : List (StepEnv × ProductType)) : List (StepEnv × Op) :=
  adds.map (fun a => (a.1, Op.AddProduct pvzID a.2))

/-- The row `AddProduct` inserts in environment `a.1` for category `a.2` into
reception `receptionID`. -/
def addedProduct (receptionID : UUID) (a : StepEnv × ProductType) : Product :=
  { ID := a.1.pg.newID, DateTime := a.1.call.now, Type_ := a.2, ReceptionID := receptionID }

/-- Successive `DeleteLastProduct` calls for one PVZ, one per environment: the
error each call returned, and the world after the last call. -/
def deleteLastProductTimes (pvzID : UUID) :
    List StepEnv → World DB → List (Option GoError) × World DB
  | [], w => ([], w)
  | e :: es, w =>
    let out := ProductService.DeleteLastProduct (NewRepository e.pg) e.call pvzID w
    let rest := deleteLastProductTimes pvzID es out.2
    (out.1 :: rest.1, rest.2)

/-- Three `AddProduct` requests for the sample store, with increasing clock
readings and fresh identifiers. -/
def sampleAdds : List (StepEnv × ProductType) :=
  [(sampleStep 201 61, ProductShoes), (sampleStep 202 62, ProductClothing),
   (sampleStep 203 63, ProductElectronics)]

/-- The requests of a run carry strictly increasing clock readings and
identifiers that are pairwise distinct and not used by a row of `base`. -/
def FreshAdds (base : List Product) (adds : List (StepEnv × ProductType)) : Prop :=
  (adds.map (fun a => a.1.call.now)).Pairwise (fun s t => s < t) ∧
  (adds.map (fun a => a.1.pg.newID)).Nodup ∧
  ∀ a ∈ adds, ∀ p ∈ base, p.ID ≠ a.1.pg.newID

/-! ## Reading the call log -/

/-- Whether a log entry is a transaction boundary. -/
def Event.isTx : Event → Bool
  | .txBegin => true
  | .txCommit => true
  | .txRollback => true
  | _ => false

/-- The entries a call appended to the call log. -/
def newEvents {σ : Type} (before after : World σ) : List Event :=
  after.trace.drop before.trace.length

/-- Scan of log entries: every port call that writes lies between a begin and
the commit or rollback that ends it; `inUnit` says whether an atomic unit is
open where the scan starts. -/
def writesInsideUnits (inUnit : Bool) : List Event → Bool
  | [] => true
  | e :: es =>
    match e with
    | .txBegin => writesInsideUnits true es
    | .txCommit => writesInsideUnits false es
    | .txRollback => writesInsideUnits false es
    | _ => (!e.isMutation || inUnit) && writesInsideUnits inUnit es

/-- Number of atomic units begun in a stretch of the call log. -/
def unitsBegun (es : List Event) : Nat :=
  es.count .txBegin

/-- The entries of one call form at most one atomic unit and every write among
them lies inside it: either the call logged nothing, or it began exactly one
unit. -/
def InOneUnit (es : List Event) : Prop :=
  writesInsideUnits false es = true ∧ (es = [] ∨ unitsBegun es = 1)

/-! ## Close timestamps -/

/-- The store before any service call. -/
def emptyDB : DB := { pvz := [], receptions := [], products := [] }

def emptyWorld : World DB := { db := emptyDB, trace := [] }

/-- A reception has a close timestamp exactly when its status is `close`. -/
def ClosedAtInvariant (db : DB) : Prop :=
  ∀ r ∈ db.receptions, (r.ClosedAt ≠ none ↔ r.Status = StatusClosed)

/-- What the conditional update of `CloseReceptionByID` does to one row. -/
def closeRow (receptionID : UUID) (closedAt : Time) (r : Reception) : Reception :=
  if closeMatches receptionID r then
    { r with Status := StatusClosed, ClosedAt := some closedAt }
  else r

/-! ## Products of a reception -/

/-- Modelled from the spec: all identities are globally unique (section 3).  The
table declarations that enforce it (primary keys) are not among the sources, so
uniqueness of the identifiers in the reception and product tables is a property
of the stores considered. -/
def DB.keysUnique (db : DB) : Prop :=
  (db.receptions.map (fun r => r.ID)).Nodup ∧ (db.products.map (fun p => p.ID)).Nodup

/-- The products owned by a reception, in table order. -/
def productsOf (db : DB) (receptionID : UUID) : List Product :=
  db.products.filter (fun p => decide (p.ReceptionID = receptionID))

/-- A Postgres environment without driver failures in which `ORDER BY ... LIMIT 1`
returns the row at position `tie` among those with the largest key. -/
def samplePgTie (tie : Nat) : PgEnv :=
  { newID := 0, tie := tie, fault := fun _ => none }

/-- A store whose open reception 12 holds two products with the same creation
timestamp; product 301 was inserted first, product 302 last. -/
def sampleTieWorld : World DB :=
  { db := { pvz := [{ ID := 1, RegistrationDate := 30, City := CityMoscow }],
            receptions := [{ ID := 12, DateTime := 15, PVZID := 1, Status := StatusInProgress,
                             CreatedAt := 15, ClosedAt := none }],
            products := [{ ID := 301, DateTime := 70, Type_ := ProductShoes, ReceptionID := 12 },
                         { ID := 302, DateTime := 70, Type_ := ProductShoes,
                           ReceptionID := 12 }] },
    trace := [] }

/-- The pages `1..k` of a list for one page size, one after the other; `none`
when a page panics. -/
def pagesConcat (pvz : List PVZ) (limit : Int) : Nat → Option (List PVZ)
  | 0 => some []
  | k + 1 =>
    match pagesConcat pvz limit k, paginatePVZ pvz ((k : Int) + 1) limit with
    | some acc, some page => some (acc ++ page)
    | _, _ => none

/-! # Theorems -/

theorem foldl_append_map {α β : Type} (f : α → β) (l : List α) (init : List β) :
    l.foldl (fun acc x => acc ++ [f x]) init = init ++ l.map f := by
  induction l generalizing init with
  | nil => simp
  | cons x xs ih => simp [ih]

theorem foldl_append_filter {α : Type} (p : α → Bool) (l : List α) (init : List α) :
    l.foldl (fun acc x => if p x then acc ++ [x] else acc) init = init ++ l.filter p := by
  induction l generalizing init with
  | nil => simp
  | cons x xs ih =>
    by_cases h : p x <;> simp [ih, h]

theorem extractPVZIDs_eq_map (pvz : List PVZ) : extractPVZIDs pvz = pvz.map (fun p => p.ID) := by
  simpa [extractPVZIDs] using foldl_append_map (fun p : PVZ => p.ID) pvz []

theorem extractReceptionIDs_eq_map (rs : List Reception) :
    extractReceptionIDs rs = rs.map (fun r => r.ID) := by
  simpa [extractReceptionIDs] using foldl_append_map (fun r : Reception => r.ID) rs []

theorem filterReceptionsByDate_eq_filter (rs : List Reception) (start end_ : Option Time) :
    filterReceptionsByDate rs start end_ = rs.filter (withinDates start end_) := by
  have h := foldl_append_filter (withinDates start end_) rs []
  simp only [List.nil_append] at h
  rw [← h]
  unfold filterReceptionsByDate
  congr 1
  funext filtered reception
  cases start <;> cases end_ <;>
    simp [withinDates, Time.Before, Time.After]

theorem group_foldl_apply {α : Type} (key : α → UUID) (l : List α) (init : GoMap α) (k : UUID) :
    l.foldl (fun result x => Function.update result (key x) (result (key x) ++ [x])) init k
      = init k ++ l.filter (fun x => decide (key x = k)) := by
  induction l generalizing init with
  | nil => simp
  | cons x xs ih =>
    rw [List.foldl_cons, ih]
    by_cases h : key x = k
    · subst h; simp
    · simp [h, Function.update_noteq (Ne.symm h)]

theorem groupReceptionsByPVZ_apply (rs : List Reception) (k : UUID) :
    groupReceptionsByPVZ rs k = rs.filter (fun r => decide (r.PVZID = k)) := by
  simpa [groupReceptionsByPVZ] using group_foldl_apply (fun r : Reception => r.PVZID) rs (fun _ => []) k

theorem groupProductsByReceptionID_apply (ps : List Product) (k : UUID) :
    groupProductsByReceptionID ps k = ps.filter (fun p => decide (p.ReceptionID = k)) := by
  simpa [groupProductsByReceptionID] using
    group_foldl_apply (fun p : Product => p.ReceptionID) ps (fun _ => []) k

theorem buildFullPVZInfo_eq_map (pvz : List PVZ) (receptionMap : GoMap Reception)
    (productMap : GoMap Product) :
    buildFullPVZInfo pvz receptionMap productMap =
      pvz.map (fun p =>
        { PVZ := p,
          Receptions := (receptionMap p.ID).map
            (fun r => { Reception := r, Products := productMap r.ID }) }) := by
  unfold buildFullPVZInfo
  rw [show (fun (result : List FullPVZInfo) (p : PVZ) =>
        let receptions : List ReceptionWithProducts :=
          (receptionMap p.ID).foldl
            (fun receptions r => receptions ++ [{ Reception := r, Products := productMap r.ID }])
            []
        result ++ [{ PVZ := p, Receptions := receptions }])
      = (fun result p => result ++ [FullPVZInfo.mk p ((receptionMap p.ID).map
            (fun r => ReceptionWithProducts.mk r (productMap r.ID)))]) from by
    funext result p
    have h2 := foldl_append_map (fun r : Reception => ReceptionWithProducts.mk r (productMap r.ID))
      (receptionMap p.ID) []
    simp only [List.nil_append] at h2
    simp only [h2]]
  simpa using foldl_append_map (fun p : PVZ => FullPVZInfo.mk p ((receptionMap p.ID).map
            (fun r => ReceptionWithProducts.mk r (productMap r.ID)))) pvz []

theorem wrapInt64_of_inRange (x : Int) (h1 : -(2 ^ 63) ≤ x) (h2 : x < 2 ^ 63) :
    wrapInt64 x = x := by
  unfold wrapInt64
  rw [Int.emod_eq_of_lt (by omega) (by omega)]
  omega

theorem goSlice_eq_some {α : Type} (s : List α) (lo hi : Int) (h0 : 0 ≤ lo) (h1 : lo ≤ hi)
    (h2 : hi ≤ (s.length : Int)) :
    goSlice s lo hi = some ((s.drop lo.toNat).take (hi.toNat - lo.toNat)) := by
  unfold goSlice
  rw [if_pos ⟨h0, h1, h2⟩]

theorem goSlice_sublist {α : Type} (s : List α) (lo hi : Int) (p : List α)
    (h : goSlice s lo hi = some p) : p.Sublist s := by
  unfold goSlice at h
  split at h
  · cases h
    exact (List.take_sublist _ _).trans (List.drop_sublist _ _)
  · cases h

theorem paginatePVZ_sublist (pvz : List PVZ) (page limit : Int) (p : List PVZ)
    (h : paginatePVZ pvz page limit = some p) : p.Sublist pvz := by
  unfold paginatePVZ at h
  simp only at h
  split at h
  · cases h
    exact List.nil_sublist _
  · exact goSlice_sublist _ _ _ _ h

/-- Without overflow the page is the window `[(page-1)*limit, (page-1)*limit+limit)`
clipped to the list. -/
theorem paginatePVZ_window (pvz : List PVZ) (page limit : Int) (hp : 1 ≤ page) (hl : 1 ≤ limit)
    (hfit : (page - 1) * limit + limit < 2 ^ 63) :
    paginatePVZ pvz page limit =
      some ((pvz.drop ((page - 1) * limit).toNat).take limit.toNat) := by
  have hp0 : 0 ≤ page - 1 := by omega
  have hmul : 0 ≤ (page - 1) * limit := Int.mul_nonneg hp0 (by omega)
  have hle : page - 1 ≤ (page - 1) * limit := by nlinarith
  have hw1 : wrapInt64 (page - 1) = page - 1 := wrapInt64_of_inRange _ (by omega) (by omega)
  have hw2 : wrapInt64 ((page - 1) * limit) = (page - 1) * limit :=
    wrapInt64_of_inRange _ (by omega) (by omega)
  have hw3 : wrapInt64 ((page - 1) * limit + limit) = (page - 1) * limit + limit :=
    wrapInt64_of_inRange _ (by omega) (by omega)
  unfold paginatePVZ
  simp only [hw1, hw2, hw3]
  generalize (page - 1) * limit = start at *
  by_cases hs : start ≥ (pvz.length : Int)
  · rw [if_pos hs]
    have : pvz.length ≤ start.toNat := by omega
    rw [List.drop_eq_nil_of_le this]
    simp
  · rw [if_neg hs]
    by_cases he : start + limit ≥ (pvz.length : Int)
    · rw [if_pos he, goSlice_eq_some _ _ _ hmul (by omega) (le_refl _)]
      congr 1
      rw [List.take_of_length_le, List.take_of_length_le]
      · rw [List.length_drop]; omega
      · rw [List.length_drop]; omega
    · rw [if_neg he, goSlice_eq_some _ _ _ hmul (by omega) (by omega)]
      congr 2
      omega

/-- Elements of a window by index. -/
theorem getElem?_drop_take {α : Type} (l : List α) (a b i : Nat) :
    ((l.drop a).take b)[i]? = if i < b then l[a + i]? else none := by
  rw [List.getElem?_take]
  split
  · rw [List.getElem?_drop]
  · rfl

/-- Without overflow `paginatePVZ` returns, in order, exactly the elements at the
zero-based indices of the window `[(page-1)*limit, (page-1)*limit+limit)` that
exist, and nothing when the window starts at or after the end of the list. -/
theorem paginatePVZ_indices (pvz : List PVZ) (page limit : Int) (hp : 1 ≤ page)
    (hl : 1 ≤ limit) (hfit : (page - 1) * limit + limit < 2 ^ 63) :
    ∃ p, paginatePVZ pvz page limit = some p ∧
      (∀ i : Nat, p[i]? =
        if (i : Int) < limit then pvz[((page - 1) * limit).toNat + i]? else none) ∧
      ((page - 1) * limit ≥ (pvz.length : Int) → p = []) ∧
      p.Sublist pvz := by
  refine ⟨_, paginatePVZ_window pvz page limit hp hl hfit, ?_, ?_, ?_⟩
  · intro i
    rw [getElem?_drop_take]
    have hiff : i < limit.toNat ↔ (i : Int) < limit := by omega
    by_cases h : (i : Int) < limit
    · rw [if_pos h, if_pos (hiff.2 h)]
    · rw [if_neg h, if_neg (fun h2 => h (hiff.1 h2))]
  · intro hge
    have hmul : 0 ≤ (page - 1) * limit := Int.mul_nonneg (by omega) (by omega)
    have : pvz.length ≤ ((page - 1) * limit).toNat := by omega
    rw [List.drop_eq_nil_of_le this]
    exact List.take_nil
  · exact (List.take_sublist _ _).trans (List.drop_sublist _ _)

/-- C7 (failing input): with 25 PVZ, `page = 2^62 + 1` and `limit = 4` the window
start `(page-1)*limit = 2^64` lies far beyond the 25 rows, yet the 64-bit product
wraps to 0 and `paginatePVZ` returns the first four PVZ instead of an empty
page. -/
theorem C7_paginatePVZ_wraps_to_first_page :
    (samplePVZ 25).length = 25 ∧
    ((4611686018427387905 - 1) * 4 : Int) ≥ 25 ∧
    (1 : Int) ≤ 4611686018427387905 ∧ (4611686018427387905 : Int) < 2 ^ 63 ∧
    paginatePVZ (samplePVZ 25) 4611686018427387905 4 = some ((samplePVZ 25).take 4) ∧
    paginatePVZ (samplePVZ 25) 4611686018427387905 4 ≠ some [] := by
  decide

/-- The pagination boundary of the specification: 25 PVZ, `limit = 10`. -/
theorem paginatePVZ_boundary_25 :
    paginatePVZ (samplePVZ 25) 3 10 = some ((samplePVZ 25).drop 20) ∧
    ((samplePVZ 25).drop 20).length = 5 ∧
    paginatePVZ (samplePVZ 25) 4 10 = some [] := by
  decide

/-- C8: `filterReceptionsByDate` keeps, in the original order, exactly the
receptions that are not earlier than `start` (when present) and not later than
`end` (when present); a reception whose timestamp equals a bound passes that
bound, and with both bounds absent every reception is kept. -/
theorem C8_filterReceptionsByDate_exact (receptions : List Reception) (start end_ : Option Time) :
    filterReceptionsByDate receptions start end_ = receptions.filter (withinDates start end_) ∧
    (filterReceptionsByDate receptions start end_).Sublist receptions ∧
    (∀ r : Reception, r ∈ filterReceptionsByDate receptions start end_ ↔
      (r ∈ receptions ∧ (∀ s, start = some s → s ≤ r.DateTime) ∧
        (∀ e, end_ = some e → r.DateTime ≤ e))) ∧
    (∀ r : Reception, r ∈ receptions → start = some r.DateTime →
      (∀ e, end_ = some e → r.DateTime ≤ e) →
      r ∈ filterReceptionsByDate receptions start end_) ∧
    (∀ r : Reception, r ∈ receptions → end_ = some r.DateTime →
      (∀ s, start = some s → s ≤ r.DateTime) →
      r ∈ filterReceptionsByDate receptions start end_) ∧
    filterReceptionsByDate receptions none none = receptions := by
  have hmem : ∀ r : Reception, r ∈ filterReceptionsByDate receptions start end_ ↔
      (r ∈ receptions ∧ (∀ s, start = some s → s ≤ r.DateTime) ∧
        (∀ e, end_ = some e → r.DateTime ≤ e)) := by
    intro r
    rw [filterReceptionsByDate_eq_filter, List.mem_filter]
    cases start <;> cases end_ <;> simp [withinDates]
  refine ⟨filterReceptionsByDate_eq_filter _ _ _, ?_, hmem, ?_, ?_, ?_⟩
  · rw [filterReceptionsByDate_eq_filter]
    exact List.filter_sublist _
  · intro r hr hs he
    refine (hmem r).2 ⟨hr, ?_, he⟩
    intro s hs2
    rw [hs] at hs2
    cases hs2
    exact le_refl _
  · intro r hr he hs
    refine (hmem r).2 ⟨hr, hs, ?_⟩
    intro e he2
    rw [he] at he2
    cases he2
    exact le_refl _
  · rw [filterReceptionsByDate_eq_filter]
    simp [withinDates]

theorem GetFullPVZInfo_success {σ : Type} (repo : Repository σ) (env : CallEnv)
    (startDate endDate : Option Time) (page limit : Int) (w w' : World σ)
    (res : List FullPVZInfo)
    (h : PVZService.GetFullPVZInfo repo env startDate endDate page limit w
      = some ((res, none), w')) :
    ∃ allPVZ paginated allReceptions allProducts,
      repo.GetAllPVZ w.db = (allPVZ, none) ∧
      paginatePVZ allPVZ page limit = some paginated ∧
      repo.GetReceptionsByPVZIDs (extractPVZIDs paginated) w.db = (allReceptions, none) ∧
      repo.GetProductsByReceptionIDs
        (extractReceptionIDs (filterReceptionsByDate allReceptions startDate endDate)) w.db
          = (allProducts, none) ∧
      res = buildFullPVZInfo paginated
        (groupReceptionsByPVZ (filterReceptionsByDate allReceptions startDate endDate))
        (groupProductsByReceptionID allProducts) := by
  unfold PVZService.GetFullPVZInfo PVZService.GetFullPVZInfoWork trManagerDoPanicking at h
  simp only [World.record] at h
  cases hb : env.beginErr with
  | some m => simp [hb] at h
  | none =>
    simp only [hb] at h
    rcases hA : repo.GetAllPVZ w.db with ⟨allPVZ, eA⟩
    simp only [hA] at h
    cases eA with
    | some e => simp [finishTx] at h
    | none =>
      simp only at h
      cases hP : paginatePVZ allPVZ page limit with
      | none => simp [hP] at h
      | some paginated =>
        simp only [hP] at h
        rcases hR : repo.GetReceptionsByPVZIDs (extractPVZIDs paginated) w.db with ⟨allReceptions, eR⟩
        simp only [hR] at h
        cases eR with
        | some e => simp [finishTx] at h
        | none =>
          simp only at h
          rcases hQ : repo.GetProductsByReceptionIDs
            (extractReceptionIDs (filterReceptionsByDate allReceptions startDate endDate)) w.db
            with ⟨allProducts, eQ⟩
          simp only [hQ] at h
          cases eQ with
          | some e => simp [finishTx] at h
          | none =>
            cases hc : env.commitErr with
            | some m => simp [finishTx, hc] at h
            | none =>
              simp [finishTx, hc] at h
              exact ⟨allPVZ, paginated, allReceptions, allProducts, rfl, hP, hR, hQ, h.1.symm⟩

/-- C9: the top-level PVZ sequence of a successful `GetFullPVZInfo` is
`paginatePVZ` of the list the PVZ port returned, element for element; it is the
same for every pair of date bounds; a PVZ whose receptions are all filtered out
is still there, with no receptions; and it is registration-date-descending
whenever the port's list is. -/
theorem C9_top_level_is_pagination {σ : Type} (repo : Repository σ) (env : CallEnv)
    (startDate endDate : Option Time) (page limit : Int) (w w' : World σ)
    (res : List FullPVZInfo)
    (h : PVZService.GetFullPVZInfo repo env startDate endDate page limit w
      = some ((res, none), w')) :
    paginatePVZ (repo.GetAllPVZ w.db).1 page limit = some (res.map (fun info => info.PVZ)) ∧
    (∀ (startDate2 endDate2 : Option Time) (res2 : List FullPVZInfo) (w2 : World σ),
      PVZService.GetFullPVZInfo repo env startDate2 endDate2 page limit w
        = some ((res2, none), w2) →
      res2.map (fun info => info.PVZ) = res.map (fun info => info.PVZ)) ∧
    (∀ info ∈ res,
      (∀ r ∈ (repo.GetReceptionsByPVZIDs (res.map (fun i => i.PVZ.ID)) w.db).1,
        r.PVZID = info.PVZ.ID → withinDates startDate endDate r = false) →
      info.Receptions = []) ∧
    ((repo.GetAllPVZ w.db).1.Pairwise (fun a b => a.RegistrationDate ≥ b.RegistrationDate) →
      (res.map (fun info => info.PVZ)).Pairwise
        (fun a b => a.RegistrationDate ≥ b.RegistrationDate)) := by
  obtain ⟨allPVZ, paginated, allReceptions, allProducts, hA, hP, hR, hQ, hres⟩ :=
    GetFullPVZInfo_success repo env startDate endDate page limit w w' res h
  have hmap : res.map (fun info => info.PVZ) = paginated := by
    rw [hres, buildFullPVZInfo_eq_map, List.map_map]
    simp [Function.comp_def]
  have hids : res.map (fun i => i.PVZ.ID) = extractPVZIDs paginated := by
    rw [extractPVZIDs_eq_map, ← hmap, List.map_map]
    rfl
  refine ⟨?_, ?_, ?_, ?_⟩
  · rw [hA, hmap]; exact hP
  · intro s2 e2 res2 w2 h2
    obtain ⟨allPVZ2, paginated2, _, _, hA2, hP2, _, _, hres2⟩ :=
      GetFullPVZInfo_success repo env s2 e2 page limit w w2 res2 h2
    rw [hA] at hA2
    cases hA2
    rw [hP] at hP2
    cases hP2
    rw [hmap, hres2, buildFullPVZInfo_eq_map, List.map_map]
    simp [Function.comp_def]
  · intro info hinfo hall
    rw [hids, hR] at hall
    rw [hres, buildFullPVZInfo_eq_map] at hinfo
    obtain ⟨p, _, rfl⟩ := List.mem_map.1 hinfo
    simp only [List.map_eq_nil_iff, groupReceptionsByPVZ_apply,
      filterReceptionsByDate_eq_filter, List.filter_filter, List.filter_eq_nil_iff]
    intro r hr
    have := hall r hr
    simp only [Bool.and_eq_true, decide_eq_true_eq, not_and]
    intro hk hw
    rw [this hk] at hw
    cases hw
  · intro hsorted
    rw [hmap]
    rw [hA] at hsorted
    exact hsorted.sublist (paginatePVZ_sublist _ _ _ _ hP)

theorem C9_top_level_is_pagination_witness :
    ∃ res w', PVZService.GetFullPVZInfo (NewRepository (samplePg 0)) (sampleCall 50)
        (some 6) (some 8) 1 2 sampleWorld = some ((res, none), w') ∧
      paginatePVZ ((NewRepository (samplePg 0)).GetAllPVZ sampleWorld.db).1 1 2
        = some (res.map (fun info => info.PVZ)) ∧
      res.map (fun info => info.PVZ.ID) = [1, 2] ∧
      res.map (fun info => info.Receptions.length) = [0, 1] :=
  ⟨_, _, rfl,
    (C9_top_level_is_pagination (NewRepository (samplePg 0)) (sampleCall 50)
      (some 6) (some 8) 1 2 sampleWorld _ _ rfl).1, by decide, by decide⟩

/-- C10: `buildFullPVZInfo` over the grouped maps attaches to every PVZ `p` exactly
the filtered receptions whose `PVZID` is `p.ID`, in fetch order, and to every
attached reception `r` exactly the fetched products whose `ReceptionID` is
`r.ID`, in fetch order; nothing is attached to an owner it does not belong to;
and a successful `GetFullPVZInfo` returns this assembly of the date-filtered
receptions and the products the ports returned. -/
theorem C10_nested_assembly (pvz : List PVZ) (filtered : List Reception)
    (products : List Product) :
    buildFullPVZInfo pvz (groupReceptionsByPVZ filtered) (groupProductsByReceptionID products)
      = pvz.map (fun p =>
          { PVZ := p,
            Receptions := (filtered.filter (fun r => decide (r.PVZID = p.ID))).map
              (fun r =>
                { Reception := r,
                  Products := products.filter (fun x => decide (x.ReceptionID = r.ID)) }) }) ∧
    (∀ info ∈ buildFullPVZInfo pvz (groupReceptionsByPVZ filtered)
        (groupProductsByReceptionID products),
      info.PVZ ∈ pvz ∧
      ∀ rp ∈ info.Receptions,
        rp.Reception.PVZID = info.PVZ.ID ∧ rp.Reception ∈ filtered ∧
        ∀ x ∈ rp.Products, x.ReceptionID = rp.Reception.ID ∧ x ∈ products) ∧
    (∀ (σ : Type) (repo : Repository σ) (env : CallEnv) (startDate endDate : Option Time)
      (page limit : Int) (w w' : World σ) (res : List FullPVZInfo),
      PVZService.GetFullPVZInfo repo env startDate endDate page limit w
        = some ((res, none), w') →
      ∃ paginated allReceptions allProducts,
        paginatePVZ (repo.GetAllPVZ w.db).1 page limit = some paginated ∧
        repo.GetReceptionsByPVZIDs (paginated.map (fun p => p.ID)) w.db
          = (allReceptions, none) ∧
        repo.GetProductsByReceptionIDs
          ((filterReceptionsByDate allReceptions startDate endDate).map (fun r => r.ID)) w.db
            = (allProducts, none) ∧
        res = paginated.map (fun p =>
          { PVZ := p,
            Receptions := ((allReceptions.filter (withinDates startDate endDate)).filter
                (fun r => decide (r.PVZID = p.ID))).map
              (fun r =>
                { Reception := r,
                  Products := allProducts.filter (fun x => decide (x.ReceptionID = r.ID)) }) })) := by
  have hmain : ∀ (pvz : List PVZ) (filtered : List Reception) (products : List Product),
      buildFullPVZInfo pvz (groupReceptionsByPVZ filtered) (groupProductsByReceptionID products)
      = pvz.map (fun p => FullPVZInfo.mk p
          ((filtered.filter (fun r => decide (r.PVZID = p.ID))).map
            (fun r => ReceptionWithProducts.mk r
              (products.filter (fun x => decide (x.ReceptionID = r.ID)))))) := by
    intro pvz filtered products
    rw [buildFullPVZInfo_eq_map]
    simp only [groupReceptionsByPVZ_apply, groupProductsByReceptionID_apply]
  refine ⟨hmain _ _ _, ?_, ?_⟩
  · intro info hinfo
    rw [hmain] at hinfo
    obtain ⟨p, hp, rfl⟩ := List.mem_map.1 hinfo
    refine ⟨hp, ?_⟩
    intro rp hrp
    obtain ⟨r, hr, rfl⟩ := List.mem_map.1 hrp
    rw [List.mem_filter] at hr
    refine ⟨by simpa using hr.2, hr.1, ?_⟩
    intro x hx
    rw [List.mem_filter] at hx
    exact ⟨by simpa using hx.2, hx.1⟩
  · intro σ repo env startDate endDate page limit w w' res h
    obtain ⟨allPVZ, paginated, allReceptions, allProducts, hA, hP, hR, hQ, hres⟩ :=
      GetFullPVZInfo_success repo env startDate endDate page limit w w' res h
    refine ⟨paginated, allReceptions, allProducts, ?_, ?_, ?_, ?_⟩
    · rw [hA]; exact hP
    · rw [← extractPVZIDs_eq_map]; exact hR
    · rw [← extractReceptionIDs_eq_map]; exact hQ
    · rw [hres, hmain, filterReceptionsByDate_eq_filter]

theorem C10_nested_assembly_witness :
    ∃ res w', PVZService.GetFullPVZInfo (NewRepository (samplePg 0)) (sampleCall 50)
        none (some 15) 1 2 sampleWorld = some ((res, none), w') ∧
      res.map (fun info => (info.PVZ.ID, info.Receptions.map
        (fun rp => (rp.Reception.ID, rp.Products.map (fun x => x.ID)))))
        = [(1, [(11, [101]), (12, [103, 104])]), (2, [(21, [102])])] ∧
      ∃ paginated allReceptions allProducts,
        paginatePVZ ((NewRepository (samplePg 0)).GetAllPVZ sampleWorld.db).1 1 2
          = some paginated ∧
        (NewRepository (samplePg 0)).GetReceptionsByPVZIDs (paginated.map (fun p => p.ID))
          sampleWorld.db = (allReceptions, none) ∧
        (NewRepository (samplePg 0)).GetProductsByReceptionIDs
          ((filterReceptionsByDate allReceptions none (some 15)).map (fun r => r.ID))
          sampleWorld.db = (allProducts, none) ∧
        res = paginated.map (fun p =>
          { PVZ := p,
            Receptions := ((allReceptions.filter (withinDates none (some 15))).filter
                (fun r => decide (r.PVZID = p.ID))).map
              (fun r =>
                { Reception := r,
                  Products := allProducts.filter (fun x => decide (x.ReceptionID = r.ID)) }) }) :=
  ⟨_, _, rfl, by decide,
    (C10_nested_assembly [] [] []).2.2 DB (NewRepository (samplePg 0)) (sampleCall 50)
      none (some 15) 1 2 sampleWorld _ _ rfl⟩

theorem record_db {σ : Type} (e : Event) (w : World σ) : (w.record e).db = w.db := rfl

theorem trManagerDo_begin_failed {σ α : Type} (env : CallEnv)
    (fn : World σ → (α × Option GoError) × World σ) (init : α) (w : World σ) (m : String)
    (hb : env.beginErr = some m) :
    trManagerDo env fn init w = ((init, some (.driver m)), w) := by
  simp [trManagerDo, hb]

theorem trManagerDo_rollback {σ α : Type} (env : CallEnv)
    (fn : World σ → (α × Option GoError) × World σ) (init : α) (w w1 : World σ)
    (res : α) (e : GoError) (hb : env.beginErr = none)
    (hfn : fn (w.record .txBegin) = ((res, some e), w1)) :
    trManagerDo env fn init w
      = ((res, some e), { db := w.db, trace := w1.trace ++ [.txRollback] }) := by
  simp [trManagerDo, hb, hfn, finishTx]

theorem trManagerDo_commit {σ α : Type} (env : CallEnv)
    (fn : World σ → (α × Option GoError) × World σ) (init : α) (w w1 : World σ)
    (res : α) (hb : env.beginErr = none) (hc : env.commitErr = none)
    (hfn : fn (w.record .txBegin) = ((res, none), w1)) :
    trManagerDo env fn init w = ((res, none), w1.record .txCommit) := by
  simp [trManagerDo, hb, hc, hfn, finishTx]

theorem trManagerDo_commit_failed {σ α : Type} (env : CallEnv)
    (fn : World σ → (α × Option GoError) × World σ) (init : α) (w w1 : World σ)
    (res : α) (m : String) (hb : env.beginErr = none) (hc : env.commitErr = some m)
    (hfn : fn (w.record .txBegin) = ((res, none), w1)) :
    trManagerDo env fn init w
      = ((res, some (.driver m)), { db := w.db, trace := w1.trace ++ [.txRollback] }) := by
  simp [trManagerDo, hb, hc, hfn, finishTx]

/-- The store after `trManager.Do` is the store before it, or the store the work
function left when it returned no error and the commit went through. -/
theorem trManagerDo_db {σ α : Type} (env : CallEnv)
    (fn : World σ → (α × Option GoError) × World σ) (init : α) (w : World σ) :
    (trManagerDo env fn init w).2.db = w.db ∨
    ((trManagerDo env fn init w).2.db = (fn (w.record .txBegin)).2.db ∧
      (fn (w.record .txBegin)).1.2 = none) := by
  cases hb : env.beginErr with
  | some m => left; rw [trManagerDo_begin_failed env fn init w m hb]
  | none =>
    rcases hfn : fn (w.record .txBegin) with ⟨⟨res, err⟩, w1⟩
    cases err with
    | some e => left; rw [trManagerDo_rollback env fn init w w1 res e hb hfn]
    | none =>
      cases hc : env.commitErr with
      | some m => left; rw [trManagerDo_commit_failed env fn init w w1 res m hb hc hfn]
      | none => right; rw [trManagerDo_commit env fn init w w1 res hb hc hfn]; exact ⟨rfl, rfl⟩

theorem CreateReception_world {σ : Type} (repo : Repository σ) (env : CallEnv)
    (pvzID : UUID) (w : World σ) :
    (ReceptionService.CreateReception repo env pvzID w).2
      = (trManagerDo env (ReceptionService.CreateReceptionWork repo env pvzID) none w).2 := by
  unfold ReceptionService.CreateReception
  rcases trManagerDo env (ReceptionService.CreateReceptionWork repo env pvzID) none w
    with ⟨⟨r, _ | e⟩, w1⟩ <;> rfl

theorem AddProduct_world {σ : Type} (repo : Repository σ) (env : CallEnv)
    (pvzID : UUID) (ty : ProductType) (w : World σ) (hty : IsValidProductType ty = true) :
    (ProductService.AddProduct repo env pvzID ty w).2
      = (trManagerDo env (ProductService.AddProductWork repo env pvzID ty) none w).2 := by
  unfold ProductService.AddProduct
  simp only [hty, Bool.not_true, Bool.false_eq_true, ↓reduceIte]
  rcases trManagerDo env (ProductService.AddProductWork repo env pvzID ty) none w
    with ⟨⟨r, _ | e⟩, w1⟩ <;> rfl

/-- A work function of `CreateReception` that returns no error has seen "no open
reception" and has inserted through the port. -/
theorem CreateReceptionWork_ok {σ : Type} (repo : Repository σ) (env : CallEnv)
    (pvzID : UUID) (w : World σ)
    (h : (ReceptionService.CreateReceptionWork repo env pvzID w).1.2 = none) :
    repo.IsPVZExists pvzID w.db = (true, none) ∧
    repo.IsReceptionOpenExists pvzID w.db = (false, none) ∧
    (ReceptionService.CreateReceptionWork repo env pvzID w).2.db =
      (repo.CreateReception
        { ID := uuidNil, DateTime := env.now, PVZID := pvzID, Status := StatusInProgress,
          CreatedAt := env.now2, ClosedAt := none } w.db).2.2 := by
  unfold ReceptionService.CreateReceptionWork at h ⊢
  simp only [record_db] at h ⊢
  rcases hE : repo.IsPVZExists pvzID w.db with ⟨ex, _ | e⟩
  · rw [hE] at h
    cases ex
    · simp at h
    · simp only [Bool.not_true, Bool.false_eq_true, ↓reduceIte] at h ⊢
      rcases hO : repo.IsReceptionOpenExists pvzID w.db with ⟨op, _ | e⟩
      · rw [hO] at h
        cases op
        · simp only [Bool.false_eq_true, ↓reduceIte] at h ⊢
          rcases hC : repo.CreateReception
            { ID := uuidNil, DateTime := env.now, PVZID := pvzID, Status := StatusInProgress,
              CreatedAt := env.now2, ClosedAt := none } w.db with ⟨r, _ | e, db⟩
          · simp
          · rw [hC] at h; simp at h
        · simp at h
      · rw [hO] at h; simp at h
  · rw [hE] at h; simp at h

theorem CloseLastReceptionWork_db {σ : Type} (repo : Repository σ) (env : CallEnv)
    (pvzID : UUID) (w : World σ) :
    (ReceptionService.CloseLastReceptionWork repo env pvzID w).2.db = w.db ∨
    ∃ r, repo.GetOpenReception pvzID w.db = .ok r ∧
      (ReceptionService.CloseLastReceptionWork repo env pvzID w).2.db
        = (repo.CloseReceptionByID r.ID env.now w.db).2 := by
  unfold ReceptionService.CloseLastReceptionWork
  simp only [record_db]
  cases hG : repo.GetOpenReception pvzID w.db with
  | error e => left; rfl
  | ok r =>
    right
    refine ⟨r, rfl, ?_⟩
    simp only
    rcases hC : repo.CloseReceptionByID r.ID env.now w.db with ⟨_ | e, db⟩
    · rfl
    · simp only
      split <;> rfl

theorem AddProductWork_db {σ : Type} (repo : Repository σ) (env : CallEnv)
    (pvzID : UUID) (ty : ProductType) (w : World σ) :
    (ProductService.AddProductWork repo env pvzID ty w).2.db = w.db ∨
    ∃ r, repo.GetOpenReception pvzID w.db = .ok r ∧
      (ProductService.AddProductWork repo env pvzID ty w).2.db
        = (repo.CreateProduct
            { ID := uuidNil, DateTime := env.now, Type_ := ty, ReceptionID := r.ID } w.db).2.2 := by
  unfold ProductService.AddProductWork
  simp only [record_db]
  cases hG : repo.GetOpenReception pvzID w.db with
  | error e => left; rfl
  | ok r =>
    right
    refine ⟨r, rfl, ?_⟩
    simp only
    rcases hC : repo.CreateProduct
      { ID := uuidNil, DateTime := env.now, Type_ := ty, ReceptionID := r.ID } w.db
      with ⟨p, _ | e, db⟩ <;> rfl

theorem DeleteLastProductWork_db {σ : Type} (repo : Repository σ)
    (pvzID : UUID) (w : World σ) :
    (ProductService.DeleteLastProductWork repo pvzID w).2.db = w.db ∨
    ∃ r, repo.GetOpenReception pvzID w.db = .ok r ∧
      (ProductService.DeleteLastProductWork repo pvzID w).2.db
        = (repo.DeleteLastProduct r.ID w.db).2.2 := by
  unfold ProductService.DeleteLastProductWork
  simp only [record_db]
  cases hG : repo.GetOpenReception pvzID w.db with
  | error e => left; rfl
  | ok r =>
    right
    refine ⟨r, rfl, ?_⟩
    simp only
    rcases hC : repo.DeleteLastProduct r.ID w.db with ⟨_ | id, _ | e, db⟩ <;> rfl

theorem statusClosed_ne_inProgress : StatusClosed ≠ StatusInProgress := by decide

theorem openCount_eq_countP (db : DB) (pvzID : UUID) :
    openCount db pvzID = db.receptions.countP
      (fun r => decide (r.PVZID = pvzID) && decide (r.Status = StatusInProgress)) := by
  unfold openCount openReceptions
  rw [List.countP_eq_length_filter]

theorem atMostOneOpen_of_receptions_eq (db db' : DB) (h : db'.receptions = db.receptions)
    (hinv : AtMostOneOpen db) : AtMostOneOpen db' := by
  intro p
  have := hinv p
  rw [openCount_eq_countP] at this ⊢
  rw [h]
  exact this

theorem pg_CreatePVZ_receptions (env : PgEnv) (pvz : PVZ) (db : DB) :
    (PVZPostgres.CreatePVZ env pvz db).2.2.receptions = db.receptions := by
  unfold PVZPostgres.CreatePVZ
  cases env.fault .CreatePVZ <;> rfl

theorem pg_CreateProduct_receptions (env : PgEnv) (product : Product) (db : DB) :
    (ProductPostgres.CreateProduct env product db).2.2.receptions = db.receptions := by
  unfold ProductPostgres.CreateProduct
  cases env.fault .CreateProduct <;> rfl

theorem pg_DeleteLastProduct_receptions (env : PgEnv) (receptionID : UUID) (db : DB) :
    (ProductPostgres.DeleteLastProduct env receptionID db).2.2.receptions = db.receptions := by
  unfold ProductPostgres.DeleteLastProduct
  cases env.fault .DeleteLastProduct with
  | some m => rfl
  | none =>
    simp only
    split <;> rfl

theorem pg_IsReceptionOpenExists_false (env : PgEnv) (pvzID : UUID) (db : DB)
    (h : ReceptionPostgres.IsReceptionOpenExists env pvzID db = (false, none)) :
    openCount db pvzID = 0 := by
  unfold ReceptionPostgres.IsReceptionOpenExists at h
  cases hf : env.fault .IsReceptionOpenExists with
  | some m => rw [hf] at h; simp at h
  | none =>
    rw [hf] at h
    simp only [Prod.mk.injEq, decide_eq_false_iff_not, and_true] at h
    unfold openCount
    omega

theorem pg_CreateReception_db (env : PgEnv) (reception : Reception) (db : DB) :
    (ReceptionPostgres.CreateReception env reception db).2.2 = db ∨
    (ReceptionPostgres.CreateReception env reception db).2.2 =
      { db with receptions := db.receptions ++
          [{ reception with ID := env.newID, ClosedAt := none }] } := by
  unfold ReceptionPostgres.CreateReception
  cases env.fault .CreateReception with
  | some m => left; rfl
  | none => right; rfl

theorem pg_CreateReception_preserves (env : PgEnv) (reception : Reception) (db : DB)
    (hzero : openCount db reception.PVZID = 0) (hinv : AtMostOneOpen db) :
    AtMostOneOpen (ReceptionPostgres.CreateReception env reception db).2.2 := by
  rcases pg_CreateReception_db env reception db with h | h
  · rw [h]; exact hinv
  · rw [h]
    intro p
    have hp := hinv p
    rw [openCount_eq_countP] at hp hzero ⊢
    simp only [List.countP_append, List.countP_singleton]
    by_cases hk : reception.PVZID = p
    · subst hk
      rw [hzero]
      split <;> omega
    · simp only [hk, decide_False, Bool.false_and, Bool.false_eq_true, ↓reduceIte]
      omega

theorem pg_CloseReceptionByID_openCount_le (env : PgEnv) (receptionID : UUID) (closedAt : Time)
    (db : DB) (p : UUID) :
    openCount (ReceptionPostgres.CloseReceptionByID env receptionID closedAt db).2 p
      ≤ openCount db p := by
  unfold ReceptionPostgres.CloseReceptionByID
  cases env.fault .CloseReceptionByID with
  | some m => exact le_refl _
  | none =>
    have key : openCount { db with receptions := db.receptions.map (fun r =>
        if closeMatches receptionID r then
          { r with Status := StatusClosed, ClosedAt := some closedAt }
        else r) } p ≤ openCount db p := by
      rw [openCount_eq_countP, openCount_eq_countP]
      simp only [List.countP_map]
      apply List.countP_mono_left
      intro r _ hr
      simp only [Function.comp_apply] at hr
      split at hr
      · simp [statusClosed_ne_inProgress] at hr
      · exact hr
    simp only
    split <;> exact key

theorem pg_CloseReceptionByID_preserves (env : PgEnv) (receptionID : UUID) (closedAt : Time)
    (db : DB) (hinv : AtMostOneOpen db) :
    AtMostOneOpen (ReceptionPostgres.CloseReceptionByID env receptionID closedAt db).2 :=
  fun p => le_trans (pg_CloseReceptionByID_openCount_le env receptionID closedAt db p) (hinv p)

/-- One service call on the Postgres store keeps "at most one open reception per
PVZ", whatever it returns. -/
theorem step_preserves_atMostOneOpen (e : StepEnv) (op : Op) (w : World DB)
    (hinv : AtMostOneOpen w.db) : AtMostOneOpen (step e op w).db := by
  cases op with
  | CreatePVZ city =>
    simp only [step, PVZService.CreatePVZ]
    split
    · exact hinv
    · simp only [record_db]
      have hr := pg_CreatePVZ_receptions e.pg
        { ID := uuidNil, RegistrationDate := e.call.now, City := city } w.db
      apply atMostOneOpen_of_receptions_eq w.db _ _ hinv
      rw [← hr]
      simp only [NewRepository]
      split <;> simp_all
  | CreateReception pvzID =>
    simp only [step]
    rw [CreateReception_world]
    rcases trManagerDo_db e.call
      (ReceptionService.CreateReceptionWork (NewRepository e.pg) e.call pvzID) none w
      with h | ⟨h, hok⟩
    · rw [h]; exact hinv
    · rw [h]
      obtain ⟨-, hO, hdb⟩ := CreateReceptionWork_ok _ _ _ _ hok
      rw [hdb]
      simp only [record_db, NewRepository] at hO ⊢
      exact pg_CreateReception_preserves _ _ _ (pg_IsReceptionOpenExists_false _ _ _ hO) hinv
  | CloseLastReception pvzID =>
    simp only [step, ReceptionService.CloseLastReception]
    rcases trManagerDo_db e.call
      (ReceptionService.CloseLastReceptionWork (NewRepository e.pg) e.call pvzID) none w
      with h | ⟨h, -⟩
    · rw [h]; exact hinv
    · rw [h]
      rcases CloseLastReceptionWork_db (NewRepository e.pg) e.call pvzID (w.record .txBegin)
        with h2 | ⟨r, -, h2⟩
      · rw [h2]; exact hinv
      · rw [h2]
        exact pg_CloseReceptionByID_preserves _ _ _ _ hinv
  | AddProduct pvzID ty =>
    simp only [step]
    by_cases hty : IsValidProductType ty = true
    · rw [AddProduct_world _ _ _ _ _ hty]
      rcases trManagerDo_db e.call
        (ProductService.AddProductWork (NewRepository e.pg) e.call pvzID ty) none w
        with h | ⟨h, -⟩
      · rw [h]; exact hinv
      · rw [h]
        rcases AddProductWork_db (NewRepository e.pg) e.call pvzID ty (w.record .txBegin)
          with h2 | ⟨r, -, h2⟩
        · rw [h2]; exact hinv
        · rw [h2]
          exact atMostOneOpen_of_receptions_eq w.db _
            (pg_CreateProduct_receptions _ _ _) hinv
    · simp only [ProductService.AddProduct, hty, Bool.not_false, ↓reduceIte]
      simpa using hinv
  | DeleteLastProduct pvzID =>
    simp only [step, ProductService.DeleteLastProduct]
    rcases trManagerDo_db e.call
      (ProductService.DeleteLastProductWork (NewRepository e.pg) pvzID) () w
      with h | ⟨h, -⟩
    · rw [h]; exact hinv
    · rw [h]
      rcases DeleteLastProductWork_db (NewRepository e.pg) pvzID (w.record .txBegin)
        with h2 | ⟨r, -, h2⟩
      · rw [h2]; exact hinv
      · rw [h2]
        exact atMostOneOpen_of_receptions_eq w.db _
          (pg_DeleteLastProduct_receptions _ _ _) hinv

/-- The invariant can be checked on the PVZ that own a reception. -/
theorem atMostOneOpen_iff_check (db : DB) :
    AtMostOneOpen db ↔ ∀ r ∈ db.receptions, openCount db r.PVZID ≤ 1 := by
  constructor
  · intro h r _
    exact h r.PVZID
  · intro h p
    by_cases hzero : openCount db p = 0
    · omega
    · have hne : openReceptions db p ≠ [] := by
        intro hnil
        apply hzero
        unfold openCount
        rw [hnil]
        rfl
      obtain ⟨r, hr⟩ := List.exists_mem_of_ne_nil _ hne
      unfold openReceptions at hr
      rw [List.mem_filter] at hr
      have hp : r.PVZID = p := by
        have h2 := hr.2
        simp only [Bool.and_eq_true, decide_eq_true_eq] at h2
        exact h2.1
      rw [← hp]
      exact h r hr.1

/-- C1: from a Postgres store in which every PVZ has at most one reception with
status `in_progress`, every finite sequence of service calls (`CreatePVZ`,
`CreateReception`, `CloseLastReception`, `AddProduct`, `DeleteLastProduct`), run
one after the other in any environment and whether each succeeds or fails,
ends in a store in which every PVZ has at most one such reception. -/
theorem C1_at_most_one_open_invariant (ops : List (StepEnv × Op)) (w : World DB)
    (hinv : AtMostOneOpen w.db) : AtMostOneOpen (run ops w).db := by
  induction ops generalizing w with
  | nil => exact hinv
  | cons x xs ih =>
    unfold run
    rw [List.foldl_cons]
    exact ih _ (step_preserves_atMostOneOpen x.1 x.2 w hinv)

theorem C1_at_most_one_open_invariant_witness :
    AtMostOneOpen sampleWorld.db ∧ AtMostOneOpen (run sampleOps sampleWorld).db ∧
    (run sampleOps sampleWorld).db.receptions.map (fun r => (r.ID, r.PVZID, r.Status))
      = [(11, 1, StatusClosed), (21, 2, StatusClosed), (12, 1, StatusClosed),
         (13, 1, StatusInProgress), (31, 3, StatusInProgress), (41, 4, StatusInProgress)] :=
  ⟨(atMostOneOpen_iff_check _).2 (by decide),
   C1_at_most_one_open_invariant sampleOps sampleWorld
     ((atMostOneOpen_iff_check _).2 (by decide)),
   by decide⟩

theorem pg_IsPVZExists_true (env : PgEnv) (pvzID : UUID) (db : DB)
    (hf : env.fault .IsPVZExists = none) (hex : ∃ p ∈ db.pvz, p.ID = pvzID) :
    PVZPostgres.IsPVZExists env pvzID db = (true, none) := by
  unfold PVZPostgres.IsPVZExists
  rw [hf]
  simp only [Prod.mk.injEq, and_true, List.any_eq_true, decide_eq_true_eq]
  exact hex

theorem pg_IsReceptionOpenExists_true (env : PgEnv) (pvzID : UUID) (db : DB)
    (hf : env.fault .IsReceptionOpenExists = none)
    (hex : ∃ r ∈ db.receptions, r.PVZID = pvzID ∧ r.Status = StatusInProgress) :
    ReceptionPostgres.IsReceptionOpenExists env pvzID db = (true, none) := by
  unfold ReceptionPostgres.IsReceptionOpenExists
  rw [hf]
  obtain ⟨r, hr, hp, hs⟩ := hex
  have hmem : r ∈ openReceptions db pvzID := by
    unfold openReceptions
    rw [List.mem_filter]
    exact ⟨hr, by simp [hp, hs]⟩
  have hpos : 0 < (openReceptions db pvzID).length := List.length_pos_of_mem hmem
  simp [hpos]

/-- The rejected `CreateReception`: both checks answer "yes", nothing is inserted. -/
theorem CreateReception_already_open {σ : Type} (repo : Repository σ) (env : CallEnv)
    (pvzID : UUID) (w : World σ) (hb : env.beginErr = none)
    (hE : repo.IsPVZExists pvzID w.db = (true, none))
    (hO : repo.IsReceptionOpenExists pvzID w.db = (true, none)) :
    ReceptionService.CreateReception repo env pvzID w =
      ((none, some .ErrReceptionAlreadyExists),
        { db := w.db,
          trace := w.trace ++ [.txBegin, .IsPVZExists pvzID, .IsReceptionOpenExists pvzID,
            .txRollback] }) := by
  have hwork : ReceptionService.CreateReceptionWork repo env pvzID (w.record .txBegin) =
      ((none, some .ErrReceptionAlreadyExists),
        ((w.record .txBegin).record (.IsPVZExists pvzID)).record
          (.IsReceptionOpenExists pvzID)) := by
    unfold ReceptionService.CreateReceptionWork
    simp only [record_db, hE, hO]
    rfl
  unfold ReceptionService.CreateReception
  rw [trManagerDo_rollback env _ none w _ none _ hb hwork]
  simp [World.record]

/-- The successful `CreateReception` on the Postgres store. -/
theorem CreateReception_pg_success (e : StepEnv) (pvzID : UUID) (w w' : World DB)
    (r : Option Reception)
    (h : ReceptionService.CreateReception (NewRepository e.pg) e.call pvzID w
      = ((r, none), w')) :
    (∃ p ∈ w.db.pvz, p.ID = pvzID) ∧
    r = some { ID := e.pg.newID, DateTime := e.call.now, PVZID := pvzID,
               Status := StatusInProgress, CreatedAt := e.call.now2, ClosedAt := none } ∧
    w'.db = { w.db with receptions := w.db.receptions ++
      [{ ID := e.pg.newID, DateTime := e.call.now, PVZID := pvzID,
         Status := StatusInProgress, CreatedAt := e.call.now2, ClosedAt := none }] } := by
  unfold ReceptionService.CreateReception at h
  cases hb : e.call.beginErr with
  | some m =>
    rw [trManagerDo_begin_failed _ _ _ _ m hb] at h
    simp at h
  | none =>
    rcases hfn : ReceptionService.CreateReceptionWork (NewRepository e.pg) e.call pvzID
      (w.record .txBegin) with ⟨⟨res, err⟩, w1⟩
    cases err with
    | some er =>
      rw [trManagerDo_rollback _ _ _ _ _ _ _ hb hfn] at h
      simp at h
    | none =>
      cases hc : e.call.commitErr with
      | some m =>
        rw [trManagerDo_commit_failed _ _ _ _ _ _ m hb hc hfn] at h
        simp at h
      | none =>
        rw [trManagerDo_commit _ _ _ _ _ _ hb hc hfn] at h
        simp only [Prod.mk.injEq, and_true] at h
        obtain ⟨hres, hw'⟩ := h
        have hok : (ReceptionService.CreateReceptionWork (NewRepository e.pg) e.call pvzID
            (w.record .txBegin)).1.2 = none := by rw [hfn]
        obtain ⟨hE, hO, hdb⟩ := CreateReceptionWork_ok _ _ _ _ hok
        simp only [record_db, NewRepository] at hE hO hdb
        have hEx : ∃ p ∈ w.db.pvz, p.ID = pvzID := by
          unfold PVZPostgres.IsPVZExists at hE
          cases hf : e.pg.fault .IsPVZExists with
          | some m => rw [hf] at hE; simp at hE
          | none =>
            rw [hf] at hE
            simpa using hE
        -- the insert went through
        unfold ReceptionService.CreateReceptionWork at hfn
        simp only [record_db, NewRepository, hE, hO] at hfn
        unfold ReceptionPostgres.CreateReception at hfn hdb
        cases hf : e.pg.fault .CreateReception with
        | some m => rw [hf] at hfn; simp at hfn
        | none =>
          rw [hf] at hfn hdb
          simp only [Bool.not_true, Bool.false_eq_true, ↓reduceIte, Prod.mk.injEq] at hfn
          refine ⟨hEx, ?_, ?_⟩
          · rw [← hres, ← hfn.1.1]
          · rw [← hw', ← hfn.2]
            rfl

/-- C2: on the Postgres store, when the transaction begins and the two existence
queries are answered, `CreateReception(pvzID)` for a PVZ that exists and already
has a reception with status `in_progress` fails with `ErrReceptionAlreadyExists`,
returns no reception, leaves the store as it was and never calls the port's
`CreateReception`; in particular this is what a `CreateReception` issued right
after a successful `CreateReception` for the same PVZ does. -/
theorem C2_create_reception_rejects_second_open (e : StepEnv) (pvzID : UUID)
    (hb : e.call.beginErr = none) (hf1 : e.pg.fault .IsPVZExists = none)
    (hf2 : e.pg.fault .IsReceptionOpenExists = none) :
    (∀ w : World DB, (∃ p ∈ w.db.pvz, p.ID = pvzID) →
      (∃ r ∈ w.db.receptions, r.PVZID = pvzID ∧ r.Status = StatusInProgress) →
      (ReceptionService.CreateReception (NewRepository e.pg) e.call pvzID w).1
        = (none, some .ErrReceptionAlreadyExists) ∧
      (ReceptionService.CreateReception (NewRepository e.pg) e.call pvzID w).2.db = w.db ∧
      (ReceptionService.CreateReception (NewRepository e.pg) e.call pvzID w).2.trace
        = w.trace ++ [.txBegin, .IsPVZExists pvzID, .IsReceptionOpenExists pvzID,
            .txRollback]) ∧
    (∀ (e0 : StepEnv) (w0 w1 : World DB) (r0 : Option Reception),
      ReceptionService.CreateReception (NewRepository e0.pg) e0.call pvzID w0
        = ((r0, none), w1) →
      (ReceptionService.CreateReception (NewRepository e.pg) e.call pvzID w1).1
        = (none, some .ErrReceptionAlreadyExists) ∧
      (ReceptionService.CreateReception (NewRepository e.pg) e.call pvzID w1).2.db = w1.db) := by
  have main : ∀ w : World DB, (∃ p ∈ w.db.pvz, p.ID = pvzID) →
      (∃ r ∈ w.db.receptions, r.PVZID = pvzID ∧ r.Status = StatusInProgress) →
      ReceptionService.CreateReception (NewRepository e.pg) e.call pvzID w =
        ((none, some .ErrReceptionAlreadyExists),
          { db := w.db,
            trace := w.trace ++ [.txBegin, .IsPVZExists pvzID, .IsReceptionOpenExists pvzID,
              .txRollback] }) := by
    intro w hpvz hopen
    exact CreateReception_already_open (NewRepository e.pg) e.call pvzID w hb
      (pg_IsPVZExists_true e.pg pvzID w.db hf1 hpvz)
      (pg_IsReceptionOpenExists_true e.pg pvzID w.db hf2 hopen)
  constructor
  · intro w hpvz hopen
    rw [main w hpvz hopen]
    exact ⟨rfl, rfl, rfl⟩
  · intro e0 w0 w1 r0 h0
    obtain ⟨hpvz, -, hdb⟩ := CreateReception_pg_success e0 pvzID w0 w1 r0 h0
    have hpvz1 : ∃ p ∈ w1.db.pvz, p.ID = pvzID := by rw [hdb]; exact hpvz
    have hopen1 : ∃ r ∈ w1.db.receptions, r.PVZID = pvzID ∧ r.Status = StatusInProgress := by
      rw [hdb]
      exact ⟨_, List.mem_append_right _ (List.mem_singleton_self _), rfl, rfl⟩
    rw [main w1 hpvz1 hopen1]
    exact ⟨rfl, rfl⟩

theorem C2_create_reception_rejects_second_open_witness :
    ((ReceptionService.CreateReception (NewRepository (sampleStep 13 42).pg)
        (sampleStep 13 42).call 1 sampleWorld).1 = (none, some .ErrReceptionAlreadyExists) ∧
      (ReceptionService.CreateReception (NewRepository (sampleStep 13 42).pg)
        (sampleStep 13 42).call 1 sampleWorld).2.db = sampleWorld.db ∧
      (ReceptionService.CreateReception (NewRepository (sampleStep 13 42).pg)
        (sampleStep 13 42).call 1 sampleWorld).2.trace
        = sampleWorld.trace ++ [.txBegin, .IsPVZExists 1, .IsReceptionOpenExists 1,
            .txRollback]) ∧
    (∃ r0 w1, ReceptionService.CreateReception (NewRepository (sampleStep 31 41).pg)
        (sampleStep 31 41).call 3 sampleWorld = ((some r0, none), w1) ∧
      (ReceptionService.CreateReception (NewRepository (sampleStep 32 42).pg)
        (sampleStep 32 42).call 3 w1).1 = (none, some .ErrReceptionAlreadyExists) ∧
      (ReceptionService.CreateReception (NewRepository (sampleStep 32 42).pg)
        (sampleStep 32 42).call 3 w1).2.db = w1.db) :=
  ⟨(C2_create_reception_rejects_second_open (sampleStep 13 42) 1 rfl rfl rfl).1 sampleWorld
      (by decide) (by decide),
   ⟨_, _, rfl,
    (C2_create_reception_rejects_second_open (sampleStep 32 42) 3 rfl rfl rfl).2
      (sampleStep 31 41) sampleWorld _ _ rfl⟩⟩

theorem map_eq_self_of_forall {α : Type} (f : α → α) (l : List α) (h : ∀ x ∈ l, f x = x) :
    l.map f = l := by
  induction l with
  | nil => rfl
  | cons x xs ih =>
    rw [List.map_cons, h x (List.mem_cons_self _ _),
      ih (fun y hy => h y (List.mem_cons_of_mem _ hy))]

/-- The conditional update that matches no row: the store is untouched and the
repository reports `ErrReceptionAlreadyClosed`. -/
theorem pg_CloseReceptionByID_zero_rows (env : PgEnv) (receptionID : UUID) (closedAt : Time)
    (db : DB) (hf : env.fault .CloseReceptionByID = none)
    (hzero : (db.receptions.filter (closeMatches receptionID)).length = 0) :
    ReceptionPostgres.CloseReceptionByID env receptionID closedAt db
      = (some .ErrReceptionAlreadyClosed, db) := by
  unfold ReceptionPostgres.CloseReceptionByID
  rw [hf]
  simp only [hzero, ↓reduceIte, Prod.mk.injEq, true_and]
  have hnone : ∀ r ∈ db.receptions, closeMatches receptionID r = false := by
    intro r hr
    have hnil := List.length_eq_zero.1 hzero
    rw [List.filter_eq_nil_iff] at hnil
    simpa using hnil r hr
  have hmap : db.receptions.map (fun r =>
      if closeMatches receptionID r then
        { r with Status := StatusClosed, ClosedAt := some closedAt }
      else r) = db.receptions := by
    apply map_eq_self_of_forall
    intro r hr
    rw [hnone r hr]
    rfl
  rw [hmap]

/-- `CloseLastReception` when the port's conditional update reports
`ErrReceptionAlreadyClosed`. -/
theorem CloseLastReception_already_closed {σ : Type} (repo : Repository σ) (env : CallEnv)
    (pvzID : UUID) (w : World σ) (r : Reception) (hb : env.beginErr = none)
    (hG : repo.GetOpenReception pvzID w.db = .ok r)
    (hC : (repo.CloseReceptionByID r.ID env.now w.db).1 = some .ErrReceptionAlreadyClosed) :
    ReceptionService.CloseLastReception repo env pvzID w =
      ((none, some .ErrReceptionAlreadyClosed),
        { db := w.db,
          trace := w.trace ++ [.txBegin, .GetOpenReception pvzID,
            .CloseReceptionByID r.ID env.now, .txRollback] }) := by
  rcases hC2 : repo.CloseReceptionByID r.ID env.now w.db with ⟨err, db⟩
  rw [hC2] at hC
  simp only at hC
  subst hC
  have hwork : ReceptionService.CloseLastReceptionWork repo env pvzID (w.record .txBegin) =
      ((none, some .ErrReceptionAlreadyClosed),
        { db := db,
          trace := w.trace ++ [.txBegin, .GetOpenReception pvzID,
            .CloseReceptionByID r.ID env.now] }) := by
    unfold ReceptionService.CloseLastReceptionWork
    simp only [record_db, hG, hC2]
    simp [World.record]
  unfold ReceptionService.CloseLastReception
  rw [trManagerDo_rollback env _ none w _ none _ hb hwork]
  simp

/-- C3: when the conditional close update of `CloseReceptionByID` affects zero
rows the repository returns `ErrReceptionAlreadyClosed` (and changes nothing),
and whenever the port answers so `CloseLastReception` fails with
`ErrReceptionAlreadyClosed`, returns no reception and leaves the store as it
was. -/
theorem C3_zero_rows_is_already_closed :
    (∀ (pg : PgEnv) (receptionID : UUID) (closedAt : Time) (db : DB),
      pg.fault .CloseReceptionByID = none →
      (db.receptions.filter (closeMatches receptionID)).length = 0 →
      ReceptionPostgres.CloseReceptionByID pg receptionID closedAt db
        = (some .ErrReceptionAlreadyClosed, db)) ∧
    (∀ (σ : Type) (repo : Repository σ) (env : CallEnv) (pvzID : UUID) (w : World σ)
      (r : Reception),
      env.beginErr = none →
      repo.GetOpenReception pvzID w.db = .ok r →
      (repo.CloseReceptionByID r.ID env.now w.db).1 = some .ErrReceptionAlreadyClosed →
      (ReceptionService.CloseLastReception repo env pvzID w).1
        = (none, some .ErrReceptionAlreadyClosed) ∧
      (ReceptionService.CloseLastReception repo env pvzID w).2.db = w.db) := by
  constructor
  · intro pg receptionID closedAt db hf hzero
    exact pg_CloseReceptionByID_zero_rows pg receptionID closedAt db hf hzero
  · intro σ repo env pvzID w r hb hG hC
    rw [CloseLastReception_already_closed repo env pvzID w r hb hG hC]
    exact ⟨rfl, rfl⟩

theorem C3_zero_rows_is_already_closed_witness :
    ReceptionPostgres.CloseReceptionByID (samplePg 0) 11 60 sampleDB
        = (some .ErrReceptionAlreadyClosed, sampleDB) ∧
    (ReceptionService.CloseLastReception (staleRepository (samplePg 0) sampleStaleReception)
        (sampleCall 60) 1 sampleWorld).1 = (none, some .ErrReceptionAlreadyClosed) ∧
    (ReceptionService.CloseLastReception (staleRepository (samplePg 0) sampleStaleReception)
        (sampleCall 60) 1 sampleWorld).2.db = sampleWorld.db :=
  ⟨C3_zero_rows_is_already_closed.1 (samplePg 0) 11 60 sampleDB rfl (by decide),
   C3_zero_rows_is_already_closed.2 DB (staleRepository (samplePg 0) sampleStaleReception)
     (sampleCall 60) 1 sampleWorld sampleStaleReception rfl rfl (by decide)⟩

theorem maxKey_spec {α : Type} (key : α → Time) (rows : List α) (m : Time)
    (h : maxKey key rows = some m) :
    (∃ x ∈ rows, key x = m) ∧ ∀ y ∈ rows, key y ≤ m := by
  induction rows generalizing m with
  | nil => simp [maxKey] at h
  | cons x xs ih =>
    unfold maxKey at h
    cases hxs : maxKey key xs with
    | none =>
      rw [hxs] at h
      simp only [Option.some.injEq] at h
      have hnil : xs = [] := by
        cases xs with
        | nil => rfl
        | cons y ys =>
          unfold maxKey at hxs
          cases hys : maxKey key ys <;> rw [hys] at hxs <;> simp at hxs
      subst hnil
      subst h
      simp
    | some m' =>
      rw [hxs] at h
      simp only [Option.some.injEq] at h
      obtain ⟨⟨z, hz, hzk⟩, hall⟩ := ih m' hxs
      subst h
      constructor
      · by_cases hle : key x ≤ m'
        · exact ⟨z, List.mem_cons_of_mem _ hz, by rw [hzk, max_eq_right hle]⟩
        · exact ⟨x, List.mem_cons_self _ _, by rw [max_eq_left (le_of_lt (not_le.1 hle))]⟩
      · intro y hy
        rcases List.mem_cons.1 hy with rfl | hy
        · exact le_max_left _ _
        · exact le_trans (hall y hy) (le_max_right _ _)

theorem maxKey_eq_none_iff {α : Type} (key : α → Time) (rows : List α) :
    maxKey key rows = none ↔ rows = [] := by
  cases rows with
  | nil => simp [maxKey]
  | cons x xs =>
    unfold maxKey
    cases maxKey key xs <;> simp

theorem pickLatest_nil {α : Type} (key : α → Time) (tie : Nat) :
    pickLatest key tie ([] : List α) = none := by
  simp [pickLatest, maxKey]

/-- The picked row is one of the rows and no row has a larger key. -/
theorem pickLatest_spec {α : Type} (key : α → Time) (tie : Nat) (rows : List α) (x : α)
    (h : pickLatest key tie rows = some x) :
    x ∈ rows ∧ ∀ y ∈ rows, key y ≤ key x := by
  unfold pickLatest at h
  cases hm : maxKey key rows with
  | none => rw [hm] at h; simp at h
  | some m =>
    rw [hm] at h
    simp only at h
    have hx := List.getElem?_mem h
    rw [List.mem_filter] at hx
    have hk : key x = m := by simpa using hx.2
    exact ⟨hx.1, fun y hy => hk ▸ (maxKey_spec key rows m hm).2 y hy⟩

/-- Some row is picked as soon as there is one. -/
theorem pickLatest_exists {α : Type} (key : α → Time) (tie : Nat) (rows : List α)
    (hne : rows ≠ []) : ∃ x, pickLatest key tie rows = some x := by
  unfold pickLatest
  cases hm : maxKey key rows with
  | none => exact absurd ((maxKey_eq_none_iff key rows).1 hm) hne
  | some m =>
    simp only
    obtain ⟨⟨z, hz, hzk⟩, -⟩ := maxKey_spec key rows m hm
    have hmem : z ∈ rows.filter (fun r => decide (key r = m)) := by
      rw [List.mem_filter]
      exact ⟨hz, by simp [hzk]⟩
    have hpos : 0 < (rows.filter (fun r => decide (key r = m))).length :=
      List.length_pos_of_mem hmem
    have hlt := Nat.mod_lt tie hpos
    exact ⟨_, List.getElem?_eq_getElem hlt⟩

/-- A row whose key is strictly the largest is the one picked. -/
theorem pickLatest_unique_max {α : Type} (key : α → Time) (tie : Nat) (rows : List α) (x : α)
    (hx : x ∈ rows) (hmax : ∀ y ∈ rows, y ≠ x → key y < key x) :
    pickLatest key tie rows = some x := by
  obtain ⟨z, hz⟩ := pickLatest_exists key tie rows (List.ne_nil_of_mem hx)
  obtain ⟨hzm, hzmax⟩ := pickLatest_spec key tie rows z hz
  by_cases hzx : z = x
  · rw [hz, hzx]
  · have h1 := hmax z hzm hzx
    have h2 := hzmax x hx
    exact absurd h1 (not_lt.2 h2)

theorem pg_GetOpenReception_ok_mem (env : PgEnv) (pvzID : UUID) (db : DB) (r : Reception)
    (h : ReceptionPostgres.GetOpenReception env pvzID db = .ok r) :
    r ∈ openReceptions db pvzID := by
  unfold ReceptionPostgres.GetOpenReception at h
  cases hf : env.fault .GetOpenReception with
  | some m => rw [hf] at h; simp at h
  | none =>
    rw [hf] at h
    simp only at h
    cases hp : pickLatest (fun r => r.CreatedAt) env.tie (openReceptions db pvzID) with
    | none => rw [hp] at h; simp at h
    | some x =>
      rw [hp] at h
      simp only [Except.ok.injEq] at h
      subst h
      exact (pickLatest_spec _ _ _ _ hp).1

theorem pg_GetOpenReception_exists (env : PgEnv) (pvzID : UUID) (db : DB)
    (hf : env.fault .GetOpenReception = none) (hne : openReceptions db pvzID ≠ []) :
    ∃ r, ReceptionPostgres.GetOpenReception env pvzID db = .ok r := by
  unfold ReceptionPostgres.GetOpenReception
  rw [hf]
  obtain ⟨x, hx⟩ := pickLatest_exists (fun r : Reception => r.CreatedAt) env.tie _ hne
  exact ⟨x, by simp [hx]⟩

theorem pg_GetOpenReception_error (env : PgEnv) (pvzID : UUID) (db : DB)
    (hnil : openReceptions db pvzID = []) :
    ∃ e, ReceptionPostgres.GetOpenReception env pvzID db = .error e := by
  unfold ReceptionPostgres.GetOpenReception
  cases env.fault .GetOpenReception with
  | some m => exact ⟨_, rfl⟩
  | none =>
    rw [hnil, pickLatest_nil]
    exact ⟨_, rfl⟩

theorem mem_openReceptions (db : DB) (pvzID : UUID) (r : Reception) :
    r ∈ openReceptions db pvzID ↔
      r ∈ db.receptions ∧ r.PVZID = pvzID ∧ r.Status = StatusInProgress := by
  unfold openReceptions
  rw [List.mem_filter]
  simp

/-- Closing the only open reception of a PVZ leaves the PVZ without an open
reception. -/
theorem pg_close_clears_open (env : PgEnv) (pvzID : UUID) (closedAt : Time) (db : DB)
    (r : Reception) (hf : env.fault .CloseReceptionByID = none)
    (hr : r ∈ openReceptions db pvzID) (hone : openCount db pvzID ≤ 1) :
    (ReceptionPostgres.CloseReceptionByID env r.ID closedAt db).1 = none ∧
    openReceptions (ReceptionPostgres.CloseReceptionByID env r.ID closedAt db).2 pvzID = [] := by
  have hr' := (mem_openReceptions db pvzID r).1 hr
  have hmatch : closeMatches r.ID r = true := by simp [closeMatches, hr'.2.2]
  have hpos : 0 < (db.receptions.filter (closeMatches r.ID)).length :=
    List.length_pos_of_mem (List.mem_filter.2 ⟨hr'.1, hmatch⟩)
  have hsingle : ∀ x ∈ openReceptions db pvzID, x = r := by
    intro x hx
    unfold openCount at hone
    match hl : openReceptions db pvzID, hone with
    | [], _ => rw [hl] at hx; cases hx
    | [y], _ =>
      rw [hl] at hx hr
      rw [List.mem_singleton] at hx hr
      rw [hx, hr]
    | _ :: _ :: _, h2 => rw [hl] at hone; simp at hone
  unfold ReceptionPostgres.CloseReceptionByID
  rw [hf]
  simp only
  rw [if_neg (by omega)]
  refine ⟨rfl, ?_⟩
  unfold openReceptions
  simp only
  rw [List.filter_eq_nil_iff]
  intro y hy
  obtain ⟨x, hx, rfl⟩ := List.mem_map.1 hy
  by_cases hc : closeMatches r.ID x = true
  · simp [hc, statusClosed_ne_inProgress]
  · simp only [hc, Bool.false_eq_true, ↓reduceIte, Bool.and_eq_true, decide_eq_true_eq, not_and]
    intro hp hs
    have hxo : x ∈ openReceptions db pvzID := (mem_openReceptions db pvzID x).2 ⟨hx, hp, hs⟩
    rw [hsingle x hxo] at hc
    exact absurd hmatch hc

theorem CloseLastReception_success {σ : Type} (repo : Repository σ) (env : CallEnv)
    (pvzID : UUID) (w : World σ) (r : Reception) (db : σ)
    (hb : env.beginErr = none) (hc : env.commitErr = none)
    (hG : repo.GetOpenReception pvzID w.db = .ok r)
    (hC : repo.CloseReceptionByID r.ID env.now w.db = (none, db)) :
    ReceptionService.CloseLastReception repo env pvzID w =
      ((some { r with Status := StatusClosed, ClosedAt := some env.now }, none),
        { db := db,
          trace := w.trace ++ [.txBegin, .GetOpenReception pvzID,
            .CloseReceptionByID r.ID env.now, .txCommit] }) := by
  have hwork : ReceptionService.CloseLastReceptionWork repo env pvzID (w.record .txBegin) =
      ((some { r with Status := StatusClosed, ClosedAt := some env.now }, none),
        { db := db,
          trace := w.trace ++ [.txBegin, .GetOpenReception pvzID,
            .CloseReceptionByID r.ID env.now] }) := by
    unfold ReceptionService.CloseLastReceptionWork
    simp only [record_db, hG, hC]
    simp [World.record]
  unfold ReceptionService.CloseLastReception
  rw [trManagerDo_commit env _ none w _ _ hb hc hwork]
  simp [World.record]

theorem CloseLastReception_lookup_failed {σ : Type} (repo : Repository σ) (env : CallEnv)
    (pvzID : UUID) (w : World σ) (e : GoError) (hb : env.beginErr = none)
    (hG : repo.GetOpenReception pvzID w.db = .error e) :
    ReceptionService.CloseLastReception repo env pvzID w =
      ((none, some .ErrNoOpenReception),
        { db := w.db,
          trace := w.trace ++ [.txBegin, .GetOpenReception pvzID, .txRollback] }) := by
  have hwork : ReceptionService.CloseLastReceptionWork repo env pvzID (w.record .txBegin) =
      ((none, some .ErrNoOpenReception),
        { db := w.db, trace := w.trace ++ [.txBegin, .GetOpenReception pvzID] }) := by
    unfold ReceptionService.CloseLastReceptionWork
    simp only [record_db, hG]
    simp [World.record]
  unfold ReceptionService.CloseLastReception
  rw [trManagerDo_rollback env _ none w _ none _ hb hwork]
  simp

/-- What a `CloseLastReception` that returned no error has done. -/
theorem CloseLastReception_ok_inv {σ : Type} (repo : Repository σ) (env : CallEnv)
    (pvzID : UUID) (w : World σ)
    (h : (ReceptionService.CloseLastReception repo env pvzID w).1.2 = none) :
    ∃ r, repo.GetOpenReception pvzID w.db = .ok r ∧
      (repo.CloseReceptionByID r.ID env.now w.db).1 = none ∧
      (ReceptionService.CloseLastReception repo env pvzID w).2.db
        = (repo.CloseReceptionByID r.ID env.now w.db).2 := by
  unfold ReceptionService.CloseLastReception at h ⊢
  cases hb : env.beginErr with
  | some m =>
    rw [trManagerDo_begin_failed _ _ _ _ m hb] at h
    simp at h
  | none =>
    rcases hfn : ReceptionService.CloseLastReceptionWork repo env pvzID (w.record .txBegin)
      with ⟨⟨res, err⟩, w1⟩
    cases err with
    | some er =>
      rw [trManagerDo_rollback _ _ _ _ _ _ _ hb hfn] at h
      simp at h
    | none =>
      cases hc : env.commitErr with
      | some m =>
        rw [trManagerDo_commit_failed _ _ _ _ _ _ m hb hc hfn] at h
        simp at h
      | none =>
        rw [trManagerDo_commit _ _ _ _ _ _ hb hc hfn]
        unfold ReceptionService.CloseLastReceptionWork at hfn
        simp only [record_db] at hfn
        cases hG : repo.GetOpenReception pvzID w.db with
        | error e => rw [hG] at hfn; simp at hfn
        | ok r =>
          rw [hG] at hfn
          simp only at hfn
          rcases hC : repo.CloseReceptionByID r.ID env.now w.db with ⟨_ | e, db⟩
          · rw [hC] at hfn
            simp only [Prod.mk.injEq] at hfn
            refine ⟨r, rfl, by rw [hC], ?_⟩
            rw [← hfn.2, hC]
            rfl
          · rw [hC] at hfn
            simp only at hfn
            split at hfn <;> simp at hfn

/-- C4 (counterexample): PVZ 1 of the sample store has one open reception; the
first `CloseLastReception` succeeds and the second one, with nothing in between,
fails with `ErrNoOpenReception`, which is not `ErrReceptionAlreadyClosed`.  And
on a store where PVZ 1 has two open receptions both calls succeed. -/
theorem C4_second_close_reports_no_open_reception :
    openCount sampleWorld.db 1 = 1 ∧
    (ReceptionService.CloseLastReception (NewRepository (samplePg 0)) (sampleCall 60) 1
      sampleWorld).1.2 = none ∧
    (ReceptionService.CloseLastReception (NewRepository (samplePg 0)) (sampleCall 61) 1
      (ReceptionService.CloseLastReception (NewRepository (samplePg 0)) (sampleCall 60) 1
        sampleWorld).2).1 = (none, some .ErrNoOpenReception) ∧
    GoError.ErrNoOpenReception ≠ GoError.ErrReceptionAlreadyClosed ∧
    openCount sampleTwoOpenWorld.db 1 = 2 ∧
    (ReceptionService.CloseLastReception (NewRepository (samplePg 0)) (sampleCall 60) 1
      sampleTwoOpenWorld).1.2 = none ∧
    (ReceptionService.CloseLastReception (NewRepository (samplePg 0)) (sampleCall 61) 1
      (ReceptionService.CloseLastReception (NewRepository (samplePg 0)) (sampleCall 60) 1
        sampleTwoOpenWorld).2).1.2 = none := by
  decide

/-- C4 (amended): for a PVZ with exactly one open reception on the Postgres
store, a `CloseLastReception` whose transaction and statements do not fail
succeeds and returns that reception closed; a second call right after it, once
its transaction begins, fails with `ErrNoOpenReception` and changes nothing;
and in no environment do the two calls both succeed. -/
theorem C4_close_twice (e1 e2 : StepEnv) (pvzID : UUID) (w : World DB)
    (hone : openCount w.db pvzID = 1) :
    (e1.call.beginErr = none → e1.call.commitErr = none →
      e1.pg.fault .GetOpenReception = none → e1.pg.fault .CloseReceptionByID = none →
      ∃ r ∈ w.db.receptions, r.PVZID = pvzID ∧ r.Status = StatusInProgress ∧
        (ReceptionService.CloseLastReception (NewRepository e1.pg) e1.call pvzID w).1
          = (some { r with Status := StatusClosed, ClosedAt := some e1.call.now }, none) ∧
        (e2.call.beginErr = none →
          (ReceptionService.CloseLastReception (NewRepository e2.pg) e2.call pvzID
            (ReceptionService.CloseLastReception (NewRepository e1.pg) e1.call pvzID w).2).1
            = (none, some .ErrNoOpenReception) ∧
          (ReceptionService.CloseLastReception (NewRepository e2.pg) e2.call pvzID
            (ReceptionService.CloseLastReception (NewRepository e1.pg) e1.call pvzID w).2).2.db
            = (ReceptionService.CloseLastReception (NewRepository e1.pg) e1.call pvzID w).2.db)) ∧
    ¬ ((ReceptionService.CloseLastReception (NewRepository e1.pg) e1.call pvzID w).1.2 = none ∧
       (ReceptionService.CloseLastReception (NewRepository e2.pg) e2.call pvzID
          (ReceptionService.CloseLastReception (NewRepository e1.pg) e1.call pvzID w).2).1.2
          = none) := by
  have hne : openReceptions w.db pvzID ≠ [] := by
    intro hnil
    unfold openCount at hone
    rw [hnil] at hone
    cases hone
  -- a first call that returns no error leaves the PVZ without an open reception
  have hclear : (ReceptionService.CloseLastReception (NewRepository e1.pg) e1.call pvzID w).1.2
      = none →
      openReceptions
        (ReceptionService.CloseLastReception (NewRepository e1.pg) e1.call pvzID w).2.db
        pvzID = [] := by
    intro hok
    obtain ⟨r, hG, hC, hdb⟩ := CloseLastReception_ok_inv _ _ _ _ hok
    rw [hdb]
    simp only [NewRepository] at hG hC ⊢
    have hr := pg_GetOpenReception_ok_mem _ _ _ _ hG
    have hf : e1.pg.fault .CloseReceptionByID = none := by
      cases hf : e1.pg.fault .CloseReceptionByID with
      | none => rfl
      | some m =>
        unfold ReceptionPostgres.CloseReceptionByID at hC
        rw [hf] at hC
        simp at hC
    exact (pg_close_clears_open e1.pg pvzID e1.call.now w.db r hf hr (by omega)).2
  constructor
  · intro hb hc hfG hfC
    obtain ⟨r, hG⟩ := pg_GetOpenReception_exists e1.pg pvzID w.db hfG hne
    have hr := pg_GetOpenReception_ok_mem _ _ _ _ hG
    have hr' := (mem_openReceptions _ _ _).1 hr
    obtain ⟨hC1, -⟩ := pg_close_clears_open e1.pg pvzID e1.call.now w.db r hfC hr (by omega)
    have hC : (NewRepository e1.pg).CloseReceptionByID r.ID e1.call.now w.db
        = (none, (ReceptionPostgres.CloseReceptionByID e1.pg r.ID e1.call.now w.db).2) := by
      simp only [NewRepository]
      rw [← hC1]
    have hfirst := CloseLastReception_success (NewRepository e1.pg) e1.call pvzID w r _
      hb hc hG hC
    refine ⟨r, hr'.1, hr'.2.1, hr'.2.2, by rw [hfirst], ?_⟩
    intro hb2
    have hnil := hclear (by rw [hfirst])
    obtain ⟨err, hE⟩ := pg_GetOpenReception_error e2.pg pvzID _ hnil
    rw [CloseLastReception_lookup_failed (NewRepository e2.pg) e2.call pvzID _ err hb2 hE]
    exact ⟨rfl, rfl⟩
  · rintro ⟨h1, h2⟩
    have hnil := hclear h1
    obtain ⟨r2, hG2, -, -⟩ := CloseLastReception_ok_inv _ _ _ _ h2
    have hm := pg_GetOpenReception_ok_mem e2.pg pvzID _ r2 hG2
    rw [hnil] at hm
    cases hm

theorem C4_close_twice_witness :
    openCount sampleWorld.db 1 = 1 ∧
    (∃ r ∈ sampleWorld.db.receptions, r.PVZID = 1 ∧ r.Status = StatusInProgress ∧
        (ReceptionService.CloseLastReception (NewRepository (sampleStep 0 60).pg)
          (sampleStep 0 60).call 1 sampleWorld).1
          = (some { r with Status := StatusClosed, ClosedAt := some (sampleStep 0 60).call.now },
              none) ∧
        ((sampleStep 0 61).call.beginErr = none →
          (ReceptionService.CloseLastReception (NewRepository (sampleStep 0 61).pg)
            (sampleStep 0 61).call 1
            (ReceptionService.CloseLastReception (NewRepository (sampleStep 0 60).pg)
              (sampleStep 0 60).call 1 sampleWorld).2).1
            = (none, some .ErrNoOpenReception) ∧
          (ReceptionService.CloseLastReception (NewRepository (sampleStep 0 61).pg)
            (sampleStep 0 61).call 1
            (ReceptionService.CloseLastReception (NewRepository (sampleStep 0 60).pg)
              (sampleStep 0 60).call 1 sampleWorld).2).2.db
            = (ReceptionService.CloseLastReception (NewRepository (sampleStep 0 60).pg)
              (sampleStep 0 60).call 1 sampleWorld).2.db)) :=
  ⟨by decide,
   (C4_close_twice (sampleStep 0 60) (sampleStep 0 61) 1 sampleWorld (by decide)).1
     rfl rfl rfl rfl⟩

/-- In the three use cases that look up the open reception, every error of the
lookup, whatever it is, is replaced by the use case's domain error. -/
theorem lookup_error_is_replaced {σ : Type} (repo : Repository σ) (env : CallEnv)
    (pvzID : UUID) (ty : ProductType) (w : World σ) (e : GoError)
    (hb : env.beginErr = none) (hty : IsValidProductType ty = true)
    (hG : repo.GetOpenReception pvzID w.db = .error e) :
    (ReceptionService.CloseLastReception repo env pvzID w).1
      = (none, some .ErrNoOpenReception) ∧
    (ProductService.AddProduct repo env pvzID ty w).1 = (none, some .ErrNoActiveReception) ∧
    (ProductService.DeleteLastProduct repo env pvzID w).1 = some .ErrNoOpenReception := by
  refine ⟨?_, ?_, ?_⟩
  · rw [CloseLastReception_lookup_failed repo env pvzID w e hb hG]
  · have hwork : ProductService.AddProductWork repo env pvzID ty (w.record .txBegin) =
        ((none, some .ErrNoActiveReception),
          (w.record .txBegin).record (.GetOpenReception pvzID)) := by
      unfold ProductService.AddProductWork
      simp only [record_db, hG]
    unfold ProductService.AddProduct
    simp only [hty, Bool.not_true, Bool.false_eq_true, ↓reduceIte]
    rw [trManagerDo_rollback env _ none w _ none _ hb hwork]
  · have hwork : ProductService.DeleteLastProductWork repo pvzID (w.record .txBegin) =
        (((), some .ErrNoOpenReception),
          (w.record .txBegin).record (.GetOpenReception pvzID)) := by
      unfold ProductService.DeleteLastProductWork
      simp only [record_db, hG]
    unfold ProductService.DeleteLastProduct
    simp only
    rw [trManagerDo_rollback env _ () w _ () _ hb hwork]

/-- C5 (failing input): PVZ 1 of the sample store has an open reception, and the
query of `GetOpenReception` fails with the driver error "connection refused",
which is a storage failure and not a not-found outcome.  `CloseLastReception`
and `DeleteLastProduct` return the domain error `ErrNoOpenReception` and
`AddProduct` returns `ErrNoActiveReception`; the storage error is lost.  The same
driver error on the existence query of `CreateReception` and on the first read
of `GetFullPVZInfo` is returned as it is. -/
theorem C5_lookup_failure_reported_as_domain_error :
    openCount sampleWorld.db 1 = 1 ∧
    (GoError.driver "connection refused").isStorageFailure = true ∧
    (NewRepository (sampleFaultPg .GetOpenReception "connection refused")).GetOpenReception 1
      sampleWorld.db = .error (.driver "connection refused") ∧
    (ReceptionService.CloseLastReception
      (NewRepository (sampleFaultPg .GetOpenReception "connection refused"))
      (sampleCall 60) 1 sampleWorld).1 = (none, some .ErrNoOpenReception) ∧
    (ProductService.AddProduct
      (NewRepository (sampleFaultPg .GetOpenReception "connection refused"))
      (sampleCall 60) 1 ProductShoes sampleWorld).1 = (none, some .ErrNoActiveReception) ∧
    (ProductService.DeleteLastProduct
      (NewRepository (sampleFaultPg .GetOpenReception "connection refused"))
      (sampleCall 60) 1 sampleWorld).1 = some .ErrNoOpenReception ∧
    GoError.ErrNoOpenReception.isDomain = true ∧ GoError.ErrNoActiveReception.isDomain = true ∧
    (ReceptionService.CreateReception
      (NewRepository (sampleFaultPg .IsPVZExists "connection refused"))
      (sampleCall 60) 1 sampleWorld).1 = (none, some (.driver "connection refused")) ∧
    (PVZService.GetFullPVZInfo
      (NewRepository (sampleFaultPg .GetAllPVZ "connection refused"))
      (sampleCall 60) none none 1 10 sampleWorld).map (fun out => out.1)
        = some ([], some (.driver "connection refused")) := by
  refine ⟨by decide, by decide, rfl, by decide, by decide, by decide, by decide, by decide,
    by decide, by decide⟩

theorem openReceptions_congr (db db' : DB) (h : db'.receptions = db.receptions) (pvzID : UUID) :
    openReceptions db' pvzID = openReceptions db pvzID := by
  unfold openReceptions
  rw [h]

theorem pg_GetOpenReception_single (env : PgEnv) (pvzID : UUID) (db : DB) (r : Reception)
    (hf : env.fault .GetOpenReception = none) (hsingle : openReceptions db pvzID = [r]) :
    ReceptionPostgres.GetOpenReception env pvzID db = .ok r := by
  obtain ⟨x, hx⟩ := pg_GetOpenReception_exists env pvzID db hf (by rw [hsingle]; simp)
  have hm := pg_GetOpenReception_ok_mem env pvzID db x hx
  rw [hsingle, List.mem_singleton] at hm
  rw [hx, hm]

/-- `AddProduct` with nothing failing on a PVZ whose open reception is `r`. -/
theorem AddProduct_pg_success (e : StepEnv) (pvzID : UUID) (ty : ProductType) (w : World DB)
    (r : Reception) (he : e.noFailure) (hty : IsValidProductType ty = true)
    (hsingle : openReceptions w.db pvzID = [r]) :
    (ProductService.AddProduct (NewRepository e.pg) e.call pvzID ty w).1
      = (some (addedProduct r.ID (e, ty)), none) ∧
    (ProductService.AddProduct (NewRepository e.pg) e.call pvzID ty w).2.db
      = DB.mk w.db.pvz w.db.receptions (w.db.products ++ [addedProduct r.ID (e, ty)]) := by
  obtain ⟨hb, hc, hf⟩ := he
  have hG : (NewRepository e.pg).GetOpenReception pvzID w.db = .ok r :=
    pg_GetOpenReception_single e.pg pvzID w.db r (hf _) hsingle
  have hwork : ProductService.AddProductWork (NewRepository e.pg) e.call pvzID ty
      (w.record .txBegin) =
      ((some (addedProduct r.ID (e, ty)), none),
        { db := DB.mk w.db.pvz w.db.receptions (w.db.products ++ [addedProduct r.ID (e, ty)]),
          trace := w.trace ++ [.txBegin, .GetOpenReception pvzID,
            .CreateProduct { ID := uuidNil, DateTime := e.call.now, Type_ := ty,
                             ReceptionID := r.ID }] }) := by
    unfold ProductService.AddProductWork
    simp only [record_db, hG]
    simp [NewRepository, ProductPostgres.CreateProduct, hf, World.record, addedProduct]
  unfold ProductService.AddProduct
  simp only [hty, Bool.not_true, Bool.false_eq_true, ↓reduceIte]
  rw [trManagerDo_commit e.call _ none w _ _ hb hc hwork]
  exact ⟨rfl, rfl⟩

/-- The store after a run of `AddProduct` calls in which nothing fails. -/
theorem run_addOps_db (pvzID : UUID) (adds : List (StepEnv × ProductType)) (w : World DB)
    (r : Reception) (hsingle : openReceptions w.db pvzID = [r])
    (hok : ∀ a ∈ adds, a.1.noFailure ∧ IsValidProductType a.2 = true) :
    (run (addOps pvzID adds) w).db
      = DB.mk w.db.pvz w.db.receptions (w.db.products ++ adds.map (addedProduct r.ID)) := by
  induction adds generalizing w with
  | nil => simp [run, addOps]
  | cons a as ih =>
    have ha := hok a (List.mem_cons_self _ _)
    have hstep := (AddProduct_pg_success a.1 pvzID a.2 w r ha.1 ha.2 hsingle).2
    have hrun : run (addOps pvzID (a :: as)) w
        = run (addOps pvzID as)
            (ProductService.AddProduct (NewRepository a.1.pg) a.1.call pvzID a.2 w).2 := by
      simp [run, addOps, step]
    have hsingle2 : openReceptions
        (ProductService.AddProduct (NewRepository a.1.pg) a.1.call pvzID a.2 w).2.db pvzID
        = [r] := by
      rw [openReceptions_congr w.db _ (by rw [hstep]) pvzID]
      exact hsingle
    rw [hrun, ih _ hsingle2 (fun b hb => hok b (List.mem_cons_of_mem _ hb)), hstep]
    simp

theorem FreshAdds_concat (base : List Product) (l : List (StepEnv × ProductType))
    (a : StepEnv × ProductType) (h : FreshAdds base (l ++ [a])) :
    FreshAdds base l ∧ (∀ b ∈ l, b.1.call.now < a.1.call.now) ∧
    (∀ b ∈ l, b.1.pg.newID ≠ a.1.pg.newID) ∧ (∀ p ∈ base, p.ID ≠ a.1.pg.newID) := by
  obtain ⟨ht, hn, hb⟩ := h
  rw [List.map_append, List.pairwise_append] at ht
  rw [List.map_append, List.nodup_append] at hn
  refine ⟨⟨ht.1, hn.1, fun b hbm => hb b (List.mem_append_left _ hbm)⟩, ?_, ?_, ?_⟩
  · intro b hbm
    exact ht.2.2 _ (List.mem_map_of_mem _ hbm) _ (by simp)
  · intro b hbm heq
    exact hn.2.2 (List.mem_map_of_mem (fun a => a.1.pg.newID) hbm) (by simp [heq])
  · exact hb a (by simp)

theorem DeleteLastProduct_pg_success (d : StepEnv) (pvzID : UUID) (w : World DB)
    (r : Reception) (last : Product) (hd : d.noFailure)
    (hsingle : openReceptions w.db pvzID = [r])
    (hpick : pickLatest (fun p : Product => p.DateTime) d.pg.tie
      (w.db.products.filter (fun p => decide (p.ReceptionID = r.ID))) = some last) :
    (ProductService.DeleteLastProduct (NewRepository d.pg) d.call pvzID w).1 = none ∧
    (ProductService.DeleteLastProduct (NewRepository d.pg) d.call pvzID w).2.db
      = DB.mk w.db.pvz w.db.receptions
          (w.db.products.filter (fun p => !decide (p.ID = last.ID))) := by
  obtain ⟨hb, hc, hf⟩ := hd
  have hG : (NewRepository d.pg).GetOpenReception pvzID w.db = .ok r :=
    pg_GetOpenReception_single d.pg pvzID w.db r (hf _) hsingle
  have hwork : ProductService.DeleteLastProductWork (NewRepository d.pg) pvzID
      (w.record .txBegin) =
      (((), none),
        { db := DB.mk w.db.pvz w.db.receptions
            (w.db.products.filter (fun p => !decide (p.ID = last.ID))),
          trace := w.trace ++ [.txBegin, .GetOpenReception pvzID, .DeleteLastProduct r.ID] }) := by
    unfold ProductService.DeleteLastProductWork
    simp only [record_db, hG]
    simp [NewRepository, ProductPostgres.DeleteLastProduct, hf, hpick, World.record]
  unfold ProductService.DeleteLastProduct
  simp only
  rw [trManagerDo_commit d.call _ () w _ _ hb hc hwork]
  exact ⟨rfl, rfl⟩

theorem DeleteLastProduct_pg_nothing (d : StepEnv) (pvzID : UUID) (w : World DB)
    (r : Reception) (hd : d.noFailure)
    (hsingle : openReceptions w.db pvzID = [r])
    (hnone : w.db.products.filter (fun p => decide (p.ReceptionID = r.ID)) = []) :
    (ProductService.DeleteLastProduct (NewRepository d.pg) d.call pvzID w).1
      = some .ErrNoProductsToDelete ∧
    (ProductService.DeleteLastProduct (NewRepository d.pg) d.call pvzID w).2.db = w.db := by
  obtain ⟨hb, hc, hf⟩ := hd
  have hG : (NewRepository d.pg).GetOpenReception pvzID w.db = .ok r :=
    pg_GetOpenReception_single d.pg pvzID w.db r (hf _) hsingle
  have hwork : ProductService.DeleteLastProductWork (NewRepository d.pg) pvzID
      (w.record .txBegin) =
      (((), some .ErrNoProductsToDelete),
        { db := w.db,
          trace := w.trace ++ [.txBegin, .GetOpenReception pvzID, .DeleteLastProduct r.ID] }) := by
    unfold ProductService.DeleteLastProductWork
    simp only [record_db, hG]
    simp [NewRepository, ProductPostgres.DeleteLastProduct, hf, hnone, pickLatest_nil,
      World.record]
  unfold ProductService.DeleteLastProduct
  simp only
  rw [trManagerDo_rollback d.call _ () w _ () _ hb hwork]
  exact ⟨rfl, rfl⟩

theorem filter_reception_added (receptionID : UUID) (base : List Product)
    (l : List (StepEnv × ProductType))
    (hbase : ∀ p ∈ base, p.ReceptionID ≠ receptionID) :
    (base ++ l.map (addedProduct receptionID)).filter
        (fun p => decide (p.ReceptionID = receptionID))
      = l.map (addedProduct receptionID) := by
  rw [List.filter_append]
  have h1 : base.filter (fun p => decide (p.ReceptionID = receptionID)) = [] := by
    rw [List.filter_eq_nil_iff]
    intro p hp
    simpa using hbase p hp
  have h2 : (l.map (addedProduct receptionID)).filter
      (fun p => decide (p.ReceptionID = receptionID)) = l.map (addedProduct receptionID) := by
    rw [List.filter_eq_self]
    intro p hp
    obtain ⟨a, -, rfl⟩ := List.mem_map.1 hp
    simp [addedProduct]
  rw [h1, h2, List.nil_append]

/-- One `DeleteLastProduct` on a reception holding `l ++ [a]` removes the row of
`a` and nothing else. -/
theorem DeleteLastProduct_removes_last (d : StepEnv) (pvzID : UUID) (w : World DB)
    (r : Reception) (base : List Product) (l : List (StepEnv × ProductType))
    (a : StepEnv × ProductType) (hd : d.noFailure)
    (hsingle : openReceptions w.db pvzID = [r])
    (hprod : w.db.products = base ++ (l ++ [a]).map (addedProduct r.ID))
    (hbase : ∀ p ∈ base, p.ReceptionID ≠ r.ID)
    (hfresh : FreshAdds base (l ++ [a])) :
    (ProductService.DeleteLastProduct (NewRepository d.pg) d.call pvzID w).1 = none ∧
    (ProductService.DeleteLastProduct (NewRepository d.pg) d.call pvzID w).2.db
      = DB.mk w.db.pvz w.db.receptions (base ++ l.map (addedProduct r.ID)) := by
  obtain ⟨-, htime, hid, hbid⟩ := FreshAdds_concat base l a hfresh
  have hrows : w.db.products.filter (fun p => decide (p.ReceptionID = r.ID))
      = (l ++ [a]).map (addedProduct r.ID) := by
    rw [hprod]
    exact filter_reception_added r.ID base (l ++ [a]) hbase
  have hpick : pickLatest (fun p : Product => p.DateTime) d.pg.tie
      (w.db.products.filter (fun p => decide (p.ReceptionID = r.ID)))
      = some (addedProduct r.ID a) := by
    rw [hrows]
    apply pickLatest_unique_max
    · exact List.mem_map_of_mem _ (by simp)
    · intro y hy hne
      obtain ⟨b, hb, rfl⟩ := List.mem_map.1 hy
      rcases List.mem_append.1 hb with hb | hb
      · exact htime b hb
      · rw [List.mem_singleton] at hb
        subst hb
        exact absurd rfl hne
  obtain ⟨h1, h2⟩ := DeleteLastProduct_pg_success d pvzID w r _ hd hsingle hpick
  refine ⟨h1, ?_⟩
  rw [h2, hprod]
  congr 1
  rw [List.map_append, ← List.append_assoc, List.filter_append]
  have hkeep : (base ++ l.map (addedProduct r.ID)).filter
      (fun p => !decide (p.ID = (addedProduct r.ID a).ID)) = base ++ l.map (addedProduct r.ID) := by
    rw [List.filter_eq_self]
    intro p hp
    rcases List.mem_append.1 hp with hp | hp
    · simpa [addedProduct] using hbid p hp
    · obtain ⟨b, hb, rfl⟩ := List.mem_map.1 hp
      simpa [addedProduct] using hid b hb
  rw [hkeep]
  simp

/-- As many `DeleteLastProduct` calls as the reception holds rows succeed and
leave it empty. -/
theorem deleteLastProductTimes_all (pvzID : UUID) (r : Reception) (base : List Product)
    (hbase : ∀ p ∈ base, p.ReceptionID ≠ r.ID) :
    ∀ (ds : List StepEnv) (l : List (StepEnv × ProductType)) (w : World DB),
      ds.length = l.length → (∀ d ∈ ds, d.noFailure) →
      openReceptions w.db pvzID = [r] →
      w.db.products = base ++ l.map (addedProduct r.ID) →
      FreshAdds base l →
      (deleteLastProductTimes pvzID ds w).1 = List.replicate l.length none ∧
      (deleteLastProductTimes pvzID ds w).2.db = DB.mk w.db.pvz w.db.receptions base := by
  intro ds
  induction ds with
  | nil =>
    intro l w hlen _ _ hprod _
    have hl : l = [] := List.length_eq_zero.1 hlen.symm
    subst hl
    simp only [List.map_nil, List.append_nil] at hprod
    refine ⟨rfl, ?_⟩
    simp only [deleteLastProductTimes]
    rw [← hprod]
  | cons d ds ih =>
    intro l w hlen hds hsingle hprod hfresh
    rcases List.eq_nil_or_concat l with hl | ⟨l', a, hl⟩
    · subst hl
      simp at hlen
    · rw [List.concat_eq_append] at hl
      subst hl
      obtain ⟨h1, h2⟩ := DeleteLastProduct_removes_last d pvzID w r base l' a
        (hds d (List.mem_cons_self _ _)) hsingle hprod hbase hfresh
      have hlen' : ds.length = l'.length := by
        simp only [List.length_cons, List.length_append, List.length_nil] at hlen
        omega
      have hsingle' : openReceptions
          (ProductService.DeleteLastProduct (NewRepository d.pg) d.call pvzID w).2.db pvzID
          = [r] := by
        rw [openReceptions_congr w.db _ (by rw [h2]) pvzID]
        exact hsingle
      obtain ⟨h3, h4⟩ := ih l' _ hlen' (fun x hx => hds x (List.mem_cons_of_mem _ hx))
        hsingle' (by rw [h2]) (FreshAdds_concat base l' a hfresh).1
      simp only [deleteLastProductTimes]
      refine ⟨?_, ?_⟩
      · rw [h1, h3]
        simp [List.replicate_succ]
      · rw [h4, h2]

/-- C6: let `r` be the open reception of the PVZ, holding no product, and let
`N >= 1` products be appended by `AddProduct` calls in which nothing fails, with
strictly increasing clock readings and fresh identifiers.  Then the reception
holds `p1..pN` in that order; one `DeleteLastProduct` succeeds, removes exactly
`pN` and leaves every other product of the store in place; `N` successive calls
all succeed and leave the reception without products; and the call after them
fails with `ErrNoProductsToDelete`. -/
theorem C6_lifo_removal (pvzID : UUID) (w : World DB) (r : Reception)
    (adds : List (StepEnv × ProductType))
    (hopen : openReceptions w.db pvzID = [r])
    (hempty : ∀ p ∈ w.db.products, p.ReceptionID ≠ r.ID)
    (hok : ∀ a ∈ adds, a.1.noFailure ∧ IsValidProductType a.2 = true)
    (hfresh : FreshAdds w.db.products adds)
    (hN : 1 ≤ adds.length) :
    (run (addOps pvzID adds) w).db.products.filter (fun p => decide (p.ReceptionID = r.ID))
      = adds.map (addedProduct r.ID) ∧
    (∀ d : StepEnv, d.noFailure →
      (ProductService.DeleteLastProduct (NewRepository d.pg) d.call pvzID
        (run (addOps pvzID adds) w)).1 = none ∧
      (ProductService.DeleteLastProduct (NewRepository d.pg) d.call pvzID
        (run (addOps pvzID adds) w)).2.db.products
        = w.db.products ++ adds.dropLast.map (addedProduct r.ID) ∧
      (ProductService.DeleteLastProduct (NewRepository d.pg) d.call pvzID
        (run (addOps pvzID adds) w)).2.db.products.filter
          (fun p => decide (p.ReceptionID = r.ID))
        = adds.dropLast.map (addedProduct r.ID)) ∧
    (∀ ds : List StepEnv, ds.length = adds.length → (∀ d ∈ ds, d.noFailure) →
      (deleteLastProductTimes pvzID ds (run (addOps pvzID adds) w)).1
        = List.replicate adds.length none ∧
      (deleteLastProductTimes pvzID ds (run (addOps pvzID adds) w)).2.db.products.filter
          (fun p => decide (p.ReceptionID = r.ID)) = [] ∧
      (deleteLastProductTimes pvzID ds (run (addOps pvzID adds) w)).2.db.products
        = w.db.products ∧
      ∀ d : StepEnv, d.noFailure →
        (ProductService.DeleteLastProduct (NewRepository d.pg) d.call pvzID
          (deleteLastProductTimes pvzID ds (run (addOps pvzID adds) w)).2).1
          = some .ErrNoProductsToDelete) := by
  have hrun := run_addOps_db pvzID adds w r hopen hok
  have hopenN : openReceptions (run (addOps pvzID adds) w).db pvzID = [r] := by
    rw [openReceptions_congr w.db _ (by rw [hrun]) pvzID]
    exact hopen
  have hprodN : (run (addOps pvzID adds) w).db.products
      = w.db.products ++ adds.map (addedProduct r.ID) := by rw [hrun]
  have hbasefilter : w.db.products.filter (fun p => decide (p.ReceptionID = r.ID)) = [] := by
    rw [List.filter_eq_nil_iff]
    intro p hp
    simpa using hempty p hp
  refine ⟨?_, ?_, ?_⟩
  · rw [hprodN]
    exact filter_reception_added r.ID _ adds hempty
  · intro d hd
    rcases List.eq_nil_or_concat adds with hl | ⟨l', a, hl⟩
    · subst hl
      simp at hN
    · rw [List.concat_eq_append] at hl
      subst hl
      obtain ⟨h1, h2⟩ := DeleteLastProduct_removes_last d pvzID _ r w.db.products l' a hd
        hopenN hprodN hempty hfresh
      rw [List.dropLast_concat]
      refine ⟨h1, by rw [h2], ?_⟩
      rw [h2]
      exact filter_reception_added r.ID _ l' hempty
  · intro ds hlen hds
    obtain ⟨h1, h2⟩ := deleteLastProductTimes_all pvzID r w.db.products hempty ds adds _
      hlen hds hopenN hprodN hfresh
    refine ⟨h1, by rw [h2]; exact hbasefilter, by rw [h2], ?_⟩
    intro d hd
    have hopenE : openReceptions
        (deleteLastProductTimes pvzID ds (run (addOps pvzID adds) w)).2.db pvzID = [r] := by
      rw [openReceptions_congr (run (addOps pvzID adds) w).db _ (by rw [h2]) pvzID]
      exact hopenN
    exact (DeleteLastProduct_pg_nothing d pvzID _ r hd hopenE
      (by rw [h2]; exact hbasefilter)).1

/-- Instance of the last-in-first-out removal property with three products added to the open
reception 13 of PVZ 1: the reception then holds products 201, 202, 203 in that order; one removal
deletes 203 and keeps 201, 202; three removals succeed and empty the reception; a fourth fails
with ErrNoProductsToDelete. -/
theorem C6_lifo_removal_witness :
    openReceptions (run sampleOps sampleWorld).db 1
      = [{ ID := 13, DateTime := 47, PVZID := 1, Status := StatusInProgress, CreatedAt := 47,
           ClosedAt := none }] ∧
    FreshAdds (run sampleOps sampleWorld).db.products sampleAdds ∧
    sampleAdds.length = 3 ∧
    (sampleAdds.map (addedProduct 13)).map (fun p => (p.ID, p.DateTime)) =
      [(201, 61), (202, 62), (203, 63)] ∧
    (run (addOps 1 sampleAdds) (run sampleOps sampleWorld)).db.products.filter
        (fun p => decide (p.ReceptionID = 13))
      = sampleAdds.map (addedProduct 13) ∧
    (ProductService.DeleteLastProduct (NewRepository (sampleStep 0 70).pg) (sampleStep 0 70).call 1
      (run (addOps 1 sampleAdds) (run sampleOps sampleWorld))).1 = none ∧
    (ProductService.DeleteLastProduct (NewRepository (sampleStep 0 70).pg) (sampleStep 0 70).call 1
      (run (addOps 1 sampleAdds) (run sampleOps sampleWorld))).2.db.products
      = (run sampleOps sampleWorld).db.products ++ sampleAdds.dropLast.map (addedProduct 13) ∧
    (ProductService.DeleteLastProduct (NewRepository (sampleStep 0 70).pg) (sampleStep 0 70).call 1
      (run (addOps 1 sampleAdds) (run sampleOps sampleWorld))).2.db.products.filter
        (fun p => decide (p.ReceptionID = 13))
      = sampleAdds.dropLast.map (addedProduct 13) ∧
    (sampleAdds.dropLast.map (addedProduct 13)).map (fun p => p.ID) = [201, 202] ∧
    (deleteLastProductTimes 1 [sampleStep 0 71, sampleStep 0 72, sampleStep 0 73]
      (run (addOps 1 sampleAdds) (run sampleOps sampleWorld))).1 = List.replicate 3 none ∧
    (deleteLastProductTimes 1 [sampleStep 0 71, sampleStep 0 72, sampleStep 0 73]
      (run (addOps 1 sampleAdds) (run sampleOps sampleWorld))).2.db.products.filter
        (fun p => decide (p.ReceptionID = 13)) = [] ∧
    (deleteLastProductTimes 1 [sampleStep 0 71, sampleStep 0 72, sampleStep 0 73]
      (run (addOps 1 sampleAdds) (run sampleOps sampleWorld))).2.db.products
      = (run sampleOps sampleWorld).db.products ∧
    (ProductService.DeleteLastProduct (NewRepository (sampleStep 0 74).pg) (sampleStep 0 74).call 1
      (deleteLastProductTimes 1 [sampleStep 0 71, sampleStep 0 72, sampleStep 0 73]
        (run (addOps 1 sampleAdds) (run sampleOps sampleWorld))).2).1
      = some .ErrNoProductsToDelete := by
  have hfresh : FreshAdds (run sampleOps sampleWorld).db.products sampleAdds :=
    ⟨by decide, by decide, by decide⟩
  have hok : ∀ a ∈ sampleAdds, a.1.noFailure ∧ IsValidProductType a.2 = true := by
    intro a ha
    simp only [sampleAdds, List.mem_cons, List.mem_singleton, List.not_mem_nil, or_false] at ha
    rcases ha with rfl | rfl | rfl <;> exact ⟨⟨rfl, rfl, fun _ => rfl⟩, by decide⟩
  have hds : ∀ d ∈ [sampleStep 0 71, sampleStep 0 72, sampleStep 0 73], d.noFailure := by
    intro d hd
    simp only [List.mem_cons, List.mem_singleton, List.not_mem_nil, or_false] at hd
    rcases hd with rfl | rfl | rfl <;> exact ⟨rfl, rfl, fun _ => rfl⟩
  have h := C6_lifo_removal 1 (run sampleOps sampleWorld)
    { ID := 13, DateTime := 47, PVZID := 1, Status := StatusInProgress, CreatedAt := 47,
      ClosedAt := none }
    sampleAdds (by decide) (by decide) hok hfresh (by decide)
  obtain ⟨h1, h2, h3⟩ := h
  obtain ⟨h2a, h2b, h2c⟩ := h2 (sampleStep 0 70) ⟨rfl, rfl, fun _ => rfl⟩
  obtain ⟨h3a, h3b, h3c, h3d⟩ := h3 [sampleStep 0 71, sampleStep 0 72, sampleStep 0 73] rfl hds
  exact ⟨by decide, hfresh, rfl, by decide, h1, h2a, h2b, h2c, by decide, h3a, h3b, h3c,
    h3d (sampleStep 0 74) ⟨rfl, rfl, fun _ => rfl⟩⟩

/-- An atomic unit that ends with an error leaves the store as it was. -/
theorem trManagerDo_error_db {σ α : Type} (env : CallEnv)
    (fn : World σ → (α × Option GoError) × World σ) (init : α) (w : World σ)
    (h : (trManagerDo env fn init w).1.2 ≠ none) :
    (trManagerDo env fn init w).2.db = w.db := by
  cases hb : env.beginErr with
  | some m => rw [trManagerDo_begin_failed env fn init w m hb]
  | none =>
    rcases hfn : fn (w.record .txBegin) with ⟨⟨res, err⟩, w1⟩
    cases err with
    | some e => rw [trManagerDo_rollback env fn init w w1 res e hb hfn]
    | none =>
      cases hc : env.commitErr with
      | some m => rw [trManagerDo_commit_failed env fn init w w1 res m hb hc hfn]
      | none =>
        rw [trManagerDo_commit env fn init w w1 res hb hc hfn] at h
        exact absurd rfl h

/-- The error a unit returns when its work function returned one. -/
theorem trManagerDo_work_error {σ α : Type} (env : CallEnv)
    (fn : World σ → (α × Option GoError) × World σ) (init : α) (w : World σ) (e : GoError)
    (hb : env.beginErr = none) (hfn : (fn (w.record .txBegin)).1.2 = some e) :
    (trManagerDo env fn init w).1.2 = some e := by
  rcases hfn2 : fn (w.record .txBegin) with ⟨⟨res, err⟩, w1⟩
  rw [hfn2] at hfn
  simp only at hfn
  subst hfn
  rw [trManagerDo_rollback env fn init w w1 res e hb hfn2]

theorem CreateReception_error {σ : Type} (repo : Repository σ) (env : CallEnv)
    (pvzID : UUID) (w : World σ) :
    (ReceptionService.CreateReception repo env pvzID w).1.2
      = (trManagerDo env (ReceptionService.CreateReceptionWork repo env pvzID) none w).1.2 := by
  unfold ReceptionService.CreateReception
  rcases trManagerDo env (ReceptionService.CreateReceptionWork repo env pvzID) none w
    with ⟨⟨r, _ | e⟩, w1⟩ <;> rfl

theorem AddProduct_error {σ : Type} (repo : Repository σ) (env : CallEnv)
    (pvzID : UUID) (ty : ProductType) (w : World σ) (hty : IsValidProductType ty = true) :
    (ProductService.AddProduct repo env pvzID ty w).1.2
      = (trManagerDo env (ProductService.AddProductWork repo env pvzID ty) none w).1.2 := by
  unfold ProductService.AddProduct
  simp only [hty, Bool.not_true, Bool.false_eq_true, ↓reduceIte]
  rcases trManagerDo env (ProductService.AddProductWork repo env pvzID ty) none w
    with ⟨⟨r, _ | e⟩, w1⟩ <;> rfl

theorem AddProduct_invalid_type {σ : Type} (repo : Repository σ) (env : CallEnv)
    (pvzID : UUID) (ty : ProductType) (w : World σ) (hty : IsValidProductType ty = false) :
    ProductService.AddProduct repo env pvzID ty w = ((none, some .ErrInvalidProductType), w) := by
  unfold ProductService.AddProduct
  simp [hty]

/-- C11: for every port implementation, store, environment and input, a
`CreateReception`, `CloseLastReception`, `AddProduct` or `DeleteLastProduct` that
returns an error leaves the store exactly as it was before the call. -/
theorem C11_error_leaves_store_unchanged {σ : Type} (repo : Repository σ) (env : CallEnv)
    (pvzID : UUID) (productType : ProductType) (w : World σ) :
    ((ReceptionService.CreateReception repo env pvzID w).1.2 ≠ none →
      (ReceptionService.CreateReception repo env pvzID w).2.db = w.db) ∧
    ((ReceptionService.CloseLastReception repo env pvzID w).1.2 ≠ none →
      (ReceptionService.CloseLastReception repo env pvzID w).2.db = w.db) ∧
    ((ProductService.AddProduct repo env pvzID productType w).1.2 ≠ none →
      (ProductService.AddProduct repo env pvzID productType w).2.db = w.db) ∧
    ((ProductService.DeleteLastProduct repo env pvzID w).1 ≠ none →
      (ProductService.DeleteLastProduct repo env pvzID w).2.db = w.db) := by
  refine ⟨?_, ?_, ?_, ?_⟩
  · intro h
    rw [CreateReception_error] at h
    rw [CreateReception_world]
    exact trManagerDo_error_db _ _ _ _ h
  · intro h
    exact trManagerDo_error_db _ _ _ _ h
  · intro h
    by_cases hty : IsValidProductType productType = true
    · rw [AddProduct_error _ _ _ _ _ hty] at h
      rw [AddProduct_world _ _ _ _ _ hty]
      exact trManagerDo_error_db _ _ _ _ h
    · rw [AddProduct_invalid_type _ _ _ _ _ (by simpa using hty)]
  · intro h
    exact trManagerDo_error_db _ _ _ _ h

theorem C11_error_leaves_store_unchanged_witness :
    (ReceptionService.CreateReception (NewRepository (sampleStepCommitFails 31 60).pg)
        (sampleStepCommitFails 31 60).call 3 sampleWorld).1.2
      = some (.driver "commit failed") ∧
    (ReceptionService.CreateReception (NewRepository (sampleStepCommitFails 31 60).pg)
        (sampleStepCommitFails 31 60).call 3 sampleWorld).2.db = sampleWorld.db ∧
    (ReceptionService.CloseLastReception (NewRepository (sampleStepCommitFails 0 60).pg)
        (sampleStepCommitFails 0 60).call 1 sampleWorld).2.db = sampleWorld.db ∧
    (ProductService.AddProduct (NewRepository (sampleFaultPg .CreateProduct "insert error"))
        (sampleCall 60) 1 ProductShoes sampleWorld).2.db = sampleWorld.db ∧
    (ProductService.DeleteLastProduct (NewRepository (samplePg 0))
        (sampleCall 60) 3 sampleWorld).2.db = sampleWorld.db :=
  ⟨by decide,
   (C11_error_leaves_store_unchanged (NewRepository (sampleStepCommitFails 31 60).pg)
      (sampleStepCommitFails 31 60).call 3 ProductShoes sampleWorld).1 (by decide),
   (C11_error_leaves_store_unchanged (NewRepository (sampleStepCommitFails 0 60).pg)
      (sampleStepCommitFails 0 60).call 1 ProductShoes sampleWorld).2.1 (by decide),
   (C11_error_leaves_store_unchanged (NewRepository (sampleFaultPg .CreateProduct "insert error"))
      (sampleCall 60) 1 ProductShoes sampleWorld).2.2.1 (by decide),
   (C11_error_leaves_store_unchanged (NewRepository (samplePg 0))
      (sampleCall 60) 3 ProductShoes sampleWorld).2.2.2 (by decide)⟩

theorem finishTx_work_error {σ α : Type} (env : CallEnv) (w0 : World σ)
    (out : (α × Option GoError) × World σ) (e : GoError) (h : out.1.2 = some e) :
    (finishTx env w0 out).1.2 = some e := by
  rcases out with ⟨⟨res, err⟩, w1⟩
  simp only at h
  subst h
  rfl

/-- C12: once the atomic unit has begun, an error `e` returned by the work
function of `CreateReception`, `CloseLastReception`, `AddProduct`,
`DeleteLastProduct` or `GetFullPVZInfo` is the error the use case returns: it is
neither swallowed nor replaced. -/
theorem C12_work_error_is_returned {σ : Type} (repo : Repository σ) (env : CallEnv)
    (pvzID : UUID) (productType : ProductType) (startDate endDate : Option Time)
    (page limit : Int) (w : World σ) (e : GoError) (hb : env.beginErr = none) :
    ((ReceptionService.CreateReceptionWork repo env pvzID (w.record .txBegin)).1.2 = some e →
      (ReceptionService.CreateReception repo env pvzID w).1 = (none, some e)) ∧
    ((ReceptionService.CloseLastReceptionWork repo env pvzID (w.record .txBegin)).1.2 = some e →
      (ReceptionService.CloseLastReception repo env pvzID w).1.2 = some e) ∧
    (IsValidProductType productType = true →
      (ProductService.AddProductWork repo env pvzID productType (w.record .txBegin)).1.2
        = some e →
      (ProductService.AddProduct repo env pvzID productType w).1 = (none, some e)) ∧
    ((ProductService.DeleteLastProductWork repo pvzID (w.record .txBegin)).1.2 = some e →
      (ProductService.DeleteLastProduct repo env pvzID w).1 = some e) ∧
    (∀ out, PVZService.GetFullPVZInfoWork repo startDate endDate page limit
        (w.record .txBegin) = some out → out.1.2 = some e →
      (PVZService.GetFullPVZInfo repo env startDate endDate page limit w).map (fun r => r.1)
        = some ([], some e)) := by
  refine ⟨?_, ?_, ?_, ?_, ?_⟩
  · intro h
    have h2 := trManagerDo_work_error env _ none w e hb h
    unfold ReceptionService.CreateReception
    rcases hd : trManagerDo env (ReceptionService.CreateReceptionWork repo env pvzID) none w
      with ⟨⟨r, err⟩, w1⟩
    rw [hd] at h2
    simp only at h2
    subst h2
    rfl
  · intro h
    exact trManagerDo_work_error env _ none w e hb h
  · intro hty h
    have h2 := trManagerDo_work_error env _ none w e hb h
    unfold ProductService.AddProduct
    simp only [hty, Bool.not_true, Bool.false_eq_true, ↓reduceIte]
    rcases hd : trManagerDo env (ProductService.AddProductWork repo env pvzID productType)
      none w with ⟨⟨r, err⟩, w1⟩
    rw [hd] at h2
    simp only at h2
    subst h2
    rfl
  · intro h
    exact trManagerDo_work_error env _ () w e hb h
  · intro out hout he
    unfold PVZService.GetFullPVZInfo trManagerDoPanicking
    simp only [hb, hout, Option.map_some']
    have h2 := finishTx_work_error env w out e he
    rcases hf : finishTx env w out with ⟨⟨r, err⟩, w1⟩
    rw [hf] at h2
    simp only at h2
    subst h2
    rfl

theorem C12_work_error_is_returned_witness :
    (ReceptionService.CreateReception (NewRepository (samplePg 0)) (sampleCall 60) 9
        sampleWorld).1 = (none, some .ErrPVZNotFound) ∧
    (ReceptionService.CloseLastReception (staleRepository (samplePg 0) sampleStaleReception)
        (sampleCall 60) 1 sampleWorld).1.2 = some .ErrReceptionAlreadyClosed ∧
    (ProductService.AddProduct (NewRepository (sampleFaultPg .CreateProduct "insert error"))
        (sampleCall 60) 1 ProductShoes sampleWorld).1 = (none, some (.driver "insert error")) ∧
    (ProductService.DeleteLastProduct (NewRepository (samplePg 0)) (sampleCall 60) 1
        (run [(sampleStep 0 58, .DeleteLastProduct 1), (sampleStep 0 59, .DeleteLastProduct 1)]
          sampleWorld)).1 = some .ErrNoProductsToDelete ∧
    (PVZService.GetFullPVZInfo (NewRepository (sampleFaultPg .GetReceptionsByPVZIDs "timeout"))
        (sampleCall 60) none none 1 10 sampleWorld).map (fun r => r.1)
      = some ([], some (.driver "timeout")) :=
  ⟨(C12_work_error_is_returned (NewRepository (samplePg 0)) (sampleCall 60) 9 ProductShoes
      none none 1 10 sampleWorld .ErrPVZNotFound rfl).1 (by decide),
   (C12_work_error_is_returned (staleRepository (samplePg 0) sampleStaleReception)
      (sampleCall 60) 1 ProductShoes none none 1 10 sampleWorld .ErrReceptionAlreadyClosed
      rfl).2.1 (by decide),
   (C12_work_error_is_returned (NewRepository (sampleFaultPg .CreateProduct "insert error"))
      (sampleCall 60) 1 ProductShoes none none 1 10 sampleWorld (.driver "insert error")
      rfl).2.2.1 (by decide) (by decide),
   (C12_work_error_is_returned (NewRepository (samplePg 0)) (sampleCall 60) 1 ProductShoes
      none none 1 10
      (run [(sampleStep 0 58, .DeleteLastProduct 1), (sampleStep 0 59, .DeleteLastProduct 1)]
        sampleWorld) .ErrNoProductsToDelete rfl).2.2.2.1 (by decide),
   (C12_work_error_is_returned (NewRepository (sampleFaultPg .GetReceptionsByPVZIDs "timeout"))
      (sampleCall 60) 1 ProductShoes none none 1 10 sampleWorld (.driver "timeout")
      rfl).2.2.2.2 _ rfl (by decide)⟩

/-- C13: when the atomic unit begins and the PVZ port answers that no PVZ with
this identifier exists, `CreateReception` fails with `ErrPVZNotFound`, returns no
reception, leaves the store as it was, and its only port call is `IsPVZExists`:
the reception port is neither queried nor written. -/
theorem C13_create_reception_pvz_not_found {σ : Type} (repo : Repository σ) (env : CallEnv)
    (pvzID : UUID) (w : World σ) (hb : env.beginErr = none)
    (hE : repo.IsPVZExists pvzID w.db = (false, none)) :
    ReceptionService.CreateReception repo env pvzID w =
      ((none, some .ErrPVZNotFound),
        { db := w.db,
          trace := w.trace ++ [.txBegin, .IsPVZExists pvzID, .txRollback] }) := by
  have hwork : ReceptionService.CreateReceptionWork repo env pvzID (w.record .txBegin) =
      ((none, some .ErrPVZNotFound), (w.record .txBegin).record (.IsPVZExists pvzID)) := by
    unfold ReceptionService.CreateReceptionWork
    simp only [record_db, hE]
    rfl
  unfold ReceptionService.CreateReception
  rw [trManagerDo_rollback env _ none w _ none _ hb hwork]
  simp [World.record]

theorem C13_create_reception_pvz_not_found_witness :
    (NewRepository (samplePg 31)).IsPVZExists 9 sampleWorld.db = (false, none) ∧
    ReceptionService.CreateReception (NewRepository (samplePg 31)) (sampleCall 60) 9 sampleWorld =
      ((none, some .ErrPVZNotFound),
        { db := sampleWorld.db,
          trace := sampleWorld.trace ++ [.txBegin, .IsPVZExists 9, .txRollback] }) :=
  ⟨by decide,
   C13_create_reception_pvz_not_found (NewRepository (samplePg 31)) (sampleCall 60) 9
     sampleWorld rfl (by decide)⟩

theorem openReceptions_eq_nil_iff (db : DB) (pvzID : UUID) :
    openReceptions db pvzID = [] ↔
      ∀ r ∈ db.receptions, r.PVZID = pvzID → r.Status ≠ StatusInProgress := by
  unfold openReceptions
  rw [List.filter_eq_nil_iff]
  simp

theorem pg_IsReceptionOpenExists_none_open (env : PgEnv) (pvzID : UUID) (db : DB)
    (hf : env.fault .IsReceptionOpenExists = none) (hnil : openReceptions db pvzID = []) :
    ReceptionPostgres.IsReceptionOpenExists env pvzID db = (false, none) := by
  unfold ReceptionPostgres.IsReceptionOpenExists
  rw [hf, hnil]
  rfl

/-- C14: on the Postgres store, when nothing fails, `CreateReception` for a PVZ
that exists and has no reception with status `in_progress` returns a reception
with status `in_progress`, the given `PVZID` and no close timestamp, and the
store gains exactly that one reception row and nothing else. -/
theorem C14_create_reception_success (e : StepEnv) (pvzID : UUID) (w : World DB)
    (he : e.noFailure) (hpvz : ∃ p ∈ w.db.pvz, p.ID = pvzID)
    (hnone : ∀ r ∈ w.db.receptions, r.PVZID = pvzID → r.Status ≠ StatusInProgress) :
    ∃ created : Reception,
      (ReceptionService.CreateReception (NewRepository e.pg) e.call pvzID w).1
        = (some created, none) ∧
      created.Status = StatusInProgress ∧ created.PVZID = pvzID ∧ created.ClosedAt = none ∧
      created.ID = e.pg.newID ∧ created.DateTime = e.call.now ∧
      (ReceptionService.CreateReception (NewRepository e.pg) e.call pvzID w).2.db
        = DB.mk w.db.pvz (w.db.receptions ++ [created]) w.db.products := by
  obtain ⟨hb, hc, hf⟩ := he
  have hE : (NewRepository e.pg).IsPVZExists pvzID w.db = (true, none) :=
    pg_IsPVZExists_true e.pg pvzID w.db (hf _) hpvz
  have hO : (NewRepository e.pg).IsReceptionOpenExists pvzID w.db = (false, none) :=
    pg_IsReceptionOpenExists_none_open e.pg pvzID w.db (hf _)
      ((openReceptions_eq_nil_iff _ _).2 hnone)
  have hwork : ReceptionService.CreateReceptionWork (NewRepository e.pg) e.call pvzID
      (w.record .txBegin) =
      ((some (Reception.mk e.pg.newID e.call.now pvzID StatusInProgress e.call.now2 none), none),
        { db := DB.mk w.db.pvz (w.db.receptions ++
            [Reception.mk e.pg.newID e.call.now pvzID StatusInProgress e.call.now2 none])
            w.db.products,
          trace := w.trace ++ [.txBegin, .IsPVZExists pvzID, .IsReceptionOpenExists pvzID,
            .CreateReception
              (Reception.mk uuidNil e.call.now pvzID StatusInProgress e.call.now2 none)] }) := by
    unfold ReceptionService.CreateReceptionWork
    simp only [record_db, hE, hO]
    simp [NewRepository, ReceptionPostgres.CreateReception, hf, World.record]
  refine ⟨Reception.mk e.pg.newID e.call.now pvzID StatusInProgress e.call.now2 none,
    ?_, rfl, rfl, rfl, rfl, rfl, ?_⟩
  · unfold ReceptionService.CreateReception
    rw [trManagerDo_commit e.call _ none w _ _ hb hc hwork]
  · rw [CreateReception_world, trManagerDo_commit e.call _ none w _ _ hb hc hwork]
    rfl

theorem C14_create_reception_success_witness :
    ∃ created : Reception,
      (ReceptionService.CreateReception (NewRepository (sampleStep 31 60).pg)
        (sampleStep 31 60).call 3 sampleWorld).1 = (some created, none) ∧
      created.Status = StatusInProgress ∧ created.PVZID = 3 ∧ created.ClosedAt = none ∧
      created.ID = (sampleStep 31 60).pg.newID ∧ created.DateTime = (sampleStep 31 60).call.now ∧
      (ReceptionService.CreateReception (NewRepository (sampleStep 31 60).pg)
        (sampleStep 31 60).call 3 sampleWorld).2.db
        = DB.mk sampleWorld.db.pvz (sampleWorld.db.receptions ++ [created])
            sampleWorld.db.products :=
  C14_create_reception_success (sampleStep 31 60) 3 sampleWorld ⟨rfl, rfl, fun _ => rfl⟩
    (by decide) (by decide)

/-- C15: on the Postgres store, once the atomic unit has begun,
`CloseLastReception` for a PVZ without a reception with status `in_progress`
fails with `ErrNoOpenReception`, returns no reception, never issues the close
update and leaves the store as it was. -/
theorem C15_close_without_open_reception (e : StepEnv) (pvzID : UUID) (w : World DB)
    (hb : e.call.beginErr = none)
    (hnone : ∀ r ∈ w.db.receptions, r.PVZID = pvzID → r.Status ≠ StatusInProgress) :
    ReceptionService.CloseLastReception (NewRepository e.pg) e.call pvzID w =
      ((none, some .ErrNoOpenReception),
        { db := w.db,
          trace := w.trace ++ [.txBegin, .GetOpenReception pvzID, .txRollback] }) := by
  obtain ⟨err, hE⟩ := pg_GetOpenReception_error e.pg pvzID w.db
    ((openReceptions_eq_nil_iff _ _).2 hnone)
  exact CloseLastReception_lookup_failed (NewRepository e.pg) e.call pvzID w err hb hE

theorem C15_close_without_open_reception_witness :
    ReceptionService.CloseLastReception (NewRepository (sampleStep 0 60).pg)
        (sampleStep 0 60).call 2 sampleWorld =
      ((none, some .ErrNoOpenReception),
        { db := sampleWorld.db,
          trace := sampleWorld.trace ++ [.txBegin, .GetOpenReception 2, .txRollback] }) :=
  C15_close_without_open_reception (sampleStep 0 60) 2 sampleWorld rfl (by decide)

/-- What exactly a `CloseLastReception` that returned no error has done and
returned. -/
theorem CloseLastReception_ok_result {σ : Type} (repo : Repository σ) (env : CallEnv)
    (pvzID : UUID) (w : World σ) (res : Option Reception)
    (h : (ReceptionService.CloseLastReception repo env pvzID w).1 = (res, none)) :
    ∃ r db, repo.GetOpenReception pvzID w.db = .ok r ∧
      repo.CloseReceptionByID r.ID env.now w.db = (none, db) ∧
      ReceptionService.CloseLastReception repo env pvzID w =
        ((some { r with Status := StatusClosed, ClosedAt := some env.now }, none),
          { db := db,
            trace := w.trace ++ [.txBegin, .GetOpenReception pvzID,
              .CloseReceptionByID r.ID env.now, .txCommit] }) := by
  have hok : (ReceptionService.CloseLastReception repo env pvzID w).1.2 = none := by rw [h]
  obtain ⟨r, hG, hC, -⟩ := CloseLastReception_ok_inv repo env pvzID w hok
  rcases hC2 : repo.CloseReceptionByID r.ID env.now w.db with ⟨err, db⟩
  rw [hC2] at hC
  simp only at hC
  subst hC
  have hb : env.beginErr = none := by
    cases hb : env.beginErr with
    | none => rfl
    | some m =>
      unfold ReceptionService.CloseLastReception at hok
      rw [trManagerDo_begin_failed _ _ _ _ m hb] at hok
      simp at hok
  have hc : env.commitErr = none := by
    cases hc : env.commitErr with
    | none => rfl
    | some m =>
      have hwork : ReceptionService.CloseLastReceptionWork repo env pvzID (w.record .txBegin) =
          ((some { r with Status := StatusClosed, ClosedAt := some env.now }, none),
            { db := db,
              trace := w.trace ++ [.txBegin, .GetOpenReception pvzID,
                .CloseReceptionByID r.ID env.now] }) := by
        unfold ReceptionService.CloseLastReceptionWork
        simp only [record_db, hG, hC2]
        simp [World.record]
      unfold ReceptionService.CloseLastReception at hok
      rw [trManagerDo_commit_failed _ _ _ _ _ _ m hb hc hwork] at hok
      simp at hok
  exact ⟨r, db, hG, hC2, CloseLastReception_success repo env pvzID w r db hb hc hG hC2⟩

/-- C16: a `CloseLastReception` that succeeds returns the reception the port
located as open for the PVZ, with status `close` and `ClosedAt` set to the very
time passed to `CloseReceptionByID`, and with the located reception's `ID`,
`PVZID`, `DateTime` and `CreatedAt`; on the Postgres store the located reception
is a row of this PVZ that had status `in_progress`. -/
theorem C16_close_returns_closed_reception :
    (∀ (σ : Type) (repo : Repository σ) (env : CallEnv) (pvzID : UUID) (w : World σ)
      (res : Option Reception),
      (ReceptionService.CloseLastReception repo env pvzID w).1 = (res, none) →
      ∃ located returned closedAt,
        repo.GetOpenReception pvzID w.db = .ok located ∧
        res = some returned ∧
        returned.Status = StatusClosed ∧ returned.ClosedAt = some closedAt ∧
        returned.ID = located.ID ∧ returned.PVZID = located.PVZID ∧
        returned.DateTime = located.DateTime ∧ returned.CreatedAt = located.CreatedAt ∧
        (ReceptionService.CloseLastReception repo env pvzID w).2.trace
          = w.trace ++ [.txBegin, .GetOpenReception pvzID,
              .CloseReceptionByID located.ID closedAt, .txCommit]) ∧
    (∀ (pg : PgEnv) (pvzID : UUID) (db : DB) (located : Reception),
      (NewRepository pg).GetOpenReception pvzID db = .ok located →
      located ∈ db.receptions ∧ located.PVZID = pvzID ∧
        located.Status = StatusInProgress) := by
  constructor
  · intro σ repo env pvzID w res h
    obtain ⟨r, db, hG, -, hfull⟩ := CloseLastReception_ok_result repo env pvzID w res h
    rw [hfull] at h ⊢
    simp only [Prod.mk.injEq, and_true] at h
    exact ⟨r, _, env.now, hG, h.symm, rfl, rfl, rfl, rfl, rfl, rfl, rfl⟩
  · intro pg pvzID db located h
    exact (mem_openReceptions db pvzID located).1 (pg_GetOpenReception_ok_mem pg pvzID db located h)

theorem C16_close_returns_closed_reception_witness :
    ∃ res, (ReceptionService.CloseLastReception (NewRepository (samplePg 0)) (sampleCall 60) 1
        sampleWorld).1 = (res, none) ∧
      ∃ located returned closedAt,
        (NewRepository (samplePg 0)).GetOpenReception 1 sampleWorld.db = .ok located ∧
        res = some returned ∧
        returned.Status = StatusClosed ∧ returned.ClosedAt = some closedAt ∧
        returned.ID = located.ID ∧ returned.PVZID = located.PVZID ∧
        returned.DateTime = located.DateTime ∧ returned.CreatedAt = located.CreatedAt ∧
        (ReceptionService.CloseLastReception (NewRepository (samplePg 0)) (sampleCall 60) 1
          sampleWorld).2.trace
          = sampleWorld.trace ++ [.txBegin, .GetOpenReception 1,
              .CloseReceptionByID located.ID closedAt, .txCommit] :=
  ⟨_, rfl, C16_close_returns_closed_reception.1 DB (NewRepository (samplePg 0)) (sampleCall 60) 1
    sampleWorld _ rfl⟩

/-- C17: for a product type that is none of the three enumerated categories
`AddProduct` returns `ErrInvalidProductType` and no product, and the world is
untouched: the call log gains no entry, so no atomic unit was begun and no
repository port was called. -/
theorem C17_add_product_invalid_type {σ : Type} (repo : Repository σ) (env : CallEnv)
    (pvzID : UUID) (productType : ProductType) (w : World σ)
    (h1 : productType ≠ ProductElectronics) (h2 : productType ≠ ProductClothing)
    (h3 : productType ≠ ProductShoes) :
    ProductService.AddProduct repo env pvzID productType w
      = ((none, some .ErrInvalidProductType), w) ∧
    (ProductService.AddProduct repo env pvzID productType w).2.trace = w.trace ∧
    (ProductService.AddProduct repo env pvzID productType w).2.db = w.db := by
  have hty : IsValidProductType productType = false := by
    unfold IsValidProductType
    simp [h1, h2, h3]
  rw [AddProduct_invalid_type repo env pvzID productType w hty]
  exact ⟨rfl, rfl, rfl⟩

theorem C17_add_product_invalid_type_witness :
    ProductService.AddProduct (NewRepository (samplePg 0)) (sampleCall 60) 1 "invalid"
        sampleWorld = ((none, some .ErrInvalidProductType), sampleWorld) ∧
    (ProductService.AddProduct (NewRepository (samplePg 0)) (sampleCall 60) 1 "invalid"
        sampleWorld).2.trace = sampleWorld.trace ∧
    (ProductService.AddProduct (NewRepository (samplePg 0)) (sampleCall 60) 1 "invalid"
        sampleWorld).2.db = sampleWorld.db :=
  C17_add_product_invalid_type (NewRepository (samplePg 0)) (sampleCall 60) 1 "invalid"
    sampleWorld (by decide) (by decide) (by decide)

theorem AddProduct_lookup_failed {σ : Type} (repo : Repository σ) (env : CallEnv)
    (pvzID : UUID) (ty : ProductType) (w : World σ) (e : GoError)
    (hb : env.beginErr = none) (hty : IsValidProductType ty = true)
    (hG : repo.GetOpenReception pvzID w.db = .error e) :
    ProductService.AddProduct repo env pvzID ty w =
      ((none, some .ErrNoActiveReception),
        { db := w.db,
          trace := w.trace ++ [.txBegin, .GetOpenReception pvzID, .txRollback] }) := by
  have hwork : ProductService.AddProductWork repo env pvzID ty (w.record .txBegin) =
      ((none, some .ErrNoActiveReception),
        { db := w.db, trace := w.trace ++ [.txBegin, .GetOpenReception pvzID] }) := by
    unfold ProductService.AddProductWork
    simp only [record_db, hG]
    simp [World.record]
  unfold ProductService.AddProduct
  simp only [hty, Bool.not_true, Bool.false_eq_true, ↓reduceIte]
  rw [trManagerDo_rollback env _ none w _ none _ hb hwork]
  simp

theorem DeleteLastProduct_lookup_failed {σ : Type} (repo : Repository σ) (env : CallEnv)
    (pvzID : UUID) (w : World σ) (e : GoError) (hb : env.beginErr = none)
    (hG : repo.GetOpenReception pvzID w.db = .error e) :
    ProductService.DeleteLastProduct repo env pvzID w =
      (some .ErrNoOpenReception,
        { db := w.db,
          trace := w.trace ++ [.txBegin, .GetOpenReception pvzID, .txRollback] }) := by
  have hwork : ProductService.DeleteLastProductWork repo pvzID (w.record .txBegin) =
      (((), some .ErrNoOpenReception),
        { db := w.db, trace := w.trace ++ [.txBegin, .GetOpenReception pvzID] }) := by
    unfold ProductService.DeleteLastProductWork
    simp only [record_db, hG]
    simp [World.record]
  unfold ProductService.DeleteLastProduct
  simp only
  rw [trManagerDo_rollback env _ () w _ () _ hb hwork]
  simp

/-- C18: on the Postgres store, once the atomic unit has begun, `AddProduct` with
a valid category for a PVZ without a reception with status `in_progress` (in
particular a PVZ that never had a reception) fails with `ErrNoActiveReception`,
returns no product, never calls `CreateProduct` and leaves the store as it
was. -/
theorem C18_add_product_without_open_reception (e : StepEnv) (pvzID : UUID)
    (productType : ProductType) (w : World DB) (hb : e.call.beginErr = none)
    (hty : IsValidProductType productType = true)
    (hnone : ∀ r ∈ w.db.receptions, r.PVZID = pvzID → r.Status ≠ StatusInProgress) :
    ProductService.AddProduct (NewRepository e.pg) e.call pvzID productType w =
      ((none, some .ErrNoActiveReception),
        { db := w.db,
          trace := w.trace ++ [.txBegin, .GetOpenReception pvzID, .txRollback] }) := by
  obtain ⟨err, hE⟩ := pg_GetOpenReception_error e.pg pvzID w.db
    ((openReceptions_eq_nil_iff _ _).2 hnone)
  exact AddProduct_lookup_failed (NewRepository e.pg) e.call pvzID productType w err hb hty hE

theorem C18_add_product_without_open_reception_witness :
    (∀ r ∈ sampleWorld.db.receptions, r.PVZID ≠ 3) ∧
    ProductService.AddProduct (NewRepository (sampleStep 105 60).pg) (sampleStep 105 60).call 3
        ProductClothing sampleWorld =
      ((none, some .ErrNoActiveReception),
        { db := sampleWorld.db,
          trace := sampleWorld.trace ++ [.txBegin, .GetOpenReception 3, .txRollback] }) :=
  ⟨by decide,
   C18_add_product_without_open_reception (sampleStep 105 60) 3 ProductClothing sampleWorld
     rfl (by decide) (by decide)⟩

/-- C19: on the Postgres store, when nothing fails, `AddProduct` with a valid
category for a PVZ whose open reception is `r` returns a product of the
requested category whose `ReceptionID` is `r.ID`, and the store gains exactly
that one product row and nothing else. -/
theorem C19_add_product_success (e : StepEnv) (pvzID : UUID) (productType : ProductType)
    (w : World DB) (r : Reception) (he : e.noFailure)
    (hty : IsValidProductType productType = true)
    (hopen : openReceptions w.db pvzID = [r]) :
    ∃ created : Product,
      (ProductService.AddProduct (NewRepository e.pg) e.call pvzID productType w).1
        = (some created, none) ∧
      created.Type_ = productType ∧ created.ReceptionID = r.ID ∧
      created.ID = e.pg.newID ∧ created.DateTime = e.call.now ∧
      (ProductService.AddProduct (NewRepository e.pg) e.call pvzID productType w).2.db
        = DB.mk w.db.pvz w.db.receptions (w.db.products ++ [created]) := by
  obtain ⟨h1, h2⟩ := AddProduct_pg_success e pvzID productType w r he hty hopen
  exact ⟨addedProduct r.ID (e, productType), h1, rfl, rfl, rfl, rfl, h2⟩

theorem C19_add_product_success_witness :
    ∃ created : Product,
      (ProductService.AddProduct (NewRepository (sampleStep 105 60).pg) (sampleStep 105 60).call
        1 ProductClothing sampleWorld).1 = (some created, none) ∧
      created.Type_ = ProductClothing ∧ created.ReceptionID = 12 ∧
      created.ID = (sampleStep 105 60).pg.newID ∧
      created.DateTime = (sampleStep 105 60).call.now ∧
      (ProductService.AddProduct (NewRepository (sampleStep 105 60).pg) (sampleStep 105 60).call
        1 ProductClothing sampleWorld).2.db
        = DB.mk sampleWorld.db.pvz sampleWorld.db.receptions
            (sampleWorld.db.products ++ [created]) :=
  C19_add_product_success (sampleStep 105 60) 1 ProductClothing sampleWorld
    { ID := 12, DateTime := 15, PVZID := 1, Status := StatusInProgress, CreatedAt := 15,
      ClosedAt := none }
    ⟨rfl, rfl, fun _ => rfl⟩ (by decide) (by decide)

/-- A `CloseLastReception` on the Postgres store that returned no error, for a
PVZ with at most one open reception, leaves that PVZ without an open
reception and does not touch the products. -/
theorem CloseLastReception_pg_clears (e : StepEnv) (pvzID : UUID) (w : World DB)
    (hone : openCount w.db pvzID ≤ 1)
    (hok : (ReceptionService.CloseLastReception (NewRepository e.pg) e.call pvzID w).1.2 = none) :
    openReceptions (ReceptionService.CloseLastReception (NewRepository e.pg) e.call pvzID w).2.db
      pvzID = [] ∧
    (ReceptionService.CloseLastReception (NewRepository e.pg) e.call pvzID w).2.db.products
      = w.db.products := by
  obtain ⟨r, hG, hC, hdb⟩ := CloseLastReception_ok_inv _ _ _ _ hok
  rw [hdb]
  have hr := pg_GetOpenReception_ok_mem e.pg pvzID w.db r hG
  have hC' : (ReceptionPostgres.CloseReceptionByID e.pg r.ID e.call.now w.db).1 = none := hC
  have hf : e.pg.fault .CloseReceptionByID = none := by
    cases hf : e.pg.fault .CloseReceptionByID with
    | none => rfl
    | some m =>
      unfold ReceptionPostgres.CloseReceptionByID at hC'
      rw [hf] at hC'
      simp at hC'
  refine ⟨(pg_close_clears_open e.pg pvzID e.call.now w.db r hf hr hone).2, ?_⟩
  show (ReceptionPostgres.CloseReceptionByID e.pg r.ID e.call.now w.db).2.products = _
  unfold ReceptionPostgres.CloseReceptionByID
  rw [hf]
  simp only
  split <;> rfl

/-- C20: on the Postgres store, after a successful `CloseLastReception` has
closed the only open reception of a PVZ, a `DeleteLastProduct` for that PVZ whose
atomic unit begins fails with `ErrNoOpenReception`, never calls the product
port and leaves every product in place, whatever the closed reception holds. -/
theorem C20_delete_after_close (e1 e2 : StepEnv) (pvzID : UUID) (w : World DB)
    (hone : openCount w.db pvzID = 1)
    (hclosed : (ReceptionService.CloseLastReception (NewRepository e1.pg) e1.call pvzID w).1.2
      = none)
    (hb : e2.call.beginErr = none) :
    (ProductService.DeleteLastProduct (NewRepository e2.pg) e2.call pvzID
      (ReceptionService.CloseLastReception (NewRepository e1.pg) e1.call pvzID w).2).1
      = some .ErrNoOpenReception ∧
    (ProductService.DeleteLastProduct (NewRepository e2.pg) e2.call pvzID
      (ReceptionService.CloseLastReception (NewRepository e1.pg) e1.call pvzID w).2).2.db
      = (ReceptionService.CloseLastReception (NewRepository e1.pg) e1.call pvzID w).2.db ∧
    (ProductService.DeleteLastProduct (NewRepository e2.pg) e2.call pvzID
      (ReceptionService.CloseLastReception (NewRepository e1.pg) e1.call pvzID w).2).2.db.products
      = w.db.products ∧
    (ProductService.DeleteLastProduct (NewRepository e2.pg) e2.call pvzID
      (ReceptionService.CloseLastReception (NewRepository e1.pg) e1.call pvzID w).2).2.trace
      = (ReceptionService.CloseLastReception (NewRepository e1.pg) e1.call pvzID w).2.trace
        ++ [.txBegin, .GetOpenReception pvzID, .txRollback] := by
  obtain ⟨hnil, hprod⟩ := CloseLastReception_pg_clears e1 pvzID w (by omega) hclosed
  obtain ⟨err, hE⟩ := pg_GetOpenReception_error e2.pg pvzID _ hnil
  rw [DeleteLastProduct_lookup_failed (NewRepository e2.pg) e2.call pvzID _ err hb hE]
  exact ⟨rfl, rfl, hprod, rfl⟩

theorem C20_delete_after_close_witness :
    (sampleWorld.db.products.filter (fun p => decide (p.ReceptionID = 12))).length = 2 ∧
    (ProductService.DeleteLastProduct (NewRepository (sampleStep 0 61).pg) (sampleStep 0 61).call 1
      (ReceptionService.CloseLastReception (NewRepository (sampleStep 0 60).pg)
        (sampleStep 0 60).call 1 sampleWorld).2).1 = some .ErrNoOpenReception ∧
    (ProductService.DeleteLastProduct (NewRepository (sampleStep 0 61).pg) (sampleStep 0 61).call 1
      (ReceptionService.CloseLastReception (NewRepository (sampleStep 0 60).pg)
        (sampleStep 0 60).call 1 sampleWorld).2).2.db.products = sampleWorld.db.products :=
  ⟨by decide,
   (C20_delete_after_close (sampleStep 0 60) (sampleStep 0 61) 1 sampleWorld (by decide)
     (by decide) rfl).1,
   (C20_delete_after_close (sampleStep 0 60) (sampleStep 0 61) 1 sampleWorld (by decide)
     (by decide) rfl).2.2.1⟩

/-- C21: for a city that is none of the three enumerated ones `CreatePVZ` returns
`ErrInvalidCity` and no PVZ, and the world is untouched: the call log gains no
entry, so the PVZ port's create operation is never called and nothing is
persisted. -/
theorem C21_create_pvz_invalid_city {σ : Type} (repo : Repository σ) (env : CallEnv)
    (city : String) (w : World σ)
    (h1 : city ≠ CityMoscow) (h2 : city ≠ CitySPB) (h3 : city ≠ CityKazan) :
    PVZService.CreatePVZ repo env city w = ((none, some .ErrInvalidCity), w) ∧
    (PVZService.CreatePVZ repo env city w).2.trace = w.trace ∧
    (PVZService.CreatePVZ repo env city w).2.db = w.db := by
  have hc : IsValidCity city = false := by
    unfold IsValidCity
    simp [h1, h2, h3]
  have h : PVZService.CreatePVZ repo env city w = ((none, some .ErrInvalidCity), w) := by
    unfold PVZService.CreatePVZ
    simp [hc]
  rw [h]
  exact ⟨rfl, rfl, rfl⟩

theorem C21_create_pvz_invalid_city_witness :
    PVZService.CreatePVZ (NewRepository (samplePg 4)) (sampleCall 60) "Тверь" sampleWorld
      = ((none, some .ErrInvalidCity), sampleWorld) ∧
    (PVZService.CreatePVZ (NewRepository (samplePg 4)) (sampleCall 60) "Тверь" sampleWorld).2.trace
      = sampleWorld.trace ∧
    (PVZService.CreatePVZ (NewRepository (samplePg 4)) (sampleCall 60) "Тверь" sampleWorld).2.db
      = sampleWorld.db :=
  C21_create_pvz_invalid_city (NewRepository (samplePg 4)) (sampleCall 60) "Тверь" sampleWorld
    (by decide) (by decide) (by decide)

/-- C22: each validation predicate is true exactly on its three enumerated
values; a value that differs from a member only in letter case or surrounding
white space, or that is a proper prefix of a member, is rejected. -/
theorem C22_exact_membership :
    (∀ s : String, IsValidCity s = true ↔
      (s = "Москва" ∨ s = "Санкт-Петербург" ∨ s = "Казань")) ∧
    (∀ s : String, IsValidProductType s = true ↔
      (s = "электроника" ∨ s = "одежда" ∨ s = "обувь")) ∧
    (∀ s : String, IsValidUserRole s = true ↔
      (s = "client" ∨ s = "employee" ∨ s = "moderator")) ∧
    IsValidCity "москва" = false ∧ IsValidCity " Москва" = false ∧
    IsValidCity "Казань " = false ∧ IsValidCity "Санкт" = false ∧
    IsValidProductType "Обувь" = false ∧ IsValidProductType "обувь\n" = false ∧
    IsValidProductType "одежд" = false ∧
    IsValidUserRole "Client" = false ∧ IsValidUserRole " client" = false ∧
    IsValidUserRole "mod" = false ∧ IsValidUserRole "" = false := by
  refine ⟨?_, ?_, ?_, by decide, by decide, by decide, by decide, by decide, by decide,
    by decide, by decide, by decide, by decide, by decide⟩
  · intro s
    unfold IsValidCity CityMoscow CitySPB CityKazan
    simp
  · intro s
    unfold IsValidProductType ProductElectronics ProductClothing ProductShoes
    simp
  · intro s
    unfold IsValidUserRole RoleClient RoleEmployee RoleModerator
    simp

/-- The world a successful `GetFullPVZInfo` leaves: the store as it was, and the
call log with the three reads between begin and commit. -/
theorem GetFullPVZInfo_success_world {σ : Type} (repo : Repository σ) (env : CallEnv)
    (startDate endDate : Option Time) (page limit : Int) (w w' : World σ)
    (res : List FullPVZInfo)
    (h : PVZService.GetFullPVZInfo repo env startDate endDate page limit w
      = some ((res, none), w')) :
    ∃ allPVZ paginated allReceptions,
      repo.GetAllPVZ w.db = (allPVZ, none) ∧
      paginatePVZ allPVZ page limit = some paginated ∧
      repo.GetReceptionsByPVZIDs (extractPVZIDs paginated) w.db = (allReceptions, none) ∧
      w'.db = w.db ∧
      w'.trace = w.trace ++ [.txBegin, .GetAllPVZ,
        .GetReceptionsByPVZIDs (extractPVZIDs paginated),
        .GetProductsByReceptionIDs
          (extractReceptionIDs (filterReceptionsByDate allReceptions startDate endDate)),
        .txCommit] := by
  unfold PVZService.GetFullPVZInfo PVZService.GetFullPVZInfoWork trManagerDoPanicking at h
  simp only [World.record] at h
  cases hb : env.beginErr with
  | some m => simp [hb] at h
  | none =>
    simp only [hb] at h
    rcases hA : repo.GetAllPVZ w.db with ⟨allPVZ, eA⟩
    simp only [hA] at h
    cases eA with
    | some e => simp [finishTx] at h
    | none =>
      simp only at h
      cases hP : paginatePVZ allPVZ page limit with
      | none => simp [hP] at h
      | some paginated =>
        simp only [hP] at h
        rcases hR : repo.GetReceptionsByPVZIDs (extractPVZIDs paginated) w.db
          with ⟨allReceptions, eR⟩
        simp only [hR] at h
        cases eR with
        | some e => simp [finishTx] at h
        | none =>
          simp only at h
          rcases hQ : repo.GetProductsByReceptionIDs
            (extractReceptionIDs (filterReceptionsByDate allReceptions startDate endDate)) w.db
            with ⟨allProducts, eQ⟩
          simp only [hQ] at h
          cases eQ with
          | some e => simp [finishTx] at h
          | none =>
            cases hc : env.commitErr with
            | some m => simp [finishTx, hc] at h
            | none =>
              simp [finishTx, hc, World.record] at h
              refine ⟨allPVZ, paginated, allReceptions, rfl, hP, hR, ?_, ?_⟩
              · rw [← h.2]
              · rw [← h.2]

/-- C27: in a successful `GetFullPVZInfo` the reception port is called once, with
exactly the identifiers of the paginated PVZ in page order, and the product port
is called once, with exactly the identifiers of the receptions that passed the
date filter, in fetch order; nothing else is asked of either port. -/
theorem C27_ports_asked_for_page_and_survivors {σ : Type} (repo : Repository σ)
    (env : CallEnv) (startDate endDate : Option Time) (page limit : Int) (w w' : World σ)
    (res : List FullPVZInfo)
    (h : PVZService.GetFullPVZInfo repo env startDate endDate page limit w
      = some ((res, none), w')) :
    ∃ paginated allReceptions,
      paginatePVZ (repo.GetAllPVZ w.db).1 page limit = some paginated ∧
      (repo.GetReceptionsByPVZIDs (paginated.map (fun p => p.ID)) w.db).1 = allReceptions ∧
      w'.trace = w.trace ++ [.txBegin, .GetAllPVZ,
        .GetReceptionsByPVZIDs (paginated.map (fun p => p.ID)),
        .GetProductsByReceptionIDs
          ((allReceptions.filter (withinDates startDate endDate)).map (fun r => r.ID)),
        .txCommit] ∧
      res.map (fun info => info.PVZ.ID) = paginated.map (fun p => p.ID) := by
  obtain ⟨allPVZ, paginated, allReceptions, hA, hP, hR, -, htrace⟩ :=
    GetFullPVZInfo_success_world repo env startDate endDate page limit w w' res h
  obtain ⟨allPVZ2, paginated2, allReceptions2, allProducts2, hA2, hP2, -, -, hres⟩ :=
    GetFullPVZInfo_success repo env startDate endDate page limit w w' res h
  rw [hA] at hA2
  cases hA2
  rw [hP] at hP2
  cases hP2
  rw [extractPVZIDs_eq_map] at hR htrace
  rw [extractReceptionIDs_eq_map, filterReceptionsByDate_eq_filter] at htrace
  refine ⟨paginated, allReceptions, by rw [hA]; exact hP, by rw [hR], htrace, ?_⟩
  rw [hres, buildFullPVZInfo_eq_map, List.map_map]
  rfl

theorem C27_ports_asked_for_page_and_survivors_witness :
    ∃ res w', PVZService.GetFullPVZInfo (NewRepository (samplePg 0)) (sampleCall 50)
        (some 6) (some 20) 1 2 sampleWorld = some ((res, none), w') ∧
      w'.trace = [.txBegin, .GetAllPVZ, .GetReceptionsByPVZIDs [1, 2],
        .GetProductsByReceptionIDs [21, 12], .txCommit] ∧
      ∃ paginated allReceptions,
        paginatePVZ ((NewRepository (samplePg 0)).GetAllPVZ sampleWorld.db).1 1 2
          = some paginated ∧
        ((NewRepository (samplePg 0)).GetReceptionsByPVZIDs (paginated.map (fun p => p.ID))
          sampleWorld.db).1 = allReceptions ∧
        w'.trace = sampleWorld.trace ++ [.txBegin, .GetAllPVZ,
          .GetReceptionsByPVZIDs (paginated.map (fun p => p.ID)),
          .GetProductsByReceptionIDs
            ((allReceptions.filter (withinDates (some 6) (some 20))).map (fun r => r.ID)),
          .txCommit] ∧
        res.map (fun info => info.PVZ.ID) = paginated.map (fun p => p.ID) :=
  ⟨_, _, rfl, by decide,
    C27_ports_asked_for_page_and_survivors (NewRepository (samplePg 0)) (sampleCall 50)
      (some 6) (some 20) 1 2 sampleWorld _ _ rfl⟩

/-- C28 (failing input): `page = 2^62 + 1` and `limit = 2` pass the handler's
bounds (`page >= 1`, `1 <= limit <= 30`); the 64-bit product `(page-1)*limit`
wraps to `-2^63`, the tests `start >= len` and `end >= len` are both false, and
the slice expression `pvz[start:end]` has a negative start: the function panics,
and so does `GetFullPVZInfo`. -/
theorem C28_paginatePVZ_slices_out_of_range :
    (1 : Int) ≤ 4611686018427387905 ∧ (4611686018427387905 : Int) < 2 ^ 63 ∧
    (1 : Int) ≤ 2 ∧ (2 : Int) ≤ 30 ∧
    wrapInt64 (wrapInt64 (4611686018427387905 - 1) * 2) = -(2 ^ 63) ∧
    wrapInt64 (wrapInt64 (wrapInt64 (4611686018427387905 - 1) * 2) + 2) = -(2 ^ 63) + 2 ∧
    goSlice (samplePVZ 25) (-(2 ^ 63)) (-(2 ^ 63) + 2) = none ∧
    paginatePVZ (samplePVZ 25) 4611686018427387905 2 = none ∧
    (PVZService.GetFullPVZInfo (NewRepository (samplePg 0)) (sampleCall 50) none none
      4611686018427387905 2 sampleWorld).isNone = true := by
  refine ⟨by decide, by decide, by decide, by decide, by decide, by decide, by decide,
    by decide, by decide⟩

/-- C30 (failing input): PVZ 1 of the sample store has an open reception and the
commit of the atomic unit fails.  `CloseLastReception` returns the commit error
together with the reception it had already marked closed, not nil; the store
still holds the reception as open.  `CreateReception` and `AddProduct` in the
same situation return nil with the error. -/
theorem C30_close_returns_reception_with_commit_error :
    (ReceptionService.CloseLastReception (NewRepository (sampleStepCommitFails 0 60).pg)
      (sampleStepCommitFails 0 60).call 1 sampleWorld).1
      = (some { ID := 12, DateTime := 15, PVZID := 1, Status := StatusClosed, CreatedAt := 15,
                ClosedAt := some 60 },
         some (.driver "commit failed")) ∧
    (ReceptionService.CloseLastReception (NewRepository (sampleStepCommitFails 0 60).pg)
      (sampleStepCommitFails 0 60).call 1 sampleWorld).2.db = sampleWorld.db ∧
    (ReceptionService.CreateReception (NewRepository (sampleStepCommitFails 31 60).pg)
      (sampleStepCommitFails 31 60).call 3 sampleWorld).1
      = (none, some (.driver "commit failed")) ∧
    (ProductService.AddProduct (NewRepository (sampleStepCommitFails 105 60).pg)
      (sampleStepCommitFails 105 60).call 1 ProductShoes sampleWorld).1
      = (none, some (.driver "commit failed")) := by
  refine ⟨by decide, by decide, by decide, by decide⟩

/-- In `CreatePVZ`, `CreateReception`, `AddProduct` and `GetFullPVZInfo` an error
never comes with a value. -/
theorem error_means_no_value {σ : Type} (repo : Repository σ) (env : CallEnv)
    (pvzID : UUID) (city : String) (productType : ProductType)
    (startDate endDate : Option Time) (page limit : Int) (w : World σ) :
    ((PVZService.CreatePVZ repo env city w).1.2 ≠ none →
      (PVZService.CreatePVZ repo env city w).1.1 = none) ∧
    ((ReceptionService.CreateReception repo env pvzID w).1.2 ≠ none →
      (ReceptionService.CreateReception repo env pvzID w).1.1 = none) ∧
    ((ProductService.AddProduct repo env pvzID productType w).1.2 ≠ none →
      (ProductService.AddProduct repo env pvzID productType w).1.1 = none) ∧
    (∀ out, PVZService.GetFullPVZInfo repo env startDate endDate page limit w = some out →
      out.1.2 ≠ none → out.1.1 = []) := by
  refine ⟨?_, ?_, ?_, ?_⟩
  · unfold PVZService.CreatePVZ
    split
    · intro _; rfl
    · simp only
      split
      · intro _; rfl
      · intro h; exact absurd rfl h
  · unfold ReceptionService.CreateReception
    split
    · intro _; rfl
    · intro h; exact absurd rfl h
  · unfold ProductService.AddProduct
    split
    · intro _; rfl
    · split
      · intro _; rfl
      · intro h; exact absurd rfl h
  · intro out hout
    unfold PVZService.GetFullPVZInfo at hout
    split at hout
    · cases hout
    · cases hout
      intro _; rfl
    · cases hout
      intro h; exact absurd rfl h

theorem newEvents_append {σ : Type} (w w' : World σ) (evs : List Event)
    (h : w'.trace = w.trace ++ evs) : newEvents w w' = evs := by
  unfold newEvents
  rw [h, List.drop_left]

theorem writesInsideUnits_body (evs rest : List Event) (h : ∀ e ∈ evs, e.isTx = false) :
    writesInsideUnits true (evs ++ rest) = writesInsideUnits true rest := by
  induction evs with
  | nil => rfl
  | cons e es ih =>
    have he := h e (List.mem_cons_self _ _)
    have ih' := ih (fun x hx => h x (List.mem_cons_of_mem _ hx))
    cases e <;> simp_all [writesInsideUnits, Event.isTx]

theorem unitsBegun_body (evs : List Event) (h : ∀ e ∈ evs, e.isTx = false) :
    unitsBegun evs = 0 := by
  unfold unitsBegun
  rw [List.count_eq_zero]
  intro hmem
  have := h _ hmem
  simp [Event.isTx] at this

/-- A stretch `begin, body, end` with no boundary inside `body` is one atomic
unit that contains every write. -/
theorem one_unit_shape (evs : List Event) (fin : Event) (h : ∀ e ∈ evs, e.isTx = false)
    (hfin : fin = .txCommit ∨ fin = .txRollback) :
    writesInsideUnits false (.txBegin :: evs ++ [fin]) = true ∧
    unitsBegun (.txBegin :: evs ++ [fin]) = 1 := by
  constructor
  · show writesInsideUnits true (evs ++ [fin]) = true
    rw [writesInsideUnits_body evs [fin] h]
    rcases hfin with rfl | rfl <;> rfl
  · unfold unitsBegun
    rw [List.cons_append, List.count_cons_self, List.count_append]
    have h0 := unitsBegun_body evs h
    unfold unitsBegun at h0
    rw [h0]
    rcases hfin with rfl | rfl <;> rfl

/-- The log entries of `trManager.Do` around a work function that only appends
port calls. -/
theorem trManagerDo_newEvents {σ α : Type} (env : CallEnv)
    (fn : World σ → (α × Option GoError) × World σ) (init : α) (w : World σ)
    (hfn : ∀ w1 : World σ, ∃ evs, (fn w1).2.trace = w1.trace ++ evs ∧
      ∀ e ∈ evs, e.isTx = false) :
    newEvents w (trManagerDo env fn init w).2 = [] ∨
    ∃ evs fin, (∀ e ∈ evs, e.isTx = false) ∧ (fin = .txCommit ∨ fin = .txRollback) ∧
      newEvents w (trManagerDo env fn init w).2 = .txBegin :: evs ++ [fin] := by
  cases hb : env.beginErr with
  | some m =>
    left
    rw [trManagerDo_begin_failed env fn init w m hb]
    exact newEvents_append w w [] (by simp)
  | none =>
    right
    obtain ⟨evs, htr, hno⟩ := hfn (w.record .txBegin)
    rcases hout : fn (w.record .txBegin) with ⟨⟨res, err⟩, w1⟩
    rw [hout] at htr
    simp only [World.record] at htr
    cases err with
    | some e =>
      refine ⟨evs, .txRollback, hno, Or.inr rfl, ?_⟩
      rw [trManagerDo_rollback env fn init w w1 res e hb hout]
      apply newEvents_append
      simp [htr]
    | none =>
      cases hc : env.commitErr with
      | some m =>
        refine ⟨evs, .txRollback, hno, Or.inr rfl, ?_⟩
        rw [trManagerDo_commit_failed env fn init w w1 res m hb hc hout]
        apply newEvents_append
        simp [htr]
      | none =>
        refine ⟨evs, .txCommit, hno, Or.inl rfl, ?_⟩
        rw [trManagerDo_commit env fn init w w1 res hb hc hout]
        apply newEvents_append
        simp [World.record, htr]

theorem CreateReceptionWork_trace {σ : Type} (repo : Repository σ) (env : CallEnv)
    (pvzID : UUID) (w : World σ) :
    ∃ evs, (ReceptionService.CreateReceptionWork repo env pvzID w).2.trace = w.trace ++ evs ∧
      ∀ e ∈ evs, e.isTx = false := by
  unfold ReceptionService.CreateReceptionWork
  simp only [record_db]
  rcases repo.IsPVZExists pvzID w.db with ⟨ex, _ | e⟩
  · cases ex
    · exact ⟨[.IsPVZExists pvzID], rfl, by simp [Event.isTx]⟩
    · simp only [Bool.not_true, Bool.false_eq_true, ↓reduceIte]
      rcases repo.IsReceptionOpenExists pvzID w.db with ⟨op, _ | e⟩
      · cases op
        · simp only [Bool.false_eq_true, ↓reduceIte]
          rcases repo.CreateReception
            (Reception.mk uuidNil env.now pvzID StatusInProgress env.now2 none) w.db
            with ⟨r, _ | e, db⟩
          · exact ⟨[.IsPVZExists pvzID, .IsReceptionOpenExists pvzID,
              .CreateReception
                (Reception.mk uuidNil env.now pvzID StatusInProgress env.now2 none)],
              by simp [World.record], by simp [Event.isTx]⟩
          · exact ⟨[.IsPVZExists pvzID, .IsReceptionOpenExists pvzID,
              .CreateReception
                (Reception.mk uuidNil env.now pvzID StatusInProgress env.now2 none)],
              by simp [World.record], by simp [Event.isTx]⟩
        · exact ⟨[.IsPVZExists pvzID, .IsReceptionOpenExists pvzID],
            by simp [World.record], by simp [Event.isTx]⟩
      · exact ⟨[.IsPVZExists pvzID, .IsReceptionOpenExists pvzID],
          by simp [World.record], by simp [Event.isTx]⟩
  · exact ⟨[.IsPVZExists pvzID], rfl, by simp [Event.isTx]⟩

theorem CloseLastReceptionWork_trace {σ : Type} (repo : Repository σ) (env : CallEnv)
    (pvzID : UUID) (w : World σ) :
    ∃ evs, (ReceptionService.CloseLastReceptionWork repo env pvzID w).2.trace = w.trace ++ evs ∧
      ∀ e ∈ evs, e.isTx = false := by
  unfold ReceptionService.CloseLastReceptionWork
  simp only [record_db]
  cases repo.GetOpenReception pvzID w.db with
  | error e => exact ⟨[.GetOpenReception pvzID], rfl, by simp [Event.isTx]⟩
  | ok r =>
    simp only
    rcases repo.CloseReceptionByID r.ID env.now w.db with ⟨_ | e, db⟩
    · exact ⟨[.GetOpenReception pvzID, .CloseReceptionByID r.ID env.now],
        by simp [World.record], by simp [Event.isTx]⟩
    · refine ⟨[.GetOpenReception pvzID, .CloseReceptionByID r.ID env.now], ?_,
        by simp [Event.isTx]⟩
      simp only
      split <;> simp [World.record]

theorem AddProductWork_trace {σ : Type} (repo : Repository σ) (env : CallEnv)
    (pvzID : UUID) (ty : ProductType) (w : World σ) :
    ∃ evs, (ProductService.AddProductWork repo env pvzID ty w).2.trace = w.trace ++ evs ∧
      ∀ e ∈ evs, e.isTx = false := by
  unfold ProductService.AddProductWork
  simp only [record_db]
  cases repo.GetOpenReception pvzID w.db with
  | error e => exact ⟨[.GetOpenReception pvzID], rfl, by simp [Event.isTx]⟩
  | ok r =>
    simp only
    rcases repo.CreateProduct (Product.mk uuidNil env.now ty r.ID) w.db with ⟨p, _ | e, db⟩
    · exact ⟨[.GetOpenReception pvzID, .CreateProduct (Product.mk uuidNil env.now ty r.ID)],
        by simp [World.record], by simp [Event.isTx]⟩
    · exact ⟨[.GetOpenReception pvzID, .CreateProduct (Product.mk uuidNil env.now ty r.ID)],
        by simp [World.record], by simp [Event.isTx]⟩

theorem DeleteLastProductWork_trace {σ : Type} (repo : Repository σ)
    (pvzID : UUID) (w : World σ) :
    ∃ evs, (ProductService.DeleteLastProductWork repo pvzID w).2.trace = w.trace ++ evs ∧
      ∀ e ∈ evs, e.isTx = false := by
  unfold ProductService.DeleteLastProductWork
  simp only [record_db]
  cases repo.GetOpenReception pvzID w.db with
  | error e => exact ⟨[.GetOpenReception pvzID], rfl, by simp [Event.isTx]⟩
  | ok r =>
    simp only
    rcases repo.DeleteLastProduct r.ID w.db with ⟨_ | id, _ | e, db⟩ <;>
      exact ⟨[.GetOpenReception pvzID, .DeleteLastProduct r.ID],
        by simp [World.record], by simp [Event.isTx]⟩

theorem inOneUnit_of_trManagerDo {σ α : Type} (env : CallEnv)
    (fn : World σ → (α × Option GoError) × World σ) (init : α) (w : World σ)
    (hfn : ∀ w1 : World σ, ∃ evs, (fn w1).2.trace = w1.trace ++ evs ∧
      ∀ e ∈ evs, e.isTx = false) :
    InOneUnit (newEvents w (trManagerDo env fn init w).2) := by
  rcases trManagerDo_newEvents env fn init w hfn with h | ⟨evs, fin, hno, hfin, h⟩
  · rw [h]
    exact ⟨rfl, Or.inl rfl⟩
  · rw [h]
    obtain ⟨h1, h2⟩ := one_unit_shape evs fin hno hfin
    exact ⟨h1, Or.inr h2⟩

/-- C23 (counterexample): `CreatePVZ` with a valid city on the sample store logs
the single entry `CreatePVZ`; no atomic unit is begun, the write lies outside
any unit, and the row is persisted. -/
theorem C23_create_pvz_writes_outside_unit :
    newEvents sampleWorld
        (PVZService.CreatePVZ (NewRepository (samplePg 4)) (sampleCall 60) CityKazan
          sampleWorld).2
      = [.CreatePVZ { ID := uuidNil, RegistrationDate := 60, City := CityKazan }] ∧
    (Event.CreatePVZ { ID := uuidNil, RegistrationDate := 60, City := CityKazan }).isMutation
      = true ∧
    unitsBegun (newEvents sampleWorld
        (PVZService.CreatePVZ (NewRepository (samplePg 4)) (sampleCall 60) CityKazan
          sampleWorld).2) = 0 ∧
    writesInsideUnits false (newEvents sampleWorld
        (PVZService.CreatePVZ (NewRepository (samplePg 4)) (sampleCall 60) CityKazan
          sampleWorld).2) = false ∧
    (PVZService.CreatePVZ (NewRepository (samplePg 4)) (sampleCall 60) CityKazan
        sampleWorld).2.db.pvz
      = sampleWorld.db.pvz ++ [{ ID := 4, RegistrationDate := 60, City := CityKazan }] := by
  refine ⟨by decide, by decide, by decide, by decide, by decide⟩

/-- C23 (amended): for every port implementation and environment,
`CreateReception`, `CloseLastReception`, `AddProduct` and `DeleteLastProduct`
either log nothing or begin exactly one atomic unit, and every port write they
issue lies inside it; `CreatePVZ` begins no atomic unit: it logs nothing or
exactly its one port write. -/
theorem C23_writes_inside_one_unit {σ : Type} (repo : Repository σ) (env : CallEnv)
    (pvzID : UUID) (productType : ProductType) (city : String) (w : World σ) :
    InOneUnit (newEvents w (ReceptionService.CreateReception repo env pvzID w).2) ∧
    InOneUnit (newEvents w (ReceptionService.CloseLastReception repo env pvzID w).2) ∧
    InOneUnit (newEvents w (ProductService.AddProduct repo env pvzID productType w).2) ∧
    InOneUnit (newEvents w (ProductService.DeleteLastProduct repo env pvzID w).2) ∧
    unitsBegun (newEvents w (PVZService.CreatePVZ repo env city w).2) = 0 ∧
    (IsValidCity city = false → newEvents w (PVZService.CreatePVZ repo env city w).2 = []) ∧
    (IsValidCity city = true → newEvents w (PVZService.CreatePVZ repo env city w).2
      = [.CreatePVZ { ID := uuidNil, RegistrationDate := env.now, City := city }]) := by
  have hpvz_bad : IsValidCity city = false →
      newEvents w (PVZService.CreatePVZ repo env city w).2 = [] := by
    intro hc
    apply newEvents_append
    unfold PVZService.CreatePVZ
    simp [hc]
  have hpvz_ok : IsValidCity city = true →
      newEvents w (PVZService.CreatePVZ repo env city w).2
        = [.CreatePVZ { ID := uuidNil, RegistrationDate := env.now, City := city }] := by
    intro hc
    apply newEvents_append
    unfold PVZService.CreatePVZ
    simp only [hc, Bool.not_true, Bool.false_eq_true, ↓reduceIte, record_db]
    rcases repo.CreatePVZ (PVZ.mk uuidNil env.now city) w.db with ⟨p, _ | e, db⟩ <;> rfl
  refine ⟨?_, ?_, ?_, ?_, ?_, hpvz_bad, hpvz_ok⟩
  · rw [CreateReception_world]
    exact inOneUnit_of_trManagerDo env _ none w (CreateReceptionWork_trace repo env pvzID)
  · exact inOneUnit_of_trManagerDo env _ none w (CloseLastReceptionWork_trace repo env pvzID)
  · by_cases hty : IsValidProductType productType = true
    · rw [AddProduct_world _ _ _ _ _ hty]
      exact inOneUnit_of_trManagerDo env _ none w
        (AddProductWork_trace repo env pvzID productType)
    · rw [AddProduct_invalid_type _ _ _ _ _ (by simpa using hty)]
      rw [newEvents_append w w [] (by simp)]
      exact ⟨rfl, Or.inl rfl⟩
  · exact inOneUnit_of_trManagerDo env _ () w (DeleteLastProductWork_trace repo pvzID)
  · by_cases hc : IsValidCity city = true
    · rw [hpvz_ok hc]; rfl
    · rw [hpvz_bad (by simpa using hc)]; rfl

theorem C23_writes_inside_one_unit_witness :
    newEvents sampleWorld
        (ReceptionService.CloseLastReception (NewRepository (samplePg 0)) (sampleCall 60) 1
          sampleWorld).2
      = [.txBegin, .GetOpenReception 1, .CloseReceptionByID 12 60, .txCommit] ∧
    InOneUnit (newEvents sampleWorld
        (ReceptionService.CloseLastReception (NewRepository (samplePg 0)) (sampleCall 60) 1
          sampleWorld).2) ∧
    newEvents sampleWorld
        (PVZService.CreatePVZ (NewRepository (samplePg 4)) (sampleCall 60) CityKazan
          sampleWorld).2
      = [.CreatePVZ { ID := uuidNil, RegistrationDate := (sampleCall 60).now,
                      City := CityKazan }] :=
  ⟨by decide,
   (C23_writes_inside_one_unit (NewRepository (samplePg 0)) (sampleCall 60) 1 ProductShoes
      CityKazan sampleWorld).2.1,
   (C23_writes_inside_one_unit (NewRepository (samplePg 4)) (sampleCall 60) 1 ProductShoes
      CityKazan sampleWorld).2.2.2.2.2.2 (by decide)⟩

theorem pg_CloseReceptionByID_receptions (env : PgEnv) (receptionID : UUID) (closedAt : Time)
    (db : DB) :
    (ReceptionPostgres.CloseReceptionByID env receptionID closedAt db).2.receptions
      = db.receptions ∨
    (ReceptionPostgres.CloseReceptionByID env receptionID closedAt db).2.receptions
      = db.receptions.map (closeRow receptionID closedAt) := by
  unfold ReceptionPostgres.CloseReceptionByID
  cases env.fault .CloseReceptionByID with
  | some m => left; rfl
  | none =>
    right
    simp only
    split <;> rfl

/-- How one service call changes the reception table: not at all, by one new
open row without close timestamp, or by the conditional close update. -/
theorem step_receptions (e : StepEnv) (op : Op) (w : World DB) :
    (step e op w).db.receptions = w.db.receptions ∨
    (∃ new : Reception, new.Status = StatusInProgress ∧ new.ClosedAt = none ∧
      (step e op w).db.receptions = w.db.receptions ++ [new]) ∨
    (∃ receptionID closedAt,
      (step e op w).db.receptions = w.db.receptions.map (closeRow receptionID closedAt)) := by
  cases op with
  | CreatePVZ city =>
    left
    simp only [step, PVZService.CreatePVZ]
    split
    · rfl
    · simp only [record_db]
      have hr := pg_CreatePVZ_receptions e.pg
        { ID := uuidNil, RegistrationDate := e.call.now, City := city } w.db
      rw [← hr]
      simp only [NewRepository]
      split <;> simp_all
  | CreateReception pvzID =>
    simp only [step]
    rw [CreateReception_world]
    rcases trManagerDo_db e.call
      (ReceptionService.CreateReceptionWork (NewRepository e.pg) e.call pvzID) none w
      with h | ⟨h, hok⟩
    · left; rw [h]
    · rw [h]
      obtain ⟨-, -, hdb⟩ := CreateReceptionWork_ok _ _ _ _ hok
      rw [hdb]
      simp only [record_db, NewRepository]
      rcases pg_CreateReception_db e.pg
        { ID := uuidNil, DateTime := e.call.now, PVZID := pvzID, Status := StatusInProgress,
          CreatedAt := e.call.now2, ClosedAt := none } w.db with h2 | h2
      · left; rw [h2]
      · right; left
        rw [h2]
        exact ⟨_, rfl, rfl, rfl⟩
  | CloseLastReception pvzID =>
    simp only [step, ReceptionService.CloseLastReception]
    rcases trManagerDo_db e.call
      (ReceptionService.CloseLastReceptionWork (NewRepository e.pg) e.call pvzID) none w
      with h | ⟨h, -⟩
    · left; rw [h]
    · rw [h]
      rcases CloseLastReceptionWork_db (NewRepository e.pg) e.call pvzID (w.record .txBegin)
        with h2 | ⟨r, -, h2⟩
      · left; rw [h2]; rfl
      · rw [h2]
        rcases pg_CloseReceptionByID_receptions e.pg r.ID e.call.now w.db with h3 | h3
        · left; exact h3
        · right; right; exact ⟨_, _, h3⟩
  | AddProduct pvzID ty =>
    left
    simp only [step]
    by_cases hty : IsValidProductType ty = true
    · rw [AddProduct_world _ _ _ _ _ hty]
      rcases trManagerDo_db e.call
        (ProductService.AddProductWork (NewRepository e.pg) e.call pvzID ty) none w
        with h | ⟨h, -⟩
      · rw [h]
      · rw [h]
        rcases AddProductWork_db (NewRepository e.pg) e.call pvzID ty (w.record .txBegin)
          with h2 | ⟨r, -, h2⟩
        · rw [h2]; rfl
        · rw [h2]
          exact pg_CreateProduct_receptions _ _ _
    · rw [AddProduct_invalid_type _ _ _ _ _ (by simpa using hty)]
  | DeleteLastProduct pvzID =>
    left
    simp only [step, ProductService.DeleteLastProduct]
    rcases trManagerDo_db e.call
      (ProductService.DeleteLastProductWork (NewRepository e.pg) pvzID) () w
      with h | ⟨h, -⟩
    · rw [h]
    · rw [h]
      rcases DeleteLastProductWork_db (NewRepository e.pg) pvzID (w.record .txBegin)
        with h2 | ⟨r, -, h2⟩
      · rw [h2]; rfl
      · rw [h2]
        exact pg_DeleteLastProduct_receptions _ _ _

/-- The conditional update rewrites a row only on the transition from
`in_progress` to `close`. -/
theorem closeRow_cases (receptionID : UUID) (closedAt : Time) (r : Reception) :
    closeRow receptionID closedAt r = r ∨
    (r.Status = StatusInProgress ∧
      closeRow receptionID closedAt r
        = { r with Status := StatusClosed, ClosedAt := some closedAt }) := by
  unfold closeRow
  by_cases h : closeMatches receptionID r = true
  · right
    rw [if_pos h]
    unfold closeMatches at h
    simp only [Bool.and_eq_true, decide_eq_true_eq] at h
    exact ⟨h.2, rfl⟩
  · left
    rw [if_neg h]

theorem step_preserves_closedAt (e : StepEnv) (op : Op) (w : World DB)
    (hinv : ClosedAtInvariant w.db) : ClosedAtInvariant (step e op w).db := by
  rcases step_receptions e op w with h | ⟨new, hs, hc, h⟩ | ⟨id, t, h⟩
  · intro r hr
    rw [h] at hr
    exact hinv r hr
  · intro r hr
    rw [h, List.mem_append, List.mem_singleton] at hr
    rcases hr with hr | rfl
    · exact hinv r hr
    · rw [hc, hs]
      constructor
      · intro hne; exact absurd rfl hne
      · intro heq; exact absurd heq.symm statusClosed_ne_inProgress
  · intro r hr
    rw [h, List.mem_map] at hr
    obtain ⟨r0, hr0, rfl⟩ := hr
    rcases closeRow_cases id t r0 with h2 | ⟨-, h2⟩
    · rw [h2]; exact hinv r0 hr0
    · rw [h2]
      simp

theorem run_preserves_closedAt (ops : List (StepEnv × Op)) (w : World DB)
    (hinv : ClosedAtInvariant w.db) : ClosedAtInvariant (run ops w).db := by
  induction ops generalizing w with
  | nil => exact hinv
  | cons x xs ih =>
    unfold run
    rw [List.foldl_cons]
    exact ih _ (step_preserves_closedAt x.1 x.2 w hinv)

theorem getElem?_lt_length {α : Type} (l : List α) (i : Nat) (a : α) (h : l[i]? = some a) :
    i < l.length := by
  by_contra hge
  rw [List.getElem?_eq_none (by omega)] at h
  cases h

/-- C24: every store reached from the empty store by service calls satisfies
"a reception has a close timestamp exactly when its status is `close`", and so
does every store reached from a store that satisfies it; a service call leaves
each existing reception row as it is or takes it from `in_progress` to `close`
while writing the close timestamp, so a closed row is never rewritten; and a
row a call adds is `in_progress` without close timestamp. -/
theorem C24_close_timestamp_invariant :
    (∀ ops : List (StepEnv × Op), ClosedAtInvariant (run ops emptyWorld).db) ∧
    (∀ (ops : List (StepEnv × Op)) (w : World DB),
      ClosedAtInvariant w.db → ClosedAtInvariant (run ops w).db) ∧
    (∀ (e : StepEnv) (op : Op) (w : World DB) (i : Nat) (r : Reception),
      w.db.receptions[i]? = some r →
      ∃ r', (step e op w).db.receptions[i]? = some r' ∧
        (r' = r ∨ (r.Status = StatusInProgress ∧ ∃ closedAt,
          r' = { r with Status := StatusClosed, ClosedAt := some closedAt }))) ∧
    (∀ (e : StepEnv) (op : Op) (w : World DB) (i : Nat) (r : Reception),
      w.db.receptions[i]? = some r → r.Status = StatusClosed →
      (step e op w).db.receptions[i]? = some r) ∧
    (∀ (e : StepEnv) (op : Op) (w : World DB) (i : Nat) (r' : Reception),
      w.db.receptions.length ≤ i → (step e op w).db.receptions[i]? = some r' →
      r'.Status = StatusInProgress ∧ r'.ClosedAt = none) := by
  have hrow : ∀ (e : StepEnv) (op : Op) (w : World DB) (i : Nat) (r : Reception),
      w.db.receptions[i]? = some r →
      ∃ r', (step e op w).db.receptions[i]? = some r' ∧
        (r' = r ∨ (r.Status = StatusInProgress ∧ ∃ closedAt,
          r' = { r with Status := StatusClosed, ClosedAt := some closedAt })) := by
    intro e op w i r hi
    have hlt := getElem?_lt_length _ _ _ hi
    rcases step_receptions e op w with h | ⟨new, -, -, h⟩ | ⟨id, t, h⟩
    · exact ⟨r, by rw [h]; exact hi, Or.inl rfl⟩
    · exact ⟨r, by rw [h, List.getElem?_append_left hlt]; exact hi, Or.inl rfl⟩
    · refine ⟨closeRow id t r, by rw [h, List.getElem?_map, hi]; rfl, ?_⟩
      rcases closeRow_cases id t r with h2 | ⟨hs, h2⟩
      · exact Or.inl h2
      · exact Or.inr ⟨hs, t, h2⟩
  refine ⟨?_, run_preserves_closedAt, hrow, ?_, ?_⟩
  · intro ops
    apply run_preserves_closedAt
    intro r hr
    cases hr
  · intro e op w i r hi hclosed
    obtain ⟨r', hr', h | ⟨hs, -⟩⟩ := hrow e op w i r hi
    · rw [hr', h]
    · rw [hclosed] at hs
      exact absurd hs statusClosed_ne_inProgress
  · intro e op w i r' hge hi
    have hlt := getElem?_lt_length _ _ _ hi
    rcases step_receptions e op w with h | ⟨new, hs, hc, h⟩ | ⟨id, t, h⟩
    · rw [h] at hlt; omega
    · rw [h] at hi hlt
      simp only [List.length_append, List.length_singleton] at hlt
      have hi2 : i = w.db.receptions.length := by omega
      subst hi2
      rw [List.getElem?_append_right (le_refl _)] at hi
      simp only [Nat.sub_self, List.getElem?_cons_zero, Option.some.injEq] at hi
      subst hi
      exact ⟨hs, hc⟩
    · rw [h, List.length_map] at hlt; omega

theorem C24_close_timestamp_invariant_witness :
    ClosedAtInvariant (run sampleOps emptyWorld).db ∧
    ClosedAtInvariant sampleWorld.db ∧ ClosedAtInvariant (run sampleOps sampleWorld).db ∧
    (run sampleOps sampleWorld).db.receptions.map (fun r => (r.ID, r.Status, r.ClosedAt))
      = [(11, StatusClosed, some 6), (21, StatusClosed, some 9), (12, StatusClosed, some 44),
         (13, StatusInProgress, none), (31, StatusInProgress, none),
         (41, StatusInProgress, none)] :=
  ⟨C24_close_timestamp_invariant.1 sampleOps,
   by unfold ClosedAtInvariant; decide,
   C24_close_timestamp_invariant.2.1 sampleOps sampleWorld (by unfold ClosedAtInvariant; decide),
   by decide⟩

theorem pg_CreateProduct_db (env : PgEnv) (product : Product) (db : DB) :
    (ProductPostgres.CreateProduct env product db).2.2 = db ∨
    (ProductPostgres.CreateProduct env product db).2.2
      = DB.mk db.pvz db.receptions (db.products ++ [{ product with ID := env.newID }]) := by
  unfold ProductPostgres.CreateProduct
  cases env.fault .CreateProduct with
  | some m => left; rfl
  | none => right; rfl

theorem pg_DeleteLastProduct_db (env : PgEnv) (receptionID : UUID) (db : DB) :
    (ProductPostgres.DeleteLastProduct env receptionID db).2.2 = db ∨
    ∃ last ∈ productsOf db receptionID,
      (∀ y ∈ productsOf db receptionID, y.DateTime ≤ last.DateTime) ∧
      (ProductPostgres.DeleteLastProduct env receptionID db).2.2
        = DB.mk db.pvz db.receptions (db.products.filter (fun p => !decide (p.ID = last.ID))) := by
  unfold ProductPostgres.DeleteLastProduct
  cases env.fault .DeleteLastProduct with
  | some m => left; rfl
  | none =>
    simp only
    cases hp : pickLatest (fun p : Product => p.DateTime) env.tie
        (db.products.filter (fun p => decide (p.ReceptionID = receptionID))) with
    | none => left; rfl
    | some last =>
      right
      obtain ⟨hm, hmax⟩ := pickLatest_spec _ _ _ _ hp
      exact ⟨last, hm, hmax, rfl⟩

/-- The store after `AddProduct` on the Postgres store: as before, or with one
new product owned by an open reception of the PVZ. -/
theorem AddProduct_pg_db (e : StepEnv) (pvzID : UUID) (ty : ProductType) (w : World DB) :
    (ProductService.AddProduct (NewRepository e.pg) e.call pvzID ty w).2.db = w.db ∨
    ∃ r ∈ openReceptions w.db pvzID,
      (ProductService.AddProduct (NewRepository e.pg) e.call pvzID ty w).2.db
        = DB.mk w.db.pvz w.db.receptions
            (w.db.products ++ [Product.mk e.pg.newID e.call.now ty r.ID]) := by
  by_cases hty : IsValidProductType ty = true
  · rw [AddProduct_world _ _ _ _ _ hty]
    rcases trManagerDo_db e.call
      (ProductService.AddProductWork (NewRepository e.pg) e.call pvzID ty) none w
      with h | ⟨h, -⟩
    · left; exact h
    · rw [h]
      rcases AddProductWork_db (NewRepository e.pg) e.call pvzID ty (w.record .txBegin)
        with h2 | ⟨r, hG, h2⟩
      · left; rw [h2]; rfl
      · rw [h2]
        have hr := pg_GetOpenReception_ok_mem e.pg pvzID w.db r hG
        rcases pg_CreateProduct_db e.pg (Product.mk uuidNil e.call.now ty r.ID) w.db
          with h3 | h3
        · left; exact h3
        · right; exact ⟨r, hr, h3⟩
  · left
    rw [AddProduct_invalid_type _ _ _ _ _ (by simpa using hty)]

/-- The store after `DeleteLastProduct` on the Postgres store: as before, or
without the rows carrying the identifier of a product that has the latest
timestamp among those of an open reception of the PVZ. -/
theorem DeleteLastProduct_pg_db (e : StepEnv) (pvzID : UUID) (w : World DB) :
    (ProductService.DeleteLastProduct (NewRepository e.pg) e.call pvzID w).2.db = w.db ∨
    ∃ r ∈ openReceptions w.db pvzID, ∃ last ∈ productsOf w.db r.ID,
      (∀ y ∈ productsOf w.db r.ID, y.DateTime ≤ last.DateTime) ∧
      (ProductService.DeleteLastProduct (NewRepository e.pg) e.call pvzID w).2.db
        = DB.mk w.db.pvz w.db.receptions
            (w.db.products.filter (fun p => !decide (p.ID = last.ID))) := by
  have hsvc : (ProductService.DeleteLastProduct (NewRepository e.pg) e.call pvzID w).2.db
      = (trManagerDo e.call (ProductService.DeleteLastProductWork (NewRepository e.pg) pvzID)
          () w).2.db := rfl
  rw [hsvc]
  rcases trManagerDo_db e.call
    (ProductService.DeleteLastProductWork (NewRepository e.pg) pvzID) () w
    with h | ⟨h, -⟩
  · left; exact h
  · rw [h]
    rcases DeleteLastProductWork_db (NewRepository e.pg) pvzID (w.record .txBegin)
      with h2 | ⟨r, hG, h2⟩
    · left; rw [h2]; rfl
    · rw [h2]
      have hr := pg_GetOpenReception_ok_mem e.pg pvzID w.db r hG
      rcases pg_DeleteLastProduct_db e.pg r.ID w.db with h3 | ⟨last, hm, hmax, h3⟩
      · left; exact h3
      · right; exact ⟨r, hr, last, hm, hmax, h3⟩

theorem eq_of_mem_of_id_eq {α : Type} (key : α → UUID) (l : List α)
    (hnd : (l.map key).Nodup) (a b : α) (ha : a ∈ l) (hb : b ∈ l) (h : key a = key b) :
    a = b :=
  List.inj_on_of_nodup_map hnd ha hb h

/-- C25: on a Postgres store with unique identifiers, an `AddProduct` or
`DeleteLastProduct` call, in any environment, leaves the products of every
reception with status `close` exactly as they were; a product that the call
adds, or removes, belongs to a reception of the PVZ that has status
`in_progress` at that moment; `AddProduct` removes nothing and
`DeleteLastProduct` adds nothing. -/
theorem C25_closed_receptions_frozen (e : StepEnv) (pvzID : UUID) (productType : ProductType)
    (w : World DB) (hkeys : w.db.keysUnique) :
    (∀ rc ∈ w.db.receptions, rc.Status = StatusClosed →
      productsOf (ProductService.AddProduct (NewRepository e.pg) e.call pvzID productType w).2.db
        rc.ID = productsOf w.db rc.ID ∧
      productsOf (ProductService.DeleteLastProduct (NewRepository e.pg) e.call pvzID w).2.db
        rc.ID = productsOf w.db rc.ID) ∧
    (∀ p ∈ (ProductService.AddProduct (NewRepository e.pg) e.call pvzID productType w).2.db.products,
      p ∉ w.db.products →
      ∃ r ∈ w.db.receptions, r.PVZID = pvzID ∧ r.Status = StatusInProgress ∧
        p.ReceptionID = r.ID) ∧
    (∀ p ∈ w.db.products,
      p ∉ (ProductService.DeleteLastProduct (NewRepository e.pg) e.call pvzID w).2.db.products →
      ∃ r ∈ w.db.receptions, r.PVZID = pvzID ∧ r.Status = StatusInProgress ∧
        p.ReceptionID = r.ID) ∧
    (∀ p ∈ w.db.products,
      p ∈ (ProductService.AddProduct (NewRepository e.pg) e.call pvzID productType w).2.db.products) ∧
    (∀ p ∈ (ProductService.DeleteLastProduct (NewRepository e.pg) e.call pvzID w).2.db.products,
      p ∈ w.db.products) := by
  obtain ⟨hrec, hprod⟩ := hkeys
  -- an open and a closed reception of the store have different identifiers
  have hdiff : ∀ r ∈ openReceptions w.db pvzID, ∀ rc ∈ w.db.receptions,
      rc.Status = StatusClosed → r.ID ≠ rc.ID := by
    intro r hr rc hrc hclosed heq
    have hr' := (mem_openReceptions _ _ _).1 hr
    have := eq_of_mem_of_id_eq (fun r : Reception => r.ID) _ hrec r rc hr'.1 hrc heq
    rw [this, hclosed] at hr'
    exact statusClosed_ne_inProgress hr'.2.2
  refine ⟨?_, ?_, ?_, ?_, ?_⟩
  · intro rc hrc hclosed
    constructor
    · rcases AddProduct_pg_db e pvzID productType w with h | ⟨r, hr, h⟩
      · rw [h]
      · rw [h]
        unfold productsOf
        simp only [List.filter_append]
        have hne := hdiff r hr rc hrc hclosed
        simp [hne]
    · rcases DeleteLastProduct_pg_db e pvzID w with h | ⟨r, hr, last, hlast, -, h⟩
      · rw [h]
      · rw [h]
        unfold productsOf at hlast ⊢
        simp only [List.filter_filter]
        apply List.filter_congr
        intro p hp
        rw [List.mem_filter] at hlast
        by_cases hown : p.ReceptionID = rc.ID
        · have hpid : p.ID ≠ last.ID := by
            intro hid
            have := eq_of_mem_of_id_eq (fun p : Product => p.ID) _ hprod p last hp hlast.1 hid
            rw [this] at hown
            have hl : last.ReceptionID = r.ID := by simpa using hlast.2
            exact hdiff r hr rc hrc hclosed (hl.symm.trans hown)
          simp [hown, hpid]
        · simp [hown]
  · intro p hp hnot
    rcases AddProduct_pg_db e pvzID productType w with h | ⟨r, hr, h⟩
    · rw [h] at hp
      exact absurd hp hnot
    · rw [h] at hp
      simp only [List.mem_append, List.mem_singleton] at hp
      rcases hp with hp | rfl
      · exact absurd hp hnot
      · have hr' := (mem_openReceptions _ _ _).1 hr
        exact ⟨r, hr'.1, hr'.2.1, hr'.2.2, rfl⟩
  · intro p hp hnot
    rcases DeleteLastProduct_pg_db e pvzID w with h | ⟨r, hr, last, hlast, -, h⟩
    · rw [h] at hnot
      exact absurd hp hnot
    · rw [h] at hnot
      simp only [List.mem_filter, Bool.not_eq_true', decide_eq_false_iff_not, not_and,
        not_not] at hnot
      have hid := hnot hp
      unfold productsOf at hlast
      rw [List.mem_filter] at hlast
      have := eq_of_mem_of_id_eq (fun p : Product => p.ID) _ hprod p last hp hlast.1 hid
      have hr' := (mem_openReceptions _ _ _).1 hr
      refine ⟨r, hr'.1, hr'.2.1, hr'.2.2, ?_⟩
      rw [this]
      simpa using hlast.2
  · intro p hp
    rcases AddProduct_pg_db e pvzID productType w with h | ⟨r, hr, h⟩
    · rw [h]; exact hp
    · rw [h]; exact List.mem_append_left _ hp
  · intro p hp
    rcases DeleteLastProduct_pg_db e pvzID w with h | ⟨r, hr, last, hlast, -, h⟩
    · rw [h] at hp; exact hp
    · rw [h] at hp
      exact (List.mem_filter.1 hp).1

theorem C25_closed_receptions_frozen_witness :
    sampleWorld.db.keysUnique ∧
    productsOf (ProductService.AddProduct (NewRepository (sampleStep 105 60).pg)
        (sampleStep 105 60).call 1 ProductShoes sampleWorld).2.db 11 = productsOf sampleWorld.db 11 ∧
    productsOf (ProductService.DeleteLastProduct (NewRepository (sampleStep 0 60).pg)
        (sampleStep 0 60).call 1 sampleWorld).2.db 11 = productsOf sampleWorld.db 11 ∧
    (productsOf (ProductService.DeleteLastProduct (NewRepository (sampleStep 0 60).pg)
        (sampleStep 0 60).call 1 sampleWorld).2.db 12).map (fun p => p.ID) = [103] :=
  ⟨⟨by decide, by decide⟩,
   ((C25_closed_receptions_frozen (sampleStep 105 60) 1 ProductShoes sampleWorld
      ⟨by decide, by decide⟩).1
      { ID := 11, DateTime := 5, PVZID := 1, Status := StatusClosed, CreatedAt := 5,
        ClosedAt := some 6 } (by decide) rfl).1,
   ((C25_closed_receptions_frozen (sampleStep 0 60) 1 ProductShoes sampleWorld
      ⟨by decide, by decide⟩).1
      { ID := 11, DateTime := 5, PVZID := 1, Status := StatusClosed, CreatedAt := 5,
        ClosedAt := some 6 } (by decide) rfl).2,
   by decide⟩

/-- C26 (counterexample): the open reception 12 holds products 301 and 302 with
the same creation timestamp, 302 inserted last.  The statement orders by
`date_time` only; when the engine returns the first of the two rows,
`DeleteLastProduct` removes 301 and keeps 302, and when it returns the second,
302 is removed: the product removed is not determined, and it need not be the
one inserted last. -/
theorem C26_tie_removes_first_inserted :
    (productsOf sampleTieWorld.db 12).map (fun p => (p.ID, p.DateTime)) = [(301, 70), (302, 70)] ∧
    (ProductService.DeleteLastProduct (NewRepository (samplePgTie 0)) (sampleCall 80) 1
      sampleTieWorld).1 = none ∧
    (ProductService.DeleteLastProduct (NewRepository (samplePgTie 0)) (sampleCall 80) 1
      sampleTieWorld).2.db.products.map (fun p => p.ID) = [302] ∧
    (ProductService.DeleteLastProduct (NewRepository (samplePgTie 1)) (sampleCall 80) 1
      sampleTieWorld).2.db.products.map (fun p => p.ID) = [301] := by
  refine ⟨by decide, by decide, by decide, by decide⟩

/-- C26 (amended): on a Postgres store with unique product identifiers, when
nothing fails, `DeleteLastProduct` for a PVZ whose open reception `r` holds at
least one product succeeds and removes exactly one product: a product of `r`
whose creation timestamp is the latest of `r`; every other product of the store
stays; and when one product of `r` has strictly the latest timestamp it is the
one removed. -/
theorem C26_removes_a_latest_product (e : StepEnv) (pvzID : UUID) (w : World DB)
    (r : Reception) (he : e.noFailure) (hopen : openReceptions w.db pvzID = [r])
    (hids : (w.db.products.map (fun p => p.ID)).Nodup)
    (hne : productsOf w.db r.ID ≠ []) :
    ∃ removed ∈ productsOf w.db r.ID,
      (∀ y ∈ productsOf w.db r.ID, y.DateTime ≤ removed.DateTime) ∧
      (ProductService.DeleteLastProduct (NewRepository e.pg) e.call pvzID w).1 = none ∧
      (ProductService.DeleteLastProduct (NewRepository e.pg) e.call pvzID w).2.db.products
        = w.db.products.filter (fun p => decide (p ≠ removed)) ∧
      (∀ p, p ∈ (ProductService.DeleteLastProduct (NewRepository e.pg) e.call pvzID
          w).2.db.products ↔ (p ∈ w.db.products ∧ p ≠ removed)) ∧
      (∀ x ∈ productsOf w.db r.ID,
        (∀ y ∈ productsOf w.db r.ID, y ≠ x → y.DateTime < x.DateTime) → removed = x) := by
  obtain ⟨last, hpick⟩ := pickLatest_exists (fun p : Product => p.DateTime) e.pg.tie
    (productsOf w.db r.ID) hne
  obtain ⟨hmem, hmax⟩ := pickLatest_spec _ _ _ _ hpick
  obtain ⟨h1, h2⟩ := DeleteLastProduct_pg_success e pvzID w r last he hopen hpick
  have hlast : last ∈ w.db.products := (List.mem_filter.1 hmem).1
  have hfilter : w.db.products.filter (fun p => !decide (p.ID = last.ID))
      = w.db.products.filter (fun p => decide (p ≠ last)) := by
    apply List.filter_congr
    intro p hp
    by_cases hid : p.ID = last.ID
    · have := eq_of_mem_of_id_eq (fun p : Product => p.ID) _ hids p last hp hlast hid
      simp [this]
    · have hpne : p ≠ last := fun h => hid (by rw [h])
      simp [hid, hpne]
  refine ⟨last, hmem, hmax, h1, by rw [h2, hfilter], ?_, ?_⟩
  · intro p
    rw [h2, hfilter, List.mem_filter]
    simp
  · intro x hx hstrict
    by_contra hne2
    have h3 := hstrict last hmem hne2
    have h4 := hmax x hx
    exact absurd h3 (not_lt.2 h4)

theorem C26_removes_a_latest_product_witness :
    ∃ removed ∈ productsOf sampleWorld.db 12,
      removed.ID = 104 ∧
      (ProductService.DeleteLastProduct (NewRepository (sampleStep 0 60).pg)
        (sampleStep 0 60).call 1 sampleWorld).1 = none ∧
      (ProductService.DeleteLastProduct (NewRepository (sampleStep 0 60).pg)
        (sampleStep 0 60).call 1 sampleWorld).2.db.products
        = sampleWorld.db.products.filter (fun p => decide (p ≠ removed)) := by
  obtain ⟨removed, hmem, -, h1, h2, -, huniq⟩ :=
    C26_removes_a_latest_product (sampleStep 0 60) 1 sampleWorld
      { ID := 12, DateTime := 15, PVZID := 1, Status := StatusInProgress, CreatedAt := 15,
        ClosedAt := none }
      ⟨rfl, rfl, fun _ => rfl⟩ (by decide) (by decide) (by decide)
  have hx := huniq { ID := 104, DateTime := 17, Type_ := ProductShoes, ReceptionID := 12 }
    (by decide) (by decide)
  exact ⟨removed, hmem, by rw [hx], h1, h2⟩

/-- Without overflow the first `j` pages, one after the other, are the first
`j * limit` elements of the list. -/
theorem pagesConcat_eq_take (pvz : List PVZ) (limit : Nat) (hl : 1 ≤ limit) :
    ∀ j : Nat, j * limit < 2 ^ 63 →
      pagesConcat pvz (limit : Int) j = some (pvz.take (j * limit)) := by
  intro j
  induction j with
  | zero =>
    intro _
    simp [pagesConcat]
  | succ j ih =>
    intro hfit
    have hj : j * limit < 2 ^ 63 := by
      have : j * limit ≤ (j + 1) * limit := Nat.mul_le_mul_right _ (Nat.le_succ j)
      omega
    have hpage : paginatePVZ pvz ((j : Int) + 1) (limit : Int)
        = some ((pvz.drop (j * limit)).take limit) := by
      have hw := paginatePVZ_window pvz ((j : Int) + 1) (limit : Int) (by omega)
        (by exact_mod_cast hl)
        (by
          have h1 : ((j : Int) + 1 - 1) * (limit : Int) + (limit : Int)
              = (((j + 1) * limit : Nat) : Int) := by push_cast; ring
          rw [h1]
          exact_mod_cast hfit)
      rw [hw]
      have h2 : (((j : Int) + 1 - 1) * (limit : Int)).toNat = j * limit := by
        have : ((j : Int) + 1 - 1) * (limit : Int) = ((j * limit : Nat) : Int) := by
          push_cast; ring
        rw [this, Int.toNat_ofNat]
      rw [h2, Int.toNat_ofNat]
    unfold pagesConcat
    rw [ih hj, hpage]
    simp only [Option.some.injEq]
    rw [Nat.succ_mul, List.take_add]

/-- Pages of a list when no product overflows: the pages `1..k`, `k` the number
of pages `ceil(n / limit)`, give back the list; every page before the last has
exactly `limit` elements; and a page after `k` whose window fits a 64-bit int is
empty. -/
theorem pages_partition_without_overflow (pvz : List PVZ) (limit : Nat) (hl : 1 ≤ limit)
    (hfit : pvz.length + limit < 2 ^ 63) :
    pagesConcat pvz (limit : Int) ((pvz.length + limit - 1) / limit) = some pvz ∧
    (∀ i : Nat, 1 ≤ i → i < (pvz.length + limit - 1) / limit →
      ∃ page, paginatePVZ pvz (i : Int) (limit : Int) = some page ∧ page.length = limit) ∧
    (∀ i : Nat, (pvz.length + limit - 1) / limit < i → i * limit < 2 ^ 63 →
      paginatePVZ pvz (i : Int) (limit : Int) = some []) := by
  have hk1 : pvz.length ≤ (pvz.length + limit - 1) / limit * limit := by
    have h := Nat.div_add_mod (pvz.length + limit - 1) limit
    have h2 := Nat.mod_lt (pvz.length + limit - 1) (by omega : 0 < limit)
    have h3 : limit * ((pvz.length + limit - 1) / limit)
        = (pvz.length + limit - 1) / limit * limit := Nat.mul_comm _ _
    omega
  have hk2 : (pvz.length + limit - 1) / limit * limit ≤ pvz.length + limit - 1 :=
    Nat.div_mul_le_self _ _
  refine ⟨?_, ?_, ?_⟩
  · rw [pagesConcat_eq_take pvz limit hl _ (by omega), List.take_of_length_le hk1]
  · intro i hi1 hik
    have hle : i * limit + limit ≤ (pvz.length + limit - 1) / limit * limit := by
      have : (i + 1) * limit ≤ (pvz.length + limit - 1) / limit * limit :=
        Nat.mul_le_mul_right _ hik
      rw [Nat.succ_mul] at this
      exact this
    obtain ⟨j, rfl⟩ : ∃ j, i = j + 1 := ⟨i - 1, by omega⟩
    have hjl : j * limit + limit = (j + 1) * limit := by rw [Nat.succ_mul]
    have hw := paginatePVZ_window pvz (((j + 1 : Nat) : Int)) (limit : Int)
      (by exact_mod_cast hi1) (by exact_mod_cast hl)
      (by
        have h1 : ((((j + 1 : Nat) : Int)) - 1) * (limit : Int) + (limit : Int)
            = (((j + 1) * limit : Nat) : Int) := by push_cast; ring
        rw [h1]
        have : (j + 1) * limit < 2 ^ 63 := by omega
        exact_mod_cast this)
    refine ⟨_, hw, ?_⟩
    have h2 : (((((j + 1 : Nat) : Int)) - 1) * (limit : Int)).toNat = j * limit := by
      have : ((((j + 1 : Nat) : Int)) - 1) * (limit : Int) = ((j * limit : Nat) : Int) := by
        push_cast; ring
      rw [this, Int.toNat_ofNat]
    rw [h2, Int.toNat_ofNat, List.length_take, List.length_drop]
    omega
  · intro i hki hifit
    have hge : (pvz.length + limit - 1) / limit * limit + limit ≤ i * limit := by
      have : ((pvz.length + limit - 1) / limit + 1) * limit ≤ i * limit :=
        Nat.mul_le_mul_right _ hki
      rw [Nat.succ_mul] at this
      exact this
    have hipos : 0 < i := Nat.lt_of_le_of_lt (Nat.zero_le _) hki
    obtain ⟨j, rfl⟩ : ∃ j, i = j + 1 := ⟨i - 1, by omega⟩
    have hjl : (j + 1) * limit = j * limit + limit := Nat.succ_mul _ _
    have hw := paginatePVZ_window pvz (((j + 1 : Nat) : Int)) (limit : Int)
      (by push_cast; omega) (by exact_mod_cast hl)
      (by
        have h1 : ((((j + 1 : Nat) : Int)) - 1) * (limit : Int) + (limit : Int)
            = (((j + 1) * limit : Nat) : Int) := by push_cast; ring
        rw [h1]
        exact_mod_cast hifit)
    rw [hw]
    have h2 : (((((j + 1 : Nat) : Int)) - 1) * (limit : Int)).toNat = j * limit := by
      have : ((((j + 1 : Nat) : Int)) - 1) * (limit : Int) = ((j * limit : Nat) : Int) := by
        push_cast; ring
      rw [this, Int.toNat_ofNat]
    rw [h2, List.drop_eq_nil_of_le (by omega), List.take_nil]

/-- C29 (failing input): 25 PVZ and `limit = 4` give `k = 7` pages, and the pages
`1..7` do give back the list; but the page `2^62 + 1`, which lies after `k`, is
not empty: the 64-bit product `(page-1)*limit` wraps to 0 and the first four PVZ
are returned again. -/
theorem C29_page_after_last_not_empty :
    (samplePVZ 25).length = 25 ∧ (25 + 4 - 1) / 4 = 7 ∧
    pagesConcat (samplePVZ 25) 4 7 = some (samplePVZ 25) ∧
    (7 : Int) < 4611686018427387905 ∧ (4611686018427387905 : Int) < 2 ^ 63 ∧
    paginatePVZ (samplePVZ 25) 4611686018427387905 4 = some ((samplePVZ 25).take 4) ∧
    paginatePVZ (samplePVZ 25) 4611686018427387905 4 ≠ some [] := by
  refine ⟨by decide, by decide, by decide, by decide, by decide, by decide, by decide⟩

end Pvz
